import Mathlib

/-!
# tg: widget composition over a Tcl/Tk interpreter

A shallow embedding of `tg.go`.  The package keeps its state in package-level
variables and in objects reached through pointers; here that state is one
explicit `World` passed through every operation.

Conventions of the embedding:

* Go `int` and `uint` values are `Int` / `Nat` (the only arithmetic on them is
  `+ 1`, comparisons and bit masks); the C `unsigned int` that carries a
  callback index through the interpreter is kept modulo `2 ^ 32`.
* Pointers to widget structs are references (`Ref`) into `World.heap`; a nil
  interface value is `none`.
* The Tcl interpreter is external: `World.tcl` answers every script from the
  history of scripts sent so far, and `World.log` records those scripts.
* A Go run-time panic is a `Fault`.
-/

namespace Tg

/-! ## Flags -/

def Normal : Nat := 0
def Expand : Nat := 1 <<< 1
def ScrollX : Nat := 1 <<< 2
def ScrollY : Nat := 1 <<< 3
def Password : Nat := 1 <<< 4
def Horizontal : Nat := 1 <<< 5
def DoNotClose : Nat := 1 <<< 6
def AskForClose : Nat := 1 <<< 7
def NotebookBreakB1 : Nat := 1 <<< 8
def NotModal : Nat := 1 <<< 9
def Topmost : Nat := 1 <<< 10

/-! ## Data model -/

/-- A pointer to a widget struct: an index into `World.heap`. -/
abbrev Ref := Nat

/-- Run-time panics of the Go program.  `illTyped` marks a heap shape that the
Go type system rules out (a reference to an object of another struct type). -/
inductive Fault
  | indexOutOfRange
  | nilDereference
  | illTyped
deriving DecidableEq, Repr

/-- The Go struct `widget`. -/
structure widget where
  id : String
  name : String
  initParam : String
  flags : Nat
deriving DecidableEq, Repr

structure Box where
  widget : widget
deriving DecidableEq, Repr

structure Splitter where
  widget : widget
deriving DecidableEq, Repr

structure Tab where
  Box : Box
  title : String
deriving DecidableEq, Repr

/-- The Go struct `Notebook`; the map `tabs` is an association list, newest
binding first. -/
structure Notebook where
  widget : widget
  tabs : List (String × Ref)
deriving DecidableEq, Repr

structure Grid where
  widget : widget
  columns : Int
  row : Int
  col : Int
deriving DecidableEq, Repr

structure Label where
  widget : widget
deriving DecidableEq, Repr

structure Button where
  widget : widget
deriving DecidableEq, Repr

structure Check where
  widget : widget
  state : Bool
  variable_ : String
deriving DecidableEq, Repr

structure Entry where
  widget : widget
  text : String
deriving DecidableEq, Repr

/-- The Go struct `Listbox`.  The field `b` is a pointer to a Box that only the
listbox holds; the Box is stored in place. -/
structure Listbox where
  widget : widget
  b : Box
  list : List String
  listvar : String
deriving DecidableEq, Repr

structure Tree where
  widget : widget
  b : Box
deriving DecidableEq, Repr

structure Image where
  widget : widget
  imageFile : String
deriving DecidableEq, Repr

structure Combobox where
  widget : widget
  list : List String
deriving DecidableEq, Repr

structure Table where
  widget : widget
  b : Box
  data : List (List String)
deriving DecidableEq, Repr

structure Text where
  widget : widget
  b : Box
  text : String
deriving DecidableEq, Repr

/-- A calendar date, the part of `time.Time` the package reads. -/
structure Time where
  year : Int
  month : Int
  day : Int
deriving DecidableEq, Repr

structure Dialog where
  id : String
  title : String
  Box : Box
deriving DecidableEq, Repr

structure Calendar where
  Box : Box
  lb : Ref
  bt : Ref
  ltextvariable : String
  selWidgetId : String
  selWidgetBg : String
  lbtime : Ref
  dates : List Ref
  ltime : Time
  day : Int
  tl : Option Ref
deriving DecidableEq, Repr

/-- A heap object: one of the widget structs of the package. -/
inductive Obj
  | box (b : Box)
  | splitter (s : Splitter)
  | tab (t : Tab)
  | notebook (n : Notebook)
  | grid (g : Grid)
  | label (l : Label)
  | button (b : Button)
  | check (c : Check)
  | entry (e : Entry)
  | listbox (l : Listbox)
  | tree (t : Tree)
  | image (i : Image)
  | combobox (c : Combobox)
  | table (t : Table)
  | text (t : Text)
  | calendar (c : Calendar)
  | dialog (d : Dialog)
deriving DecidableEq, Repr

/-- A value of the map `widgets`: a pointer to a struct, or a pointer to the
Box embedded in a struct (what the promoted `Box.create` of a Tab or Dialog
stores). -/
inductive Instance
  | obj (r : Ref)
  | embeddedBox (r : Ref)
deriving DecidableEq, Repr

/-- A `func(string)` stored in `callbackCmds`.  `app k` is a function supplied by
the application; the other constructors are the closures and method values the
package itself registers, with the application function they wrap where there is
one. -/
inductive Callable
  | app (k : Nat)
  | notebookDouble1 (n : Ref)
  | notebookIfSelect (n : Ref) (f : Nat)
  | entryIfPressEnter (e : Ref) (f : Nat)
  | listboxIfSelect (l : Ref) (f : Nat)
  | treeIfSelect (t : Ref) (f : Nat)
  | comboboxIfSelect (c : Ref) (f : Nat)
  | tableIfSelect (t : Ref) (f : Nat)
  | calendarCall (t : Ref)
  | calendarDecYear (t : Ref)
  | calendarDecMonth (t : Ref)
  | calendarIncMonth (t : Ref)
  | calendarIncYear (t : Ref)
  | calendarMakeSelect (t : Ref)
  | calendarCancel (t : Ref)
  | calendarAccept (t : Ref)
deriving DecidableEq, Repr

/-- What the interpreter answers to one script: the status of `Tcl_Eval` and the
string `Tcl_GetStringResult` returns afterwards. -/
structure Reply where
  ok : Bool
  text : String
deriving DecidableEq, Repr

/-- The package-level variables, the heap and the interpreter.

* `newId`: the counter captured by the closure of `initIdGenerator`;
* `callbackCmds`, `widgets`: the package variables of those names;
* `commands`: the commands created by `RegisterCmd`, as name and client data;
* `vars`: the calls of `Tcl_SetVar`, as name and value;
* `log`: the scripts passed to `Tcl_Eval`, oldest first;
* `tcl`: the reply of the interpreter to the last script of a history;
* `lastResult`: what `Tcl_GetStringResult` returns;
* `stdout`: the lines printed with `fmt.Println`;
* `now`: the reading of the clock. -/
structure World where
  newId : Nat
  callbackCmds : List Callable
  commands : List (String × Nat)
  vars : List (String × String)
  widgets : List (String × Instance)
  heap : List Obj
  log : List String
  tcl : List String → Reply
  lastResult : String
  stdout : List String
  now : Time

/-- Lookup in a Go map kept as an association list. -/
def mapGet {ν : Type} (m : List (String × ν)) (k : String) : Option ν :=
  match m with
  | [] => none
  | (k1, v) :: t => if k = k1 then some v else mapGet t k

/-- Assignment `m[k] = v` in a Go map kept as an association list. -/
def mapSet {ν : Type} (m : List (String × ν)) (k : String) (v : ν) : List (String × ν) :=
  (k, v) :: m

/-- The state `InitRoot` sets up before it builds the root window: empty
`callbackCmds` and `widgets`, a fresh identifier generator. -/
def World.init (tcl : List String → Reply) (now : Time) : World :=
  { newId := 0, callbackCmds := [], commands := [], vars := [], widgets := [],
    heap := [], log := [], tcl := tcl, lastResult := "", stdout := [], now := now }

/-- Allocation of a new struct: `&T{...}`. -/
def World.alloc (w : World) (o : Obj) : Ref × World :=
  (w.heap.length, { w with heap := w.heap ++ [o] })

/-- Store through a pointer. -/
def World.store (w : World) (r : Ref) (o : Obj) : World :=
  { w with heap := w.heap.set r o }

/-! ## Strings, identifiers, callbacks, evaluation -/

/-- The Go function `strconv.Itoa` on a non-negative value. -/
def Itoa (n : Nat) : String := toString n

/-- The verb `%d` of `fmt.Sprintf`. -/
def fmtD (i : Int) : String := toString i

def tkstr (s : String) : String :=
  "\"" ++ s ++ "\""

def tklist (l : List String) : String :=
  let ls := " [list "
  let ls := l.foldl (fun ls s => ls ++ (tkstr s ++ " ")) ls
  ls ++ "]"

/-- The counter value the closure of `initIdGenerator` starts from. -/
def initIdGenerator : Nat := 0

/-- The closure returned by `initIdGenerator`, held in `genNextId`:
`newId++; return strconv.Itoa(newId)`. -/
def genNextId (w : World) : String × World :=
  let newId := w.newId + 1
  (Itoa newId, { w with newId := newId })

/-- The conversion `C.uint(n)` of a non-negative Go `int`. -/
def toCuint (n : Nat) : Nat := n % 2 ^ 32

/-- The C function `RegisterCmd`: `Tcl_CreateCommand` with the index as client
data. -/
def RegisterCmd (cmdName : String) (cmdIndex : Nat) (w : World) : World :=
  { w with commands := w.commands ++ [(cmdName, cmdIndex)] }

/-- The exported `cmdHandler`: `callbackCmds[cmdIndex](C.GoString(ss))`.  Its whole
body is one call; the result is that call, the callable taken from the table and
the argument passed to it, or the fault of the index expression. -/
def cmdHandler (cmdIndex : Nat) (ss : String) (w : World) : Except Fault (Callable × String) :=
  match w.callbackCmds[cmdIndex]? with
  | none => .error .indexOutOfRange
  | some f => .ok (f, ss)

def addCallbackCmd (command : Callable) (w : World) : String × World :=
  let (name, w) := genNextId w
  let w := { w with callbackCmds := w.callbackCmds ++ [command] }
  let w := RegisterCmd name (toCuint (w.callbackCmds.length - 1)) w
  (name, w)

def SetVar (name : String) (val : String) (w : World) : World :=
  { w with vars := w.vars ++ [(name, val)] }

/-- The function `eval`: the script goes to `Tcl_Eval`; on a status other than
`TCL_OK` the result string of the interpreter is printed and returned as the
error. -/
def eval (script : String) (w : World) : Option String × World :=
  let log := w.log ++ [script]
  let r := w.tcl log
  if r.ok then
    (none, { w with log := log, lastResult := r.text })
  else
    (some r.text, { w with log := log, lastResult := r.text, stdout := w.stdout ++ [r.text] })

def result (w : World) : String := w.lastResult

/-! ## The widget base -/

/-- The method `(*widget).create`.  The receiver is a widget stored inside some
struct; it is passed by value and returned updated, and the caller writes it
back. -/
def widget.create (wd : widget) (parentId : String) (w : World) :
    (String × Nat) × widget × World :=
  let (tok, w) := genNextId w
  let wd := { wd with id := parentId ++ "." ++ tok }
  let tkcmd := wd.name ++ " " ++ wd.id ++ " " ++ wd.initParam
  let w := (eval tkcmd w).2
  ((wd.id, wd.flags), wd, w)

/-- The method `(*widget).Bind`; `strings.Split(params, "")` cuts `params` into
its characters. -/
def widget.Bind (wd : widget) (event : String) (params : String) (cb : Callable)
    (w : World) : World :=
  let params :=
    if params ≠ "" then
      let p := params.toList.map String.singleton
      " %" ++ " %".intercalate p
    else params
  let (tok, w) := addCallbackCmd cb w
  let tkcmd := "bind " ++ wd.id ++ " " ++ event ++ " \x7b" ++ tok ++ params ++ "\x7d"
  (eval tkcmd w).2

/-- The Box a `*Box` receiver points to: a Box struct, or the Box embedded in a
Tab, a Dialog or a Calendar. -/
def Obj.Box? : Obj → Option Box
  | .box b => some b
  | .tab t => some t.Box
  | .dialog d => some d.Box
  | .calendar c => some c.Box
  | _ => none

/-- The field `widget` of a struct, as promoted through an embedded Box. -/
def Obj.widget : Obj → widget
  | .box b => b.widget
  | .splitter s => s.widget
  | .tab t => t.Box.widget
  | .notebook n => n.widget
  | .grid g => g.widget
  | .label l => l.widget
  | .button b => b.widget
  | .check c => c.widget
  | .entry e => e.widget
  | .listbox l => l.widget
  | .tree t => t.widget
  | .image i => i.widget
  | .combobox c => c.widget
  | .table t => t.widget
  | .text t => t.widget
  | .calendar c => c.Box.widget
  | .dialog d => d.Box.widget

/-! ## Constructors -/

/-- The struct `NewBox` builds.  Where the package copies it into another
struct (`*b`), the copy is all that remains reachable and no heap object is kept
for the original. -/
def Box.new (flags : Nat) : Box :=
  let initParam := ""
  ⟨⟨"", "ttk::frame", initParam, flags⟩⟩

def NewBox (flags : Nat) (w : World) : Ref × World :=
  w.alloc (.box (Box.new flags))

def NewSplitter (flags : Nat) (w : World) : Ref × World :=
  let initParam := ""
  let initParam := if flags &&& Horizontal ≠ 0 then initParam ++ " -orient horizontal" else initParam
  let wd : widget := ⟨"", "ttk::panedwindow", initParam, flags⟩
  w.alloc (.splitter ⟨wd⟩)

def NewNotebook (flags : Nat) (w : World) : Ref × World :=
  let initParam := ""
  let wd : widget := ⟨"", "ttk::notebook", initParam, flags⟩
  w.alloc (.notebook ⟨wd, []⟩)

def NewGrid (columns : Int) (flags : Nat) (w : World) : Ref × World :=
  let initParam := ""
  let wd : widget := ⟨"", "ttk::frame", initParam, flags⟩
  w.alloc (.grid ⟨wd, columns, 0, 0⟩)

def NewLabel (text : String) (flags : Nat) (w : World) : Ref × World :=
  let initParam := " -text " ++ tkstr text
  let wd : widget := ⟨"", "ttk::label", initParam, flags⟩
  w.alloc (.label ⟨wd⟩)

def NewButton (text : String) (flags : Nat) (w : World) : Ref × World :=
  let initParam := " -text " ++ tkstr text
  let wd : widget := ⟨"", "ttk::button", initParam, flags⟩
  w.alloc (.button ⟨wd⟩)

/-! ## create -/

/-- The method `(*Box).create`, also reached through a Tab or a Dialog, which
promote it; there the pointer stored in `widgets` is the one to the embedded
Box. -/
def Box.create (r : Ref) (parentId : String) (w : World) :
    Except Fault ((String × Nat) × World) :=
  match w.heap[r]? with
  | none => .error .nilDereference
  | some (.box b) =>
    let (res, wd, w) := b.widget.create parentId w
    let w := w.store r (.box { b with widget := wd })
    let w := { w with widgets := mapSet w.widgets res.1 (.obj r) }
    .ok (res, w)
  | some (.tab t) =>
    let (res, wd, w) := t.Box.widget.create parentId w
    let w := w.store r (.tab { t with Box := { t.Box with widget := wd } })
    let w := { w with widgets := mapSet w.widgets res.1 (.embeddedBox r) }
    .ok (res, w)
  | some (.dialog d) =>
    let (res, wd, w) := d.Box.widget.create parentId w
    let w := w.store r (.dialog { d with Box := { d.Box with widget := wd } })
    let w := { w with widgets := mapSet w.widgets res.1 (.embeddedBox r) }
    .ok (res, w)
  | some _ => .error .illTyped

def Splitter.create (r : Ref) (parentId : String) (w : World) :
    Except Fault ((String × Nat) × World) :=
  match w.heap[r]? with
  | none => .error .nilDereference
  | some (.splitter s) =>
    let (res, wd, w) := s.widget.create parentId w
    let w := w.store r (.splitter { s with widget := wd })
    let w := { w with widgets := mapSet w.widgets res.1 (.obj r) }
    .ok (res, w)
  | some _ => .error .illTyped

def Notebook.create (r : Ref) (parentId : String) (w : World) :
    Except Fault ((String × Nat) × World) :=
  match w.heap[r]? with
  | none => .error .nilDereference
  | some (.notebook n) =>
    let (res, wd, w) := n.widget.create parentId w
    let w := w.store r (.notebook { n with widget := wd })
    let w := { w with widgets := mapSet w.widgets res.1 (.obj r) }
    let w :=
      if res.2 &&& NotebookBreakB1 ≠ 0 then
        let w := (eval ("bind " ++ wd.id ++ " <Double-1> \x7bbreak\x7d") w).2
        (eval ("bind " ++ wd.id ++ " <Button-1> \x7bbreak\x7d") w).2
      else
        widget.Bind wd "<Double-1>" "" (.notebookDouble1 r) w
    .ok (res, w)
  | some _ => .error .illTyped

def Grid.create (r : Ref) (parentId : String) (w : World) :
    Except Fault ((String × Nat) × World) :=
  match w.heap[r]? with
  | none => .error .nilDereference
  | some (.grid g) =>
    let (res, wd, w) := g.widget.create parentId w
    let w := w.store r (.grid { g with widget := wd })
    let w := { w with widgets := mapSet w.widgets res.1 (.obj r) }
    .ok (res, w)
  | some _ => .error .illTyped

def Label.create (r : Ref) (parentId : String) (w : World) :
    Except Fault ((String × Nat) × World) :=
  match w.heap[r]? with
  | none => .error .nilDereference
  | some (.label l) =>
    let (res, wd, w) := l.widget.create parentId w
    let w := w.store r (.label { l with widget := wd })
    let w := { w with widgets := mapSet w.widgets res.1 (.obj r) }
    .ok (res, w)
  | some _ => .error .illTyped

def Button.create (r : Ref) (parentId : String) (w : World) :
    Except Fault ((String × Nat) × World) :=
  match w.heap[r]? with
  | none => .error .nilDereference
  | some (.button b) =>
    let (res, wd, w) := b.widget.create parentId w
    let w := w.store r (.button { b with widget := wd })
    let w := { w with widgets := mapSet w.widgets res.1 (.obj r) }
    .ok (res, w)
  | some _ => .error .illTyped

def Check.create (r : Ref) (parentId : String) (w : World) :
    Except Fault ((String × Nat) × World) :=
  match w.heap[r]? with
  | none => .error .nilDereference
  | some (.check c) =>
    let (res, wd, w) := c.widget.create parentId w
    let w := { w with widgets := mapSet w.widgets res.1 (.obj r) }
    let (tok, w) := genNextId w
    let c := { c with widget := wd, variable_ := tok }
    let w := w.store r (.check c)
    let w := if c.state then SetVar c.variable_ "1" w else SetVar c.variable_ "0" w
    let w := (eval (res.1 ++ " configure -variable " ++ c.variable_) w).2
    .ok (res, w)
  | some _ => .error .illTyped

def Entry.create (r : Ref) (parentId : String) (w : World) :
    Except Fault ((String × Nat) × World) :=
  match w.heap[r]? with
  | none => .error .nilDereference
  | some (.entry e) =>
    let (res, wd, w) := e.widget.create parentId w
    let w := w.store r (.entry { e with widget := wd })
    let w := { w with widgets := mapSet w.widgets res.1 (.obj r) }
    let w := (eval (res.1 ++ " insert 0 " ++ tkstr e.text) w).2
    .ok (res, w)
  | some _ => .error .illTyped

def Image.create (r : Ref) (parentId : String) (w : World) :
    Except Fault ((String × Nat) × World) :=
  match w.heap[r]? with
  | none => .error .nilDereference
  | some (.image i) =>
    let (res, wd, w) := i.widget.create parentId w
    let w := w.store r (.image { i with widget := wd })
    let w := { w with widgets := mapSet w.widgets res.1 (.obj r) }
    let w := (eval (res.1 ++ " configure -image " ++ tkstr i.imageFile) w).2
    .ok (res, w)
  | some _ => .error .illTyped

def Combobox.create (r : Ref) (parentId : String) (w : World) :
    Except Fault ((String × Nat) × World) :=
  match w.heap[r]? with
  | none => .error .nilDereference
  | some (.combobox c) =>
    let (res, wd, w) := c.widget.create parentId w
    let w := { w with widgets := mapSet w.widgets res.1 (.obj r) }
    let c := { c with widget := { wd with id := res.1 } }
    let w := w.store r (.combobox c)
    let w := if c.list.length > 0 then (eval (res.1 ++ " current 0") w).2 else w
    .ok (res, w)
  | some _ => .error .illTyped

/-- The statements that `Listbox.create`, `Tree.create`, `Table.create` and
`Text.create` share word for word, from the assignment of the id of the inner
widget to `grid columnconfigure`.  `own` is the widget of the struct, `b` its
viewport Box after `b.widget.create`; the updated `own` is returned. -/
def createScrolled (own : widget) (b : Box) (w : World) : widget × World :=
  let (tok, w) := genNextId w
  let own := { own with id := b.widget.id ++ "." ++ tok }
  let tkcmd := own.name ++ " " ++ own.id ++ " " ++ own.initParam
  let w := (eval tkcmd w).2
  let ys := ""
  let (ys, w) :=
    if own.flags &&& ScrollY ≠ 0 then
      let (tok, w) := genNextId w
      let ys := b.widget.id ++ "." ++ tok
      let tkcmd := own.id ++ " configure -yscrollcommand \"" ++ ys ++ " set\""
      let w := (eval tkcmd w).2
      let tkcmd := "ttk::scrollbar " ++ ys ++ " -command \"" ++ own.id ++ " yview\" -orient vertical"
      let w := (eval tkcmd w).2
      (ys, w)
    else (ys, w)
  let tkcmd := "grid " ++ own.id ++ " " ++ ys ++ " -sticky news"
  let w := (eval tkcmd w).2
  let w :=
    if own.flags &&& ScrollX ≠ 0 then
      let (tok, w) := genNextId w
      let xs := b.widget.id ++ "." ++ tok
      let tkcmd := "ttk::scrollbar " ++ xs ++ " -command \"" ++ own.id ++ " xview\" -orient horizontal"
      let w := (eval tkcmd w).2
      let tkcmd := own.id ++ " configure -xscrollcommand \"" ++ xs ++ " set\""
      let w := (eval tkcmd w).2
      let tkcmd := "grid " ++ xs ++ " -sticky ew"
      (eval tkcmd w).2
    else w
  let tkcmd := "grid rowconfigure " ++ b.widget.id ++ " 0 -weight 1"
  let w := (eval tkcmd w).2
  let tkcmd := "grid columnconfigure " ++ b.widget.id ++ " 0 -weight 1"
  let w := (eval tkcmd w).2
  (own, w)

def Listbox.ListToBox (l : Listbox) (w : World) : World :=
  (eval ("set " ++ l.listvar ++ tklist l.list) w).2

def Listbox.create (r : Ref) (parentId : String) (w : World) :
    Except Fault ((String × Nat) × World) :=
  match w.heap[r]? with
  | none => .error .nilDereference
  | some (.listbox l) =>
    let (res, bwd, w) := l.b.widget.create parentId w
    let w := { w with widgets := mapSet w.widgets res.1 (.obj r) }
    let b : Box := { l.b with widget := bwd }
    let (own, w) := createScrolled l.widget b w
    let l := { l with widget := own, b := b }
    let w := w.store r (.listbox l)
    let w := l.ListToBox w
    .ok (res, w)
  | some _ => .error .illTyped

def Tree.create (r : Ref) (parentId : String) (w : World) :
    Except Fault ((String × Nat) × World) :=
  match w.heap[r]? with
  | none => .error .nilDereference
  | some (.tree t) =>
    let (res, bwd, w) := t.b.widget.create parentId w
    let w := { w with widgets := mapSet w.widgets res.1 (.obj r) }
    let b : Box := { t.b with widget := bwd }
    let (own, w) := createScrolled t.widget b w
    let w := w.store r (.tree { t with widget := own, b := b })
    .ok (res, w)
  | some _ => .error .illTyped

/-- The loop at the end of `Table.create`; `i[len(i)-1]` and `i[0]` fault on a
row without elements. -/
def Table.insertRows (id : String) : List (List String) → World → Except Fault World
  | [], w => .ok w
  | i :: rest, w =>
    match i.getLast?, i.head? with
    | some last, some first =>
      let tkcmd := id ++ " insert \x7b\x7d end -id " ++ last ++ " -text " ++ tkstr first
        ++ " -values " ++ tklist i
      Table.insertRows id rest (eval tkcmd w).2
    | _, _ => .error .indexOutOfRange

def Table.create (r : Ref) (parentId : String) (w : World) :
    Except Fault ((String × Nat) × World) :=
  match w.heap[r]? with
  | none => .error .nilDereference
  | some (.table t) =>
    let (res, bwd, w) := t.b.widget.create parentId w
    let w := { w with widgets := mapSet w.widgets res.1 (.obj r) }
    let b : Box := { t.b with widget := bwd }
    let (own, w) := createScrolled t.widget b w
    let t := { t with widget := own, b := b }
    let w := w.store r (.table t)
    match Table.insertRows t.widget.id t.data w with
    | .error e => .error e
    | .ok w => .ok (res, w)
  | some _ => .error .illTyped

def Text.create (r : Ref) (parentId : String) (w : World) :
    Except Fault ((String × Nat) × World) :=
  match w.heap[r]? with
  | none => .error .nilDereference
  | some (.text t) =>
    let (res, bwd, w) := t.b.widget.create parentId w
    let w := { w with widgets := mapSet w.widgets res.1 (.obj r) }
    let b : Box := { t.b with widget := bwd }
    let (own, w) := createScrolled t.widget b w
    let t := { t with widget := own, b := b }
    let w := w.store r (.text t)
    let w := (eval (t.widget.id ++ " insert 1.0 " ++ tkstr t.text) w).2
    .ok (res, w)
  | some _ => .error .illTyped

/-! ## Box.Add -/

/-- The type of the interface method `Component.create`, the receiver first. -/
abbrev CreateFn := Ref → String → World → Except Fault ((String × Nat) × World)

/-- One round of the loop of `(*Box).Add`, for the component `c`; `create` is the
method the interface value dispatches to. -/
def Box.addOne (create : CreateFn) (b : Ref) (c : Option Ref) (w : World) :
    Except Fault World :=
  match (w.heap[b]?).bind Obj.Box? with
  | none => .error .illTyped
  | some bx =>
    match c with
    | none => .error .nilDereference
    | some c =>
      match create c bx.widget.id w with
      | .error e => .error e
      | .ok ((newId, flags), w) =>
        match (w.heap[b]?).bind Obj.Box? with
        | none => .error .illTyped
        | some bx =>
          let tkcmd := "pack " ++ newId ++ " -padx 1 -pady 1"
          let tkcmd := if bx.widget.flags &&& Horizontal ≠ 0 then tkcmd ++ " -side left" else tkcmd
          let tkcmd := tkcmd ++ " -fill "
          let expand : Bool := flags &&& Expand ≠ 0
          let tkcmd :=
            if expand then tkcmd ++ "both -expand yes"
            else if bx.widget.flags &&& Horizontal ≠ 0 then tkcmd ++ "y"
            else tkcmd ++ "x"
          .ok (eval tkcmd w).2

/-- The loop of `(*Box).Add` over its arguments. -/
def Box.addLoop (create : CreateFn) (b : Ref) : List (Option Ref) → World → Except Fault World
  | [], w => .ok w
  | c :: cs, w =>
    match Box.addOne create b c w with
    | .error e => .error e
    | .ok w => Box.addLoop create b cs w

/-! ## Calendar.create and the interface method -/

/-- Decimal digits of `n`, padded with zeros on the left to `width`. -/
def padZero (n : Nat) (width : Nat) : String :=
  let s := toString n
  "".pushn '0' (width - s.length) ++ s

/-- The method `Time.Format` with the layout `02.01.2006`, for a date of the
common era. -/
def Time.Format (t : Time) : String :=
  padZero t.day.toNat 2 ++ "." ++ padZero t.month.toNat 2 ++ "." ++ padZero t.year.toNat 4

/-- The method `create` of the interface values `t.lb` and `t.bt` that
`Calendar.create` passes to `Add`: a `*Label` and a `*Button`. -/
def createLeaf : CreateFn := fun c parentId w =>
  match w.heap[c]? with
  | none => .error .nilDereference
  | some (.label _) => Label.create c parentId w
  | some (.button _) => Button.create c parentId w
  | some _ => .error .illTyped

def Button.IfPressed (b : Button) (command : Callable) (w : World) : World :=
  let (tok, w) := addCallbackCmd command w
  (eval (b.widget.id ++ " configure -command " ++ tok) w).2

def Calendar.create (r : Ref) (parentId : String) (w : World) :
    Except Fault ((String × Nat) × World) :=
  match w.heap[r]? with
  | none => .error .nilDereference
  | some (.calendar t) =>
    let (res, wd, w) := t.Box.widget.create parentId w
    let w := w.store r (.calendar { t with Box := { t.Box with widget := wd } })
    let w := { w with widgets := mapSet w.widgets res.1 (.obj r) }
    match Box.addLoop createLeaf r [some t.lb, some t.bt] w with
    | .error e => .error e
    | .ok w =>
      let ltime := w.now.Format
      match w.heap[r]? with
      | some (.calendar t) =>
        let (tok, w) := genNextId w
        let t := { t with ltextvariable := tok }
        let w := w.store r (.calendar t)
        let w := SetVar t.ltextvariable ltime w
        match w.heap[t.lb]?, w.heap[t.bt]? with
        | some (.label lb), some (.button bt) =>
          let w := (eval (lb.widget.id ++ " configure -textvariable " ++ t.ltextvariable) w).2
          let w := bt.IfPressed (.calendarCall r) w
          .ok (res, w)
        | _, _ => .error .illTyped
      | _ => .error .illTyped
  | some _ => .error .illTyped

/-- The interface method `Component.create` on a non-nil interface value:
dispatch on the struct the pointer refers to. -/
def Component.create : CreateFn := fun c parentId w =>
  match w.heap[c]? with
  | none => .error .nilDereference
  | some (.box _) => Box.create c parentId w
  | some (.tab _) => Box.create c parentId w
  | some (.dialog _) => Box.create c parentId w
  | some (.splitter _) => Splitter.create c parentId w
  | some (.notebook _) => Notebook.create c parentId w
  | some (.grid _) => Grid.create c parentId w
  | some (.label _) => Label.create c parentId w
  | some (.button _) => Button.create c parentId w
  | some (.check _) => Check.create c parentId w
  | some (.entry _) => Entry.create c parentId w
  | some (.listbox _) => Listbox.create c parentId w
  | some (.tree _) => Tree.create c parentId w
  | some (.image _) => Image.create c parentId w
  | some (.combobox _) => Combobox.create c parentId w
  | some (.table _) => Table.create c parentId w
  | some (.text _) => Text.create c parentId w
  | some (.calendar _) => Calendar.create c parentId w

/-- The method `(*Box).Add`. -/
def Box.Add (b : Ref) (components : List (Option Ref)) (w : World) : Except Fault World :=
  Box.addLoop Component.create b components w

/-! ## Splitter.Add -/

/-- One round of the loop of `(*Splitter).Add`. -/
def Splitter.addOne (s : Ref) (c : Option Ref) (w : World) : Except Fault World :=
  match w.heap[s]? with
  | some (.splitter sp) =>
    match c with
    | none => .error .nilDereference
    | some c =>
      match Component.create c sp.widget.id w with
      | .error e => .error e
      | .ok ((newId, flags), w) =>
        match w.heap[s]? with
        | some (.splitter sp) =>
          let wt := " -weight "
          let expand : Bool := flags &&& Expand ≠ 0
          let wt := if expand then wt ++ "1" else wt ++ "0"
          .ok (eval (sp.widget.id ++ " add " ++ newId ++ wt) w).2
        | _ => .error .illTyped
  | _ => .error .illTyped

/-- The method `(*Splitter).Add`. -/
def Splitter.Add (s : Ref) : List (Option Ref) → World → Except Fault World
  | [], w => .ok w
  | c :: cs, w =>
    match Splitter.addOne s c w with
    | .error e => .error e
    | .ok w => Splitter.Add s cs w

/-! ## Grid.Add -/

/-- First statement of the loop body of `(*Grid).Add`:
`if g.col >= g.columns { g.col = 0; g.row += 1 }`. -/
def Grid.wrap (gr : Grid) : Grid :=
  if gr.col ≥ gr.columns then { gr with col := 0, row := gr.row + 1 } else gr

/-- Second statement of the loop body of `(*Grid).Add`: `if c != nil { ... }`,
run when the cursor has been wrapped. -/
def Grid.place (g : Ref) (c : Option Ref) (w : World) : Except Fault World :=
  match c with
  | none => .ok w
  | some c =>
    match w.heap[g]? with
    | some (.grid gr) =>
      match Component.create c gr.widget.id w with
      | .error e => .error e
      | .ok ((newId, flags), w) =>
        match w.heap[g]? with
        | some (.grid gr) =>
          let expand : Bool := flags &&& Expand ≠ 0
          let tkcmd := "grid " ++ newId ++ " -row " ++ fmtD gr.row ++ " -column " ++ fmtD gr.col
            ++ " -sticky news -padx 1 -pady 1"
          let w := (eval tkcmd w).2
          if expand then
            let w := (eval ("grid rowconfigure " ++ gr.widget.id ++ " " ++ fmtD gr.row
              ++ " -weight 1") w).2
            .ok (eval ("grid columnconfigure " ++ gr.widget.id ++ " " ++ fmtD gr.col
              ++ " -weight 1") w).2
          else .ok w
        | _ => .error .illTyped
    | _ => .error .illTyped

/-- One round of the loop of `(*Grid).Add`: wrap the cursor, place the
component unless it is nil, then `g.col += 1`. -/
def Grid.addOne (g : Ref) (c : Option Ref) (w : World) : Except Fault World :=
  match w.heap[g]? with
  | some (.grid gr) =>
    let w := w.store g (.grid gr.wrap)
    match Grid.place g c w with
    | .error e => .error e
    | .ok w =>
      match w.heap[g]? with
      | some (.grid gr) => .ok (w.store g (.grid { gr with col := gr.col + 1 }))
      | _ => .error .illTyped
  | _ => .error .illTyped

/-- The method `(*Grid).Add`. -/
def Grid.Add (g : Ref) : List (Option Ref) → World → Except Fault World
  | [], w => .ok w
  | c :: cs, w =>
    match Grid.addOne g c w with
    | .error e => .error e
    | .ok w => Grid.Add g cs w

/-- A sequence of calls of `(*Grid).Add` on one grid, one argument list per
call. -/
def Grid.AddCalls (g : Ref) : List (List (Option Ref)) → World → Except Fault World
  | [], w => .ok w
  | args :: rest, w =>
    match Grid.Add g args w with
    | .error e => .error e
    | .ok w => Grid.AddCalls g rest w

/-- The cell the loop of `(*Grid).Add` gives to the component it handles next:
the cursor (`g.row`, `g.col`) after the wrap of the first statement. -/
def Grid.nextCell (g : Ref) (w : World) : Option (Int × Int) :=
  match w.heap[g]? with
  | some (.grid gr) => some (gr.wrap.row, gr.wrap.col)
  | _ => none

/-! ## Notebook -/

def Notebook.NewTab (n : Ref) (title : String) (flags : Nat) (w : World) :
    Except Fault (Ref × World) :=
  let b := Box.new flags
  let (t, w) := w.alloc (.tab ⟨b, title⟩)
  match w.heap[n]? with
  | some (.notebook nb) =>
    match Box.create t nb.widget.id w with
    | .error e => .error e
    | .ok ((newId, _), w) =>
      match w.heap[n]?, w.heap[t]? with
      | some (.notebook nb), some (.tab tb) =>
        let w := w.store n (.notebook { nb with tabs := mapSet nb.tabs newId t })
        let w := (eval (nb.widget.id ++ " add " ++ newId ++ " -text " ++ tkstr tb.title
          ++ " -sticky news") w).2
        .ok (t, w)
      | _, _ => .error .illTyped
  | none => .error .nilDereference
  | some _ => .error .illTyped

def Notebook.GetSelection (n : Ref) (w : World) : Except Fault ((String × String) × World) :=
  match w.heap[n]? with
  | some (.notebook nb) =>
    match eval (nb.widget.id ++ " select") w with
    | (some err, w) => .ok (("", ""), { w with stdout := w.stdout ++ [err] })
    | (none, w) =>
      let sel := result w
      match eval (nb.widget.id ++ " tab " ++ sel ++ " -text") w with
      | (some err, w) => .ok ((sel, ""), { w with stdout := w.stdout ++ [err] })
      | (none, w) =>
        let val := result w
        .ok ((sel, val), w)
  | none => .error .nilDereference
  | some _ => .error .illTyped

/-- The closure `Notebook.create` binds to `<Double-1>`, registered as
`Callable.notebookDouble1 n`. -/
def Notebook.double1 (n : Ref) (_s : String) (w : World) : Except Fault World :=
  match Notebook.GetSelection n w with
  | .error e => .error e
  | .ok ((t, _), w) =>
    match w.heap[n]? with
    | some (.notebook nb) =>
      match mapGet nb.tabs t with
      | none => .error .nilDereference
      | some tab =>
        match w.heap[tab]? with
        | some (.tab tb) =>
          if tb.Box.widget.flags &&& DoNotClose = 0 then
            .ok (eval (nb.widget.id ++ " forget " ++ t) w).2
          else .ok w
        | _ => .error .illTyped
    | _ => .error .illTyped

/-! ## Sequences of calls -/

/-- The tokens returned by `n` successive calls of `genNextId`, oldest first. -/
def genNextIdN : Nat → World → List String × World
  | 0, w => ([], w)
  | n + 1, w =>
    let (t, w) := genNextId w
    let (ts, w) := genNextIdN n w
    (t :: ts, w)

/-- Successive calls of `addCallbackCmd`, one per callable of the list. -/
def registerAll : List Callable → World → World
  | [], w => w
  | f :: fs, w => registerAll fs (addCallbackCmd f w).2

/-- The value a string of decimal digits denotes. -/
def digitsVal (l : List Char) : Nat :=
  l.foldl (fun a c => 10 * a + (c.toNat - 48)) 0

/-- A world whose callback table already holds `n` entries, all the application
function `0`, each registered under an identifier of its own. -/
def World.withTable (n : Nat) : World :=
  { World.init (fun _ => ⟨true, ""⟩) ⟨2024, 1, 1⟩ with
    newId := n, callbackCmds := List.replicate n (.app 0) }

/-! ## Constructors of the leaf widgets -/

def NewCheck (text : String) (defstate : Bool) (flags : Nat) (w : World) : Ref × World :=
  let initParam := " -text " ++ tkstr text
  let wd : widget := ⟨"", "ttk::checkbutton", initParam, flags⟩
  w.alloc (.check ⟨wd, defstate, ""⟩)

def NewEntry (text : String) (flags : Nat) (w : World) : Ref × World :=
  let initParam := ""
  let initParam := if flags &&& Password ≠ 0 then initParam ++ "-show *" else initParam
  let wd : widget := ⟨"", "ttk::entry", initParam, flags⟩
  w.alloc (.entry ⟨wd, text⟩)

def NewListbox (list : List String) (flags : Nat) (w : World) : Ref × World :=
  let (lv, w) := genNextId w
  let initParam := " -listvariable " ++ lv
  let wd : widget := ⟨"", "listbox", initParam, flags⟩
  let b := Box.new (flags &&& Expand)
  w.alloc (.listbox ⟨wd, b, list, lv⟩)

def NewTree (flags : Nat) (w : World) : Ref × World :=
  let initParam := " -show tree"
  let wd : widget := ⟨"", "ttk::treeview", initParam, flags⟩
  let b := Box.new (flags ||| Expand)
  w.alloc (.tree ⟨wd, b⟩)

def NewImage (imageFile : String) (flags : Nat) (w : World) : Ref × World :=
  let initParam := ""
  let wd : widget := ⟨"", "label", initParam, flags⟩
  w.alloc (.image ⟨wd, imageFile⟩)

def NewCombobox (list : List String) (flags : Nat) (w : World) : Ref × World :=
  let initParam := " -state readonly "
  let initParam := if list.length > 0 then initParam ++ (" -values " ++ tklist list) else initParam
  let wd : widget := ⟨"", "ttk::combobox", initParam, flags⟩
  w.alloc (.combobox ⟨wd, list⟩)

def NewTable (data : List (List String)) (flags : Nat) (w : World) : Ref × World :=
  let initParam := " -displaycolumns #all -show headings"
  let wd : widget := ⟨"", "ttk::treeview", initParam, flags⟩
  let b := Box.new (flags &&& Expand)
  w.alloc (.table ⟨wd, b, data⟩)

def NewText (text : String) (flags : Nat) (w : World) : Ref × World :=
  let initParam := " -wrap word -width 20 -height 5"
  let wd : widget := ⟨"", "text", initParam, flags⟩
  let b := Box.new (flags ||| Expand)
  w.alloc (.text ⟨wd, b, text⟩)

/-- The zero value `time.Time{}`: January 1 of the year 1. -/
def Time.zero : Time := ⟨1, 1, 1⟩

def NewCalendar (flags : Nat) (w : World) : Ref × World :=
  let b := Box.new (flags ||| Horizontal)
  let (lb, w) := NewLabel "" 0 w
  let (bt, w) := NewButton ">" 0 w
  let (lbtime, w) := NewLabel "" 0 w
  w.alloc (.calendar ⟨b, lb, bt, "", "", "", lbtime, [], Time.zero, 0, none⟩)

/-! ## Conditions on the struct `create` is called on -/

/-- The component variants: every struct with a `create` method of its own. -/
def Obj.isVariant : Obj → Bool
  | .tab _ => false
  | .dialog _ => false
  | _ => true

/-- What `create` relies on in the struct it is called on: every row of the
data of a Table has an element, and the fields `lb` and `bt` of a Calendar
point to a Label and a Button, as `NewCalendar` leaves them. -/
def Obj.ready (w : World) : Obj → Bool
  | .table t => t.data.all (fun row => !row.isEmpty)
  | .calendar c =>
    (match w.heap[c.lb]? with
      | some (.label _) => true
      | _ => false) &&
    (match w.heap[c.bt]? with
      | some (.button _) => true
      | _ => false)
  | _ => true

/-! ## What `create` leaves unchanged -/

def widget.frame (wd : widget) : widget := { wd with id := "" }

/-- A struct with the fields that `create` assigns blanked: the ids of its
widgets and the names of its Tcl variables. -/
def Obj.frame : Obj → Obj
  | .box b => .box ⟨b.widget.frame⟩
  | .splitter s => .splitter ⟨s.widget.frame⟩
  | .tab t => .tab { t with Box := ⟨t.Box.widget.frame⟩ }
  | .notebook n => .notebook { n with widget := n.widget.frame }
  | .grid g => .grid { g with widget := g.widget.frame }
  | .label l => .label ⟨l.widget.frame⟩
  | .button b => .button ⟨b.widget.frame⟩
  | .check c => .check { c with widget := c.widget.frame, variable_ := "" }
  | .entry e => .entry { e with widget := e.widget.frame }
  | .listbox l => .listbox { l with widget := l.widget.frame, b := ⟨l.b.widget.frame⟩ }
  | .tree t => .tree { t with widget := t.widget.frame, b := ⟨t.b.widget.frame⟩ }
  | .image i => .image { i with widget := i.widget.frame }
  | .combobox c => .combobox { c with widget := c.widget.frame }
  | .table t => .table { t with widget := t.widget.frame, b := ⟨t.b.widget.frame⟩ }
  | .text t => .text { t with widget := t.widget.frame, b := ⟨t.b.widget.frame⟩ }
  | .calendar c => .calendar { c with Box := ⟨c.Box.widget.frame⟩, ltextvariable := "" }
  | .dialog d => .dialog { d with Box := ⟨d.Box.widget.frame⟩ }

/-- The world `w1` continues `w`: every struct is what it was up to the fields
`create` assigns, the log of scripts has only grown at its end, the identifier
counter has not gone back and the interpreter is the same. -/
def Extends (w w1 : World) : Prop :=
  (∀ x : Ref, (w1.heap[x]?).map Obj.frame = (w.heap[x]?).map Obj.frame) ∧
  (∃ l, w1.log = w.log ++ l) ∧
  w.newId ≤ w1.newId ∧
  w1.tcl = w.tcl

/-! ## Worlds for the examples -/

/-- A fresh world whose interpreter accepts every script and answers with the
empty string. -/
def World.demo : World := World.init (fun _ => ⟨true, ""⟩) ⟨2024, 1, 1⟩

/-- The world a call leaves, `d` if the call faults. -/
def worldOf {α : Type} (x : Except Fault (α × World)) (d : World) : World :=
  match x with
  | .ok (_, w) => w
  | .error _ => d

/-- A horizontal Box at reference 0, created under the root as `.1`, and a
Label "A" with Expand at reference 1, not yet created. -/
def demoBoxLabel : World :=
  (NewLabel "A" Expand (worldOf (Box.create 0 "" (NewBox Horizontal World.demo).2) World.demo)).2

/-- The world `demoBoxLabel` after the create of the Label under the Box. -/
def demoBoxLabelCreated : World :=
  worldOf (Component.create 1 ".1" demoBoxLabel) demoBoxLabel

/-- A Splitter at reference 0, created under the root as `.1`, a Label "A" with
Expand at reference 1 and a Label "B" without at reference 2. -/
def demoSplitter : World :=
  (NewLabel "B" 0 (NewLabel "A" Expand
    (worldOf (Splitter.create 0 "" (NewSplitter 0 World.demo).2) World.demo)).2).2

/-- The world `demoSplitter` after the create of the first Label under the
Splitter. -/
def demoSplitterCreated : World :=
  worldOf (Component.create 1 ".1" demoSplitter) demoSplitter

/-- A Table with the single row `a 1`, at reference 0. -/
def demoTable : World := (NewTable [["a", "1"]] 0 World.demo).2

/-- A Table whose data is one row without elements, at reference 0. -/
def demoTableEmptyRow : World := (NewTable [[]] 0 World.demo).2

/-! ## The cursor of a Grid -/

/-- The cursor of a grid of `c` columns after `k` components: the components
passed so far fill the rows above `row` and `col` cells of row `row`. -/
def GridInv (c k : Int) (gr : Grid) : Prop :=
  gr.columns = c ∧ gr.row * c + gr.col = k ∧ 0 ≤ gr.col ∧ gr.col ≤ c

/-- The world a call without a result leaves, `d` if the call faults. -/
def okOr (x : Except Fault World) (d : World) : World :=
  match x with
  | .ok w => w
  | .error _ => d

/-- A Grid of 2 columns at reference 0, created under the root as `.1`, and
five Labels at references 1 to 5, not yet created. -/
def demoGrid : World :=
  (NewLabel "e" 0 (NewLabel "d" 0 (NewLabel "c" 0 (NewLabel "b" 0 (NewLabel "a" 0
    (worldOf (Grid.create 0 "" (NewGrid 2 0 World.demo).2) World.demo)).2).2).2).2).2

/-- The world `demoGrid` after `Add(a, b)` and `Add(c, nil)`: four components
passed. -/
def demoGridAfter4 : World :=
  okOr (Grid.AddCalls 0 [[some 1, some 2], [some 3, none]] demoGrid) demoGrid

/-- A horizontal Box with the path `.r` at reference 0, in a world whose
identifier generator is fresh. -/
def demoRootBox : World :=
  { World.demo with heap := [.box ⟨⟨".r", "ttk::frame", "", Horizontal⟩⟩] }

/-- An interpreter that answers every script with the path `.1.3`. -/
def tclSelected : List String → Reply := fun _ => ⟨true, ".1.3"⟩

/-- A Notebook at reference 0, created under the root as `.1`, with one Tab
made by `NewTab` with the flags given, at reference 1 and with the path `.1.3`. -/
def demoNotebook (flags : Nat) : World :=
  worldOf (Notebook.NewTab 0 "page" flags
    (worldOf (Notebook.create 0 "" (NewNotebook 0 (World.init tclSelected ⟨2024, 1, 1⟩)).2)
      World.demo)) World.demo

/-- A Grid of 2 columns at reference 0, created under the root as `.1`, and a
Label "x" with Expand at reference 1, not yet created. -/
def demoGridExpand : World :=
  (NewLabel "x" Expand (worldOf (Grid.create 0 "" (NewGrid 2 0 World.demo).2) World.demo)).2

/-- The world `demoGridExpand` after the create of the Label under the Grid. -/
def demoGridExpandCreated : World :=
  worldOf (Component.create 1 ".1"
    (demoGridExpand.store 0 (.grid ⟨⟨".1", "ttk::frame", "", 0⟩, 2, 0, 0⟩))) demoGridExpand

/-! ## IndexOfValueInSlice -/

/-- The loop `for k, v := range data` of `IndexOfValueInSlice`, from index `k`
on. -/
def IndexOfValueInSlice.go (val : String) : Nat → List String → Int
  | _, [] => -1
  | k, v :: rest => if v = val then k else IndexOfValueInSlice.go val (k + 1) rest

def IndexOfValueInSlice (data : List String) (val : String) : Int :=
  IndexOfValueInSlice.go val 0 data

/-- A Notebook at reference 0, created under the root as `.1`, without any Tab;
the interpreter answers every script with the path `.1.3`. -/
def demoNotebookEmpty : World :=
  worldOf (Notebook.create 0 "" (NewNotebook 0 (World.init tclSelected ⟨2024, 1, 1⟩)).2)
    World.demo

/-! ## Dialog -/

/-- The function `NewDialog`.  The Box it creates stays on the heap (the map
`widgets` points to it); the Dialog holds a copy, taken after the create. -/
def NewDialog (title : String) (flags : Nat) (w : World) : Except Fault (Ref × World) :=
  let (box, w) := NewBox flags w
  let (tok, w) := genNextId w
  let id := "." ++ tok
  let w := (eval ("toplevel " ++ id) w).2
  let w := (eval ("wm title " ++ id ++ " " ++ tkstr title) w).2
  let w := (eval ("wm geometry " ++ id ++ " +50+50") w).2
  let w := if flags &&& Topmost ≠ 0 then (eval ("wm attributes " ++ id ++ " -topmost 1") w).2 else w
  let w := (eval ("wm protocol " ++ id ++ " WM_DELETE_WINDOW \x7bpwd\x7d") w).2
  match Box.create box id w with
  | .error e => .error e
  | .ok (_, w) =>
    match w.heap[box]? with
    | some (.box bx) =>
      let w := (eval ("pack " ++ bx.widget.id ++ " -expand yes -fill both") w).2
      .ok (w.alloc (.dialog ⟨id, title, bx⟩))
    | _ => .error .illTyped

/-- The method `(*Dialog).Call`.  Each script is one step of the interpreter;
callbacks that run while `tkwait` waits are outside this function. -/
def Dialog.Call (d : Ref) (w : World) : Except Fault World :=
  match w.heap[d]? with
  | none => .error .nilDereference
  | some (.dialog dl) =>
    let w := (eval ("focus " ++ dl.id) w).2
    let w := (eval ("tkwait visibility " ++ dl.id) w).2
    if dl.Box.widget.flags &&& NotModal ≠ 0 then
      .ok w
    else
      let w := (eval ("grab " ++ dl.id) w).2
      .ok (eval ("tkwait window " ++ dl.id) w).2
  | some _ => .error .illTyped

/-- The method `(*Dialog).Destroy`. -/
def Dialog.Destroy (d : Ref) (w : World) : Except Fault World :=
  match w.heap[d]? with
  | none => .error .nilDereference
  | some (.dialog dl) =>
    if dl.Box.widget.flags &&& NotModal ≠ 0 then
      .ok (eval ("wm withdraw " ++ dl.id) w).2
    else
      .ok (eval ("destroy " ++ dl.id) w).2
  | some _ => .error .illTyped

/-- A Table with Expand whose second row has no elements, at reference 0. -/
def demoTableGap : World := (NewTable [["a", "1"], []] Expand World.demo).2

/-- A Table with ScrollY whose rows have an element each, at reference 0. -/
def demoTableScroll : World := (NewTable [["a", "1"], ["b"]] ScrollY World.demo).2

/-! ## The GetSelection family -/

/-- The function `strconv.Atoi` with its error dropped, as in
`n, _ := strconv.Atoi(sel)`: the value of an optional sign and decimal digits,
held to the range of a 64-bit `int`; 0 for any other string. -/
def Atoi (s : String) : Int :=
  let (neg, ds) : Bool × List Char :=
    match s.data with
    | '-' :: r => (true, r)
    | '+' :: r => (false, r)
    | r => (false, r)
  if ds.isEmpty || !ds.all Char.isDigit then 0
  else
    let v : Int := if neg then -(digitsVal ds : Int) else (digitsVal ds : Int)
    if v > 2 ^ 63 - 1 then 2 ^ 63 - 1 else if v < -(2 ^ 63) then -(2 ^ 63) else v

/-- The statement `fmt.Println(s)`. -/
def Println (s : String) (w : World) : World :=
  { w with stdout := w.stdout ++ [s] }

/-- The method `(*Listbox).GetSelection`. -/
def Listbox.GetSelection (l : Ref) (w : World) : Except Fault ((Int × String) × World) :=
  match w.heap[l]? with
  | some (.listbox lb) =>
    match eval (lb.widget.id ++ " curselection") w with
    | (some err, w) => .ok ((-1, ""), Println err w)
    | (none, w) =>
      let sel := result w
      if sel = "" then .ok ((-1, ""), w)
      else
        match eval (lb.widget.id ++ " get " ++ sel) w with
        | (some err, w) => .ok ((-1, ""), Println err w)
        | (none, w) =>
          let val := result w
          .ok ((Atoi sel, val), w)
  | none => .error .nilDereference
  | some _ => .error .illTyped

/-- The method `(*Tree).GetSelection`. -/
def Tree.GetSelection (t : Ref) (w : World) : Except Fault ((String × String) × World) :=
  match w.heap[t]? with
  | some (.tree tr) =>
    match eval (tr.widget.id ++ " selection") w with
    | (some err, w) => .ok (("", ""), Println err w)
    | (none, w) =>
      let sel := result w
      if sel = "" then .ok (("", ""), w)
      else
        match eval (tr.widget.id ++ " item " ++ sel ++ " -values") w with
        | (some err, w) => .ok ((sel, ""), Println err w)
        | (none, w) =>
          let val := result w
          .ok ((sel, val), w)
  | none => .error .nilDereference
  | some _ => .error .illTyped

/-- The method `(*Combobox).GetSelection`. -/
def Combobox.GetSelection (c : Ref) (w : World) : Except Fault ((Int × String) × World) :=
  match w.heap[c]? with
  | some (.combobox cb) =>
    match eval (cb.widget.id ++ " current") w with
    | (some err, w) => .ok ((-1, ""), Println err (Println "No current in combobox" w))
    | (none, w) =>
      let sel := result w
      if sel = "" then .ok ((-1, ""), Println "No result in combobox" w)
      else
        match eval (cb.widget.id ++ " get") w with
        | (some err, w) => .ok ((-1, ""), Println err (Println "No get in combobox" w))
        | (none, w) =>
          let val := result w
          .ok ((Atoi sel, val), w)
  | none => .error .nilDereference
  | some _ => .error .illTyped

/-- The method `(*Table).GetSelection`.  The error of the second `eval` is not
looked at: `val` is whatever the interpreter holds as its result string. -/
def Table.GetSelection (t : Ref) (w : World) : Except Fault ((String × String) × World) :=
  match w.heap[t]? with
  | some (.table tb) =>
    match eval (tb.widget.id ++ " selection") w with
    | (some err, w) => .ok (("", ""), Println err w)
    | (none, w) =>
      let sel := result w
      if sel = "" then .ok (("", ""), w)
      else
        let w := (eval (tb.widget.id ++ " item " ++ sel ++ " -values") w).2
        let val := result w
        .ok ((sel, val), w)
  | none => .error .nilDereference
  | some _ => .error .illTyped

/-- An interpreter that accepts the first `n` scripts it gets, answering each
with `r1`, and fails every later one with the message `no such item`. -/
def tclFailAfter (n : Nat) : List String → Reply := fun log =>
  if log.length ≤ n then ⟨true, "r1"⟩ else ⟨false, "no such item"⟩

/-- A Table with the single row `a r1` at reference 0, created under the root
(six scripts), and a Tree at reference 1, created under the root (five
scripts), with an interpreter that fails from the thirteenth script on. -/
def demoTableSel : World :=
  worldOf (Component.create 1 ""
    (NewTree 0
      (worldOf (Component.create 0 ""
        (NewTable [["a", "r1"]] 0 (World.init (tclFailAfter 12) ⟨2024, 1, 1⟩)).2)
        World.demo)).2) World.demo

/-! ## The scripts of Add for simple leaves -/

/-- The widget of a Label or a Button, without its path: what the constructor
has fixed (command name, parameters, flags). -/
def Obj.leaf? : Obj → Option Tg.widget
  | .label l => some l.widget.frame
  | .button b => some b.widget.frame
  | _ => none

/-- The Labels and Buttons at the references `refs`. -/
def leafWidgets (w : World) (refs : List Ref) : List Tg.widget :=
  refs.filterMap (fun r => (w.heap[r]?).bind Obj.leaf?)

/-- The scripts expected of `Box.Add` on a Box with the path `id` and the flags
`bflags`, for the leaves `kids` in order, when `n` identifiers have been issued:
for each child its creation, then its placement. -/
def Box.AddScript (id : String) (bflags : Nat) : Nat → List Tg.widget → List String
  | _, [] => []
  | n, wd :: rest =>
    [wd.name ++ " " ++ (id ++ "." ++ Itoa (n + 1)) ++ " " ++ wd.initParam,
     "pack " ++ (id ++ "." ++ Itoa (n + 1)) ++ " -padx 1 -pady 1" ++
      ((if bflags &&& Horizontal ≠ 0 then " -side left" else "") ++ " -fill " ++
        (if wd.flags &&& Expand ≠ 0 then "both -expand yes"
          else if bflags &&& Horizontal ≠ 0 then "y" else "x"))]
    ++ Box.AddScript id bflags (n + 1) rest

/-- The scripts expected of `Splitter.Add`, as for `Box.AddScript`. -/
def Splitter.AddScript (id : String) : Nat → List Tg.widget → List String
  | _, [] => []
  | n, wd :: rest =>
    [wd.name ++ " " ++ (id ++ "." ++ Itoa (n + 1)) ++ " " ++ wd.initParam,
     id ++ " add " ++ (id ++ "." ++ Itoa (n + 1)) ++
      (if wd.flags &&& Expand ≠ 0 then " -weight 1" else " -weight 0")]
    ++ Splitter.AddScript id (n + 1) rest

/-- The scripts expected of `Grid.Add` on the grid `gr`, as for
`Box.AddScript`: each child goes to the cell of the wrapped cursor, and a child
with Expand has its row and its column given the weight 1. -/
def Grid.AddScript : Grid → Nat → List Tg.widget → List String
  | _, _, [] => []
  | gr, n, wd :: rest =>
    [wd.name ++ " " ++ (gr.widget.id ++ "." ++ Itoa (n + 1)) ++ " " ++ wd.initParam,
     "grid " ++ (gr.widget.id ++ "." ++ Itoa (n + 1)) ++ " -row " ++ fmtD gr.wrap.row
      ++ " -column " ++ fmtD gr.wrap.col ++ " -sticky news -padx 1 -pady 1"]
    ++ (if wd.flags &&& Expand ≠ 0 then
        ["grid rowconfigure " ++ gr.widget.id ++ " " ++ fmtD gr.wrap.row ++ " -weight 1",
         "grid columnconfigure " ++ gr.widget.id ++ " " ++ fmtD gr.wrap.col ++ " -weight 1"]
      else [])
    ++ Grid.AddScript { gr.wrap with col := gr.wrap.col + 1 } (n + 1) rest

/-! ## Calendar.makeMonth -/

/-- The rule of the Gregorian calendar for a leap year. -/
def isLeap (y : Int) : Bool :=
  y % 4 = 0 && (y % 100 ≠ 0 || y % 400 = 0)

/-- The number of days of the month `m` (1 to 12) of the year `y`. -/
def daysIn (y m : Int) : Int :=
  if m = 2 then (if isLeap y then 29 else 28)
  else if m = 4 ∨ m = 6 ∨ m = 9 ∨ m = 11 then 30
  else 31

/-- The number of days from 1 January 1970 to the date `t`, in the proleptic
Gregorian calendar that package `time` uses. -/
def Time.daysFromEpoch (t : Time) : Int :=
  let y := if t.month ≤ 2 then t.year - 1 else t.year
  let era := y / 400
  let yoe := y - era * 400
  let mp := if t.month > 2 then t.month - 3 else t.month + 9
  let doy := (153 * mp + 2) / 5 + t.day - 1
  let doe := yoe * 365 + yoe / 4 - yoe / 100 + doy
  era * 146097 + doe - 719468

/-- The method `Time.Weekday`, as the `int` of the result: Sunday is 0, Monday
is 1, and so on to Saturday, 6.  1 January 1970 was a Thursday. -/
def Time.Weekday (t : Time) : Int :=
  (t.daysFromEpoch + 4) % 7

/-- The call `start.Add(time.Hour * 24)` on a date at midnight, in a zone whose
offset does not change that day: the next day of the calendar. -/
def Time.AddDay (t : Time) : Time :=
  if t.day < daysIn t.year t.month then { t with day := t.day + 1 }
  else if t.month < 12 then ⟨t.year, t.month + 1, 1⟩
  else ⟨t.year + 1, 1, 1⟩

/-- The method `Time.Format` with the layout `01.2006`. -/
def Time.FormatMonth (t : Time) : String :=
  padZero t.month.toNat 2 ++ "." ++ padZero t.year.toNat 4

/-- The method `(*Label).SetText`. -/
def Label.SetText (l : Ref) (text : String) (w : World) : Except Fault World :=
  match w.heap[l]? with
  | none => .error .nilDereference
  | some (.label lb) => .ok (eval (lb.widget.id ++ " configure -text " ++ tkstr text) w).2
  | some _ => .error .illTyped

/-- The method `(*Label).Color`. -/
def Label.Color (l : Ref) (fg bg : String) (w : World) : Except Fault World :=
  match w.heap[l]? with
  | none => .error .nilDereference
  | some (.label lb) =>
    let w := if fg ≠ "" then (eval (lb.widget.id ++ " configure -foreground " ++ fg) w).2 else w
    let w := if bg ≠ "" then (eval (lb.widget.id ++ " configure -background " ++ bg) w).2 else w
    .ok w
  | some _ => .error .illTyped

/-- The loop `for i := 0; i < 42; i++` of `(*Calendar).makeMonth`, with `n`
rounds left, from the index `i` and the date `start`. -/
def Calendar.makeMonth.loop (dates : List Ref) (wday thisMonth day : Int) :
    Nat → Nat → Time → World → Except Fault World
  | 0, _, _, w => .ok w
  | n + 1, i, start, w =>
    match dates[i]? with
    | none => .error .indexOutOfRange
    | some l =>
      if i < 7 ∧ (i : Int) < wday - 1 then
        match Label.SetText l " " w with
        | .error e => .error e
        | .ok w =>
          match Label.Color l "" "gray" w with
          | .error e => .error e
          | .ok w => Calendar.makeMonth.loop dates wday thisMonth day n (i + 1) start w
      else if thisMonth = start.month then
        match Label.SetText l (Itoa start.day.toNat) w with
        | .error e => .error e
        | .ok w =>
          match Label.Color l "" "gray" w with
          | .error e => .error e
          | .ok w =>
            match (if day = start.day then Label.Color l "" "yellow" w else .ok w) with
            | .error e => .error e
            | .ok w =>
              Calendar.makeMonth.loop dates wday thisMonth day n (i + 1) start.AddDay w
      else
        match Label.SetText l " " w with
        | .error e => .error e
        | .ok w => Calendar.makeMonth.loop dates wday thisMonth day n (i + 1) start w

/-- The method `(*Calendar).makeMonth`.  `t.ltime` holds a date of the calendar,
so `time.Date(year, month, 1, ...)` is the first day of its month. -/
def Calendar.makeMonth (t : Ref) (w : World) : Except Fault World :=
  match w.heap[t]? with
  | none => .error .nilDereference
  | some (.calendar c) =>
    match Label.SetText c.lbtime c.ltime.FormatMonth w with
    | .error e => .error e
    | .ok w =>
      let start : Time := ⟨c.ltime.year, c.ltime.month, 1⟩
      let wday := start.Weekday
      let thisMonth := start.month
      Calendar.makeMonth.loop c.dates wday thisMonth c.ltime.day 42 0 start w
  | some _ => .error .illTyped

/-- The loop of `(*Calendar).call` over the names of the days, Monday first:
`grid.Add(NewLabel(v, 0))` for each. -/
def Calendar.call.headers (grid : Ref) : List String → World → Except Fault World
  | [], w => .ok w
  | v :: rest, w =>
    let (l, w) := NewLabel v 0 w
    match Grid.Add grid [some l] w with
    | .error e => .error e
    | .ok w => Calendar.call.headers grid rest w

/-- The loop `for i := 0; i < 42; i++` of `(*Calendar).call`, with `n` rounds
left: a label is made, added to the grid, coloured, bound to `t.makeSelect` and
appended to `t.dates`. -/
def Calendar.call.cells (t grid : Ref) : Nat → World → Except Fault World
  | 0, w => .ok w
  | n + 1, w =>
    let (l, w) := NewLabel " " 0 w
    match Grid.Add grid [some l] w with
    | .error e => .error e
    | .ok w =>
      match Label.Color l "black" "gray" w with
      | .error e => .error e
      | .ok w =>
        match w.heap[l]? with
        | some (.label lb) =>
          let w := (eval (lb.widget.id ++ " configure -anchor center") w).2
          let w := lb.widget.Bind "<Button-1>" "W" (.calendarMakeSelect t) w
          match w.heap[t]? with
          | none => .error .nilDereference
          | some (.calendar c) =>
            Calendar.call.cells t grid n (w.store t (.calendar { c with dates := c.dates ++ [l] }))
          | some _ => .error .illTyped
        | _ => .error .illTyped

/-- The names of the days in `(*Calendar).call`: Monday to Sunday. -/
def Calendar.call.dayNames : List String := ["Пн", "Вт", "Ср", "Чт", "Пт", "Сб", "Нд"]

/-- A Calendar at reference 3 whose time is the date `tm`, its label `lbtime`
at reference 2, created under the root as `.1`, and its grid of 7 columns at
reference 4, created under the root as `.2` and filled by the two loops of
`call`: seven names of days, then 42 cells. -/
def demoCalendar (tm : Time) : World :=
  let w : World := (NewCalendar 0 World.demo).2
  let w : World :=
    match w.heap[(3 : Nat)]? with
    | some (.calendar c) => w.store 3 (.calendar { c with ltime := tm, day := tm.day })
    | _ => w
  let w : World := worldOf (Component.create 2 "" w) w
  let w : World := (NewGrid 7 Expand w).2
  let w : World := worldOf (Component.create 4 "" w) w
  let w : World := okOr (Calendar.call.headers 4 Calendar.call.dayNames w) w
  okOr (Calendar.call.cells 3 4 42 w) w

/-! ## Theorems -/

/-! ### Decimal rendering -/

theorem digitsVal_append_single (l : List Char) (c : Char) :
    digitsVal (l ++ [c]) = 10 * digitsVal l + (c.toNat - 48) := by
  simp [digitsVal, List.foldl_append]

theorem digitChar_val (k : Nat) (h : k < 10) : (Nat.digitChar k).toNat - 48 = k := by
  interval_cases k <;> rfl

theorem toDigitsCore_acc (fuel : Nat) : ∀ (n : Nat) (ds : List Char),
    Nat.toDigitsCore 10 fuel n ds = Nat.toDigitsCore 10 fuel n [] ++ ds := by
  induction fuel with
  | zero => intro n ds; simp [Nat.toDigitsCore]
  | succ fuel ih =>
    intro n ds
    simp only [Nat.toDigitsCore]
    by_cases h : n / 10 = 0
    · simp [h]
    · simp only [h, if_false]
      rw [ih (n / 10) (Nat.digitChar (n % 10) :: ds), ih (n / 10) [Nat.digitChar (n % 10)]]
      simp

theorem digitsVal_toDigitsCore (fuel : Nat) : ∀ n : Nat, n < fuel →
    digitsVal (Nat.toDigitsCore 10 fuel n []) = n := by
  induction fuel with
  | zero => intro n h; omega
  | succ fuel ih =>
    intro n hn
    simp only [Nat.toDigitsCore]
    by_cases h : n / 10 = 0
    · simp only [h, if_true]
      have hlt : n < 10 := by omega
      have : n % 10 = n := Nat.mod_eq_of_lt hlt
      simp [digitsVal, this, digitChar_val n hlt]
    · simp only [h, if_false]
      rw [toDigitsCore_acc, digitsVal_append_single, ih (n / 10) (by omega),
        digitChar_val _ (Nat.mod_lt _ (by decide))]
      omega

/-- Two numbers with the same decimal rendering are equal. -/
theorem Itoa_injective : Function.Injective Itoa := by
  intro a b h
  have h1 : Nat.toDigits 10 a = Nat.toDigits 10 b := by
    have := congrArg String.data h
    simpa [Itoa, toString, Nat.repr, List.asString] using this
  have h2 := congrArg digitsVal h1
  simp only [Nat.toDigits] at h2
  rwa [digitsVal_toDigitsCore _ _ (Nat.lt_succ_self a),
    digitsVal_toDigitsCore _ _ (Nat.lt_succ_self b)] at h2

/-! ### Identifier generator and callback registry -/

theorem genNextIdN_tokens (n : Nat) : ∀ w : World,
    (genNextIdN n w).1 = (List.range n).map (fun k => Itoa (w.newId + 1 + k)) := by
  induction n with
  | zero => intro w; rfl
  | succ n ih =>
    intro w
    simp only [genNextIdN, genNextId, ih, List.range_succ_eq_map, List.map_cons, List.map_map]
    congr 1
    apply List.map_congr_left
    intro k _
    simp only [Function.comp]
    congr 1
    omega

/-- C5. For every N and every state of the generator, the N tokens returned by
N successive calls of `genNextId` are N in number and pairwise distinct; the
k-th of them is the decimal rendering of the counter after k + 1 increments. -/
theorem genNextId_tokens_distinct (N : Nat) (w : World) :
    (genNextIdN N w).1.length = N ∧
    (genNextIdN N w).1.Pairwise (fun a b => a ≠ b) ∧
    ∀ k, k < N → (genNextIdN N w).1[k]? = some (Itoa (w.newId + 1 + k)) := by
  rw [genNextIdN_tokens]
  refine ⟨by simp, ?_, ?_⟩
  · have hinj : Function.Injective (fun k => Itoa (w.newId + 1 + k)) := by
      intro a b h
      have := Itoa_injective h
      omega
    exact List.Nodup.map hinj (List.nodup_range N)
  · intro k hk
    simp [hk]

theorem registerAll_callbackCmds (fs : List Callable) : ∀ w : World,
    (registerAll fs w).callbackCmds = w.callbackCmds ++ fs := by
  induction fs with
  | nil => intro w; simp [registerAll]
  | cons f fs ih =>
    intro w
    simp [registerAll, ih, addCallbackCmd, genNextId, RegisterCmd]

/-- C4, amended. When fewer than `2 ^ 32` callables were registered before `f`,
the index `addCallbackCmd f` passes to `RegisterCmd` is the position at which
`f` was appended, and after any later registrations `cmdHandler` at that index
with payload `p` makes exactly the call `f p`. -/
theorem cmdHandler_registered (w : World) (f : Callable) (p : String) (later : List Callable)
    (h : w.callbackCmds.length < 2 ^ 32) :
    (addCallbackCmd f w).2.commands
        = w.commands ++ [((addCallbackCmd f w).1, w.callbackCmds.length)] ∧
    (addCallbackCmd f w).2.callbackCmds = w.callbackCmds ++ [f] ∧
    cmdHandler w.callbackCmds.length p (registerAll later (addCallbackCmd f w).2)
        = .ok (f, p) := by
  have hmod : toCuint w.callbackCmds.length = w.callbackCmds.length := Nat.mod_eq_of_lt h
  refine ⟨?_, ?_, ?_⟩
  · simp [addCallbackCmd, genNextId, RegisterCmd, hmod]
  · simp [addCallbackCmd, genNextId, RegisterCmd]
  · have hc : (registerAll later (addCallbackCmd f w).2).callbackCmds
        = w.callbackCmds ++ (f :: later) := by
      simp [registerAll_callbackCmds, addCallbackCmd, genNextId, RegisterCmd]
    simp only [cmdHandler, hc]
    rw [List.getElem?_append_right (le_refl _)]
    simp

theorem cmdHandler_registered_witness :
    (World.init (fun _ => ⟨true, ""⟩) ⟨2024, 1, 1⟩).callbackCmds.length < 2 ^ 32 ∧
    cmdHandler 0 "payload"
      (registerAll [.app 8, .app 9]
        (addCallbackCmd (.app 7) (World.init (fun _ => ⟨true, ""⟩) ⟨2024, 1, 1⟩)).2)
      = .ok (.app 7, "payload") :=
  ⟨by decide,
   (cmdHandler_registered (World.init (fun _ => ⟨true, ""⟩) ⟨2024, 1, 1⟩) (.app 7) "payload"
      [.app 8, .app 9] (by decide)).2.2⟩

theorem withTable_register (n i : Nat) (hn : 0 < n) (hi : toCuint n = i) :
    (addCallbackCmd (.app 1) (World.withTable n)).2.commands
        = [((addCallbackCmd (.app 1) (World.withTable n)).1, i)] ∧
    (addCallbackCmd (.app 1) (World.withTable n)).2.callbackCmds[n]? = some (.app 1) ∧
    ∀ p, cmdHandler 0 p (addCallbackCmd (.app 1) (World.withTable n)).2 = .ok (.app 0, p) := by
  have hcmds : (addCallbackCmd (.app 1) (World.withTable n)).2.callbackCmds
      = List.replicate n (.app 0) ++ [.app 1] := by
    simp [addCallbackCmd, genNextId, RegisterCmd, World.withTable]
  refine ⟨?_, ?_, ?_⟩
  · simp [addCallbackCmd, genNextId, RegisterCmd, World.withTable, World.init, hi]
  · rw [hcmds, List.getElem?_append_right (by simp)]
    simp
  · intro p
    have h0 : (addCallbackCmd (.app 1) (World.withTable n)).2.callbackCmds[0]?
        = some (.app 0) := by
      rw [hcmds, List.getElem?_append_left (by simpa using hn)]
      simp [List.getElem?_replicate, hn]
    simp only [cmdHandler, h0]

/-- C4 as stated fails: with `2 ^ 32` callables registered before, the index
passed to `RegisterCmd` for the next one, `app 1`, is 0 although `app 1` is
stored at position `2 ^ 32`, and `cmdHandler` at index 0 calls the first entry
`app 0` instead. -/
theorem cmdHandler_registered_fails_when_full :
    (addCallbackCmd (.app 1) (World.withTable (2 ^ 32))).2.commands
        = [((addCallbackCmd (.app 1) (World.withTable (2 ^ 32))).1, 0)] ∧
    (addCallbackCmd (.app 1) (World.withTable (2 ^ 32))).2.callbackCmds[2 ^ 32]?
        = some (.app 1) ∧
    cmdHandler 0 "payload" (addCallbackCmd (.app 1) (World.withTable (2 ^ 32))).2
        = .ok (.app 0, "payload") ∧
    cmdHandler 0 "payload" (addCallbackCmd (.app 1) (World.withTable (2 ^ 32))).2
        ≠ .ok (.app 1, "payload") := by
  have h := withTable_register (2 ^ 32) 0 (by norm_num) (by norm_num [toCuint])
  refine ⟨h.1, h.2.1, h.2.2 "payload", ?_⟩
  rw [h.2.2 "payload"]
  simp

/-- C9, amended. The token `addCallbackCmd` returns is the decimal rendering of
the identifier it draws from the generator; it is the name of the command that
`RegisterCmd` creates, and the index of the new entry of the callback table is
the client data of that command. -/
theorem addCallbackCmd_token (w : World) (f : Callable) :
    (addCallbackCmd f w).1 = Itoa (w.newId + 1) ∧
    (addCallbackCmd f w).2.newId = w.newId + 1 ∧
    (addCallbackCmd f w).2.callbackCmds = w.callbackCmds ++ [f] ∧
    (addCallbackCmd f w).2.commands
        = w.commands ++ [(Itoa (w.newId + 1), toCuint w.callbackCmds.length)] := by
  simp [addCallbackCmd, genNextId, RegisterCmd]

/-- C9 as stated fails: the first registration after `InitRoot` has emptied the
table is stored at index 0 and `cmdHandler 0` finds it, but the token returned
is "1", not the rendering "0" of the index. -/
theorem addCallbackCmd_token_is_not_index :
    (addCallbackCmd (.app 0) (World.init (fun _ => ⟨true, ""⟩) ⟨2024, 1, 1⟩)).1 = "1" ∧
    (addCallbackCmd (.app 0) (World.init (fun _ => ⟨true, ""⟩) ⟨2024, 1, 1⟩)).2.commands
        = [("1", 0)] ∧
    cmdHandler 0 "x" (addCallbackCmd (.app 0) (World.init (fun _ => ⟨true, ""⟩) ⟨2024, 1, 1⟩)).2
        = .ok (.app 0, "x") ∧
    (addCallbackCmd (.app 0) (World.init (fun _ => ⟨true, ""⟩) ⟨2024, 1, 1⟩)).1 ≠ Itoa 0 := by
  refine ⟨by decide, by decide, rfl, by decide⟩

/-- C10. `cmdHandler h payload` faults, with index out of range and without
calling anything, exactly when `h` is not below the length of `callbackCmds`;
for every `h` below it the lookup succeeds and the entry at `h` is called. -/
theorem cmdHandler_fault_iff (w : World) (h : Nat) (payload : String) :
    (cmdHandler h payload w = .error .indexOutOfRange ↔ w.callbackCmds.length ≤ h) ∧
    ((∃ f, w.callbackCmds[h]? = some f ∧ cmdHandler h payload w = .ok (f, payload))
        ↔ h < w.callbackCmds.length) := by
  unfold cmdHandler
  constructor
  · constructor
    · intro hf
      by_contra hlt
      push_neg at hlt
      rw [List.getElem?_eq_getElem hlt] at hf
      simp at hf
    · intro hle
      rw [List.getElem?_eq_none hle]
  · constructor
    · rintro ⟨f, hf, _⟩
      by_contra hge
      push_neg at hge
      rw [List.getElem?_eq_none hge] at hf
      simp at hf
    · intro hlt
      exact ⟨w.callbackCmds[h], by rw [List.getElem?_eq_getElem hlt],
        by rw [List.getElem?_eq_getElem hlt]⟩

/-! ### Field lemmas -/

@[simp] theorem eval_log (s : String) (w : World) : (eval s w).2.log = w.log ++ [s] := by
  simp only [eval]; split <;> rfl

@[simp] theorem eval_heap (s : String) (w : World) : (eval s w).2.heap = w.heap := by
  simp only [eval]; split <;> rfl

@[simp] theorem eval_widgets (s : String) (w : World) : (eval s w).2.widgets = w.widgets := by
  simp only [eval]; split <;> rfl

@[simp] theorem eval_newId (s : String) (w : World) : (eval s w).2.newId = w.newId := by
  simp only [eval]; split <;> rfl

@[simp] theorem eval_callbackCmds (s : String) (w : World) :
    (eval s w).2.callbackCmds = w.callbackCmds := by
  simp only [eval]; split <;> rfl

@[simp] theorem eval_commands (s : String) (w : World) : (eval s w).2.commands = w.commands := by
  simp only [eval]; split <;> rfl

@[simp] theorem eval_tcl (s : String) (w : World) : (eval s w).2.tcl = w.tcl := by
  simp only [eval]; split <;> rfl

@[simp] theorem eval_now (s : String) (w : World) : (eval s w).2.now = w.now := by
  simp only [eval]; split <;> rfl

@[simp] theorem mapGet_mapSet_same {ν : Type} (m : List (String × ν)) (k : String) (v : ν) :
    mapGet (mapSet m k v) k = some v := by
  simp [mapGet, mapSet]

theorem mapGet_mapSet_other {ν : Type} (m : List (String × ν)) (k k1 : String) (v : ν)
    (h : k ≠ k1) : mapGet (mapSet m k1 v) k = mapGet m k := by
  simp [mapGet, mapSet, h]

/-! ### Heap and path lemmas -/

theorem heap_lt_of_get (w : World) (r : Ref) (o : Obj) (h : w.heap[r]? = some o) :
    r < w.heap.length := by
  by_contra hge
  push_neg at hge
  rw [List.getElem?_eq_none hge] at h
  simp at h

theorem heap_getElem_of_get (w : World) (r : Ref) (o : Obj) (h : w.heap[r]? = some o) :
    ∃ hlt : r < w.heap.length, w.heap[r] = o := by
  have hlt := heap_lt_of_get w r o h
  rw [List.getElem?_eq_getElem hlt] at h
  exact ⟨hlt, Option.some.inj h⟩

theorem append_ne_self_of_ne_empty (s t : String) (h : t ≠ "") : s ++ t ≠ s := by
  intro e
  have := congrArg String.length e
  simp only [String.length_append] at this
  have ht : t.length = 0 := by omega
  apply h
  exact String.ext (List.length_eq_zero.mp ht)

theorem path_ne_parent (s t : String) : s ++ "." ++ t ≠ s := by
  rw [String.append_assoc]
  apply append_ne_self_of_ne_empty
  intro e
  have := congrArg String.length e
  simp only [String.length_append] at this
  have h1 : ".".length = 1 := by decide
  have h0 : "".length = 0 := by decide
  omega

theorem parent_ne_path (s t : String) : s ≠ s ++ "." ++ t :=
  fun e => path_ne_parent s t e.symm

theorem data_prefix_append (p s : String) : p.data <+: (p ++ s).data := by
  rw [String.data_append]
  exact List.prefix_append _ _

/-! ### create: the path returned and the entry of `widgets` -/

@[simp] theorem createScrolled_widgets (own : widget) (b : Box) (w : World) :
    (createScrolled own b w).2.widgets = w.widgets := by
  simp only [createScrolled, genNextId]
  split <;> split <;> simp

@[simp] theorem createScrolled_heap (own : widget) (b : Box) (w : World) :
    (createScrolled own b w).2.heap = w.heap := by
  simp only [createScrolled, genNextId]
  split <;> split <;> simp

theorem insertRows_ne_error (id : String) (data : List (List String)) :
    ∀ (w : World) (e : Fault), data.all (fun row => !row.isEmpty) = true →
      Table.insertRows id data w ≠ .error e := by
  induction data with
  | nil => intro w e _ h; simp [Table.insertRows] at h
  | cons i rest ih =>
    intro w e h
    simp only [List.all_cons, Bool.and_eq_true] at h
    obtain ⟨hi, hrest⟩ := h
    cases i with
    | nil => simp at hi
    | cons a t =>
      simp only [Table.insertRows, List.getLast?_eq_getLast _ (List.cons_ne_nil a t),
        List.head?_cons]
      exact ih _ e hrest

theorem insertRows_widgets (id : String) (data : List (List String)) :
    ∀ (w w1 : World), Table.insertRows id data w = .ok w1 → w1.widgets = w.widgets := by
  induction data with
  | nil => intro w w1 h; simp only [Table.insertRows, Except.ok.injEq] at h; rw [← h]
  | cons i rest ih =>
    intro w w1 h
    cases i with
    | nil => simp [Table.insertRows] at h
    | cons a t =>
      simp only [Table.insertRows, List.getLast?_eq_getLast _ (List.cons_ne_nil a t),
        List.head?_cons] at h
      rw [ih _ _ h]
      simp

/-- C6, amended. For every component variant, called on a struct whose parts
are in place (`Obj.ready`: the rows of a Table have an element each, the Label
and the Button of a Calendar exist), `create p` returns the path
`p ++ "." ++` the next generated identifier, of which `p` is a prefix, and
afterwards `widgets` maps exactly that path to the struct `create` was called
on. -/
theorem create_path_and_widgets (w : World) (r : Ref) (p : String) (o : Obj)
    (h : w.heap[r]? = some o) (hv : o.isVariant = true) (hr : o.ready w = true) :
    ∃ fl w1, Component.create r p w = .ok ((p ++ "." ++ (genNextId w).1, fl), w1) ∧
      p.data <+: (p ++ "." ++ (genNextId w).1).data ∧
      mapGet w1.widgets (p ++ "." ++ (genNextId w).1) = some (.obj r) := by
  have hpre : p.data <+: (p ++ "." ++ (genNextId w).1).data := by
    rw [String.append_assoc]
    exact data_prefix_append _ _
  obtain ⟨hrlt, h'⟩ := heap_getElem_of_get w r o h
  cases o with
  | tab t => simp [Obj.isVariant] at hv
  | dialog d => simp [Obj.isVariant] at hv
  | box b =>
    simp only [Component.create, h, Box.create, widget.create, genNextId]
    exact ⟨_, _, rfl, hpre, by simp [World.store]⟩
  | splitter b =>
    simp only [Component.create, h, Splitter.create, widget.create, genNextId]
    exact ⟨_, _, rfl, hpre, by simp [World.store]⟩
  | grid b =>
    simp only [Component.create, h, Grid.create, widget.create, genNextId]
    exact ⟨_, _, rfl, hpre, by simp [World.store]⟩
  | label b =>
    simp only [Component.create, h, Label.create, widget.create, genNextId]
    exact ⟨_, _, rfl, hpre, by simp [World.store]⟩
  | button b =>
    simp only [Component.create, h, Button.create, widget.create, genNextId]
    exact ⟨_, _, rfl, hpre, by simp [World.store]⟩
  | entry b =>
    simp only [Component.create, h, Entry.create, widget.create, genNextId]
    exact ⟨_, _, rfl, hpre, by simp [World.store]⟩
  | image b =>
    simp only [Component.create, h, Image.create, widget.create, genNextId]
    exact ⟨_, _, rfl, hpre, by simp [World.store]⟩
  | tree b =>
    simp only [Component.create, h, Tree.create, widget.create, genNextId]
    exact ⟨_, _, rfl, hpre, by simp [World.store]⟩
  | text b =>
    simp only [Component.create, h, Text.create, widget.create, genNextId]
    exact ⟨_, _, rfl, hpre, by simp [World.store]⟩
  | notebook n =>
    simp only [Component.create, h, Notebook.create, widget.create, genNextId]
    refine ⟨_, _, rfl, hpre, ?_⟩
    split <;> simp [World.store, widget.Bind, addCallbackCmd, genNextId, RegisterCmd]
  | check c =>
    simp only [Component.create, h, Check.create, widget.create, genNextId]
    refine ⟨_, _, rfl, hpre, ?_⟩
    split <;> simp [World.store, SetVar]
  | combobox c =>
    simp only [Component.create, h, Combobox.create, widget.create, genNextId]
    refine ⟨_, _, rfl, hpre, ?_⟩
    split <;> simp [World.store]
  | listbox l =>
    simp only [Component.create, h, Listbox.create, widget.create, genNextId]
    exact ⟨_, _, rfl, hpre, by simp [World.store, Listbox.ListToBox]⟩
  | table t =>
    simp only [Obj.ready] at hr
    simp only [Component.create, h, Table.create, widget.create, genNextId]
    split
    · rename_i e heq
      exact absurd heq (insertRows_ne_error _ _ _ e hr)
    · rename_i w1 heq
      refine ⟨_, _, rfl, hpre, ?_⟩
      rw [insertRows_widgets _ _ _ _ heq]
      simp [World.store]
  | calendar t =>
    simp only [Obj.ready, Bool.and_eq_true] at hr
    obtain ⟨h1, h2⟩ := hr
    split at h1 <;> try simp at h1
    rename_i l hl
    split at h2 <;> try simp at h2
    rename_i b hb
    have hne1 : r ≠ t.lb := by intro e; rw [e, hl] at h; simp at h
    have hne2 : r ≠ t.bt := by intro e; rw [e, hb] at h; simp at h
    have hne3 : t.lb ≠ t.bt := by intro e; rw [e, hb] at hl; simp at hl
    obtain ⟨hlbt, hl'⟩ := heap_getElem_of_get w _ _ hl
    obtain ⟨hbtt, hb'⟩ := heap_getElem_of_get w _ _ hb
    have hpre1 : p.data <+: (p ++ "." ++ Itoa (w.newId + 1)).data := hpre
    refine ⟨t.Box.widget.flags, ?_⟩
    simp [Component.create, h, Calendar.create, widget.create, Box.addLoop, Box.addOne, createLeaf,
      World.store, genNextId, List.getElem?_set, hne1, hne2, hne3, hne1.symm, hne2.symm,
      hne3.symm, hrlt, hl, hb, hlbt, hbtt, h', hl', hb', Obj.Box?, Label.create, Button.create,
      SetVar, Button.IfPressed, addCallbackCmd, RegisterCmd, mapGet, mapSet, parent_ne_path,
      hpre1]

/-! ### create continues the world -/

theorem Extends.refl (w : World) : Extends w w :=
  ⟨fun _ => rfl, ⟨[], by simp⟩, le_refl _, rfl⟩

theorem Extends.trans {w w1 w2 : World} (h1 : Extends w w1) (h2 : Extends w1 w2) :
    Extends w w2 := by
  obtain ⟨a1, ⟨l1, b1⟩, c1, d1⟩ := h1
  obtain ⟨a2, ⟨l2, b2⟩, c2, d2⟩ := h2
  refine ⟨fun x => (a2 x).trans (a1 x), ⟨l1 ++ l2, ?_⟩, le_trans c1 c2, d2.trans d1⟩
  rw [b2, b1, List.append_assoc]

theorem Extends.eval (s : String) (w : World) : Extends w (eval s w).2 :=
  ⟨fun _ => by simp, ⟨[s], by simp⟩, by simp, by simp⟩

theorem frame_set (heap : List Obj) (c : Ref) (o o1 : Obj) (h : heap[c]? = some o)
    (hf : o1.frame = o.frame) (x : Ref) :
    ((heap.set c o1)[x]?).map Obj.frame = (heap[x]?).map Obj.frame := by
  rw [List.getElem?_set]
  split
  · rename_i hcx
    subst hcx
    split
    · rw [h]; simp [hf]
    · rename_i hlt
      rw [List.getElem?_eq_none (by omega)]
  · rfl

theorem createScrolled_extends (own : widget) (b : Box) (w : World) :
    Extends w (createScrolled own b w).2 := by
  simp only [createScrolled, genNextId]
  refine ⟨?_, ?_, ?_, ?_⟩
  · intro x; split <;> split <;> simp
  · split <;> split <;> simp
  · split <;> split <;> simp <;> omega
  · split <;> split <;> simp

@[simp] theorem createScrolled_flags (own : widget) (b : Box) (w : World) :
    (createScrolled own b w).1.frame = own.frame := by
  simp [createScrolled, genNextId, widget.frame]

theorem insertRows_extends (id : String) (data : List (List String)) :
    ∀ (w w1 : World), Table.insertRows id data w = .ok w1 → Extends w w1 := by
  induction data with
  | nil =>
    intro w w1 h
    simp only [Table.insertRows, Except.ok.injEq] at h
    rw [← h]
    exact Extends.refl w
  | cons i rest ih =>
    intro w w1 h
    cases i with
    | nil => simp [Table.insertRows] at h
    | cons a t =>
      simp only [Table.insertRows, List.getLast?_eq_getLast _ (List.cons_ne_nil a t),
        List.head?_cons] at h
      exact (Extends.eval _ w).trans (ih _ _ h)

@[simp] theorem createScrolled_fst (own : widget) (b : Box) (w : World) :
    (createScrolled own b w).1 = { own with id := b.widget.id ++ "." ++ Itoa (w.newId + 1) } := by
  simp [createScrolled, genNextId]

theorem Extends.store (w : World) (c : Ref) (o o1 : Obj) (h : w.heap[c]? = some o)
    (hf : o1.frame = o.frame) : Extends w (w.store c o1) :=
  ⟨fun x => frame_set _ _ _ _ h hf x, ⟨[], by simp [World.store]⟩, le_refl _, rfl⟩

theorem Extends.of_fields (w w1 : World) (hh : w1.heap = w.heap) (hl : ∃ l, w1.log = w.log ++ l)
    (hn : w.newId ≤ w1.newId) (ht : w1.tcl = w.tcl) : Extends w w1 :=
  ⟨fun x => by rw [hh], hl, hn, ht⟩

theorem Splitter_create_extends (r : Ref) (p : String) (w : World) (res : String × Nat) (w1 : World)
    (h : Splitter.create r p w = .ok (res, w1)) : Extends w w1 := by
  unfold Splitter.create at h
  split at h
  · cases h
  · rename_i o ho
    simp only [widget.create, genNextId, Except.ok.injEq, Prod.mk.injEq] at h
    obtain ⟨_, rfl⟩ := h
    refine ⟨fun x => ?_, ?_, ?_, ?_⟩
    · simp only [World.store, eval_heap]
      exact frame_set _ _ _ _ ho (by simp [Obj.frame, widget.frame]) x
    · simp [World.store]
    · simp [World.store]
    · simp [World.store]
  · cases h

theorem Grid_create_extends (r : Ref) (p : String) (w : World) (res : String × Nat) (w1 : World)
    (h : Grid.create r p w = .ok (res, w1)) : Extends w w1 := by
  unfold Grid.create at h
  split at h
  · cases h
  · rename_i o ho
    simp only [widget.create, genNextId, Except.ok.injEq, Prod.mk.injEq] at h
    obtain ⟨_, rfl⟩ := h
    refine ⟨fun x => ?_, ?_, ?_, ?_⟩
    · simp only [World.store, eval_heap]
      exact frame_set _ _ _ _ ho (by simp [Obj.frame, widget.frame]) x
    · simp [World.store]
    · simp [World.store]
    · simp [World.store]
  · cases h

theorem Label_create_extends (r : Ref) (p : String) (w : World) (res : String × Nat) (w1 : World)
    (h : Label.create r p w = .ok (res, w1)) : Extends w w1 := by
  unfold Label.create at h
  split at h
  · cases h
  · rename_i o ho
    simp only [widget.create, genNextId, Except.ok.injEq, Prod.mk.injEq] at h
    obtain ⟨_, rfl⟩ := h
    refine ⟨fun x => ?_, ?_, ?_, ?_⟩
    · simp only [World.store, eval_heap]
      exact frame_set _ _ _ _ ho (by simp [Obj.frame, widget.frame]) x
    · simp [World.store]
    · simp [World.store]
    · simp [World.store]
  · cases h

theorem Button_create_extends (r : Ref) (p : String) (w : World) (res : String × Nat) (w1 : World)
    (h : Button.create r p w = .ok (res, w1)) : Extends w w1 := by
  unfold Button.create at h
  split at h
  · cases h
  · rename_i o ho
    simp only [widget.create, genNextId, Except.ok.injEq, Prod.mk.injEq] at h
    obtain ⟨_, rfl⟩ := h
    refine ⟨fun x => ?_, ?_, ?_, ?_⟩
    · simp only [World.store, eval_heap]
      exact frame_set _ _ _ _ ho (by simp [Obj.frame, widget.frame]) x
    · simp [World.store]
    · simp [World.store]
    · simp [World.store]
  · cases h

theorem Entry_create_extends (r : Ref) (p : String) (w : World) (res : String × Nat) (w1 : World)
    (h : Entry.create r p w = .ok (res, w1)) : Extends w w1 := by
  unfold Entry.create at h
  split at h
  · cases h
  · rename_i o ho
    simp only [widget.create, genNextId, Except.ok.injEq, Prod.mk.injEq] at h
    obtain ⟨_, rfl⟩ := h
    refine ⟨fun x => ?_, ?_, ?_, ?_⟩
    · simp only [World.store, eval_heap]
      exact frame_set _ _ _ _ ho (by simp [Obj.frame, widget.frame]) x
    · simp [World.store]
    · simp [World.store]
    · simp [World.store]
  · cases h

theorem Image_create_extends (r : Ref) (p : String) (w : World) (res : String × Nat) (w1 : World)
    (h : Image.create r p w = .ok (res, w1)) : Extends w w1 := by
  unfold Image.create at h
  split at h
  · cases h
  · rename_i o ho
    simp only [widget.create, genNextId, Except.ok.injEq, Prod.mk.injEq] at h
    obtain ⟨_, rfl⟩ := h
    refine ⟨fun x => ?_, ?_, ?_, ?_⟩
    · simp only [World.store, eval_heap]
      exact frame_set _ _ _ _ ho (by simp [Obj.frame, widget.frame]) x
    · simp [World.store]
    · simp [World.store]
    · simp [World.store]
  · cases h

theorem Tree_create_extends (r : Ref) (p : String) (w : World) (res : String × Nat) (w1 : World)
    (h : Tree.create r p w = .ok (res, w1)) : Extends w w1 := by
  unfold Tree.create at h
  split at h
  · cases h
  · rename_i o ho
    simp only [widget.create, genNextId, Except.ok.injEq, Prod.mk.injEq] at h
    obtain ⟨_, rfl⟩ := h
    refine @Extends.trans _ ({ (eval (o.b.widget.name ++ " " ++ (p ++ "." ++ Itoa (w.newId + 1))
      ++ " " ++ o.b.widget.initParam) { w with newId := w.newId + 1 }).2 with
        widgets := mapSet (eval (o.b.widget.name ++ " " ++ (p ++ "." ++ Itoa (w.newId + 1))
          ++ " " ++ o.b.widget.initParam) { w with newId := w.newId + 1 }).2.widgets
          (p ++ "." ++ Itoa (w.newId + 1)) (.obj r) }) _ ?_ ?_
    · exact Extends.of_fields _ _ (by simp) ⟨_, eval_log _ _⟩ (by simp) (by simp)
    · refine Extends.trans (createScrolled_extends o.widget
        ⟨{ o.b.widget with id := p ++ "." ++ Itoa (w.newId + 1) }⟩ _) ?_
      refine Extends.store _ _ (.tree o) _ ?_ ?_
      · simpa using ho
      · simp [Obj.frame, widget.frame]
  · cases h

theorem Text_create_extends (r : Ref) (p : String) (w : World) (res : String × Nat) (w1 : World)
    (h : Text.create r p w = .ok (res, w1)) : Extends w w1 := by
  unfold Text.create at h
  split at h
  · cases h
  · rename_i o ho
    simp only [widget.create, genNextId, Except.ok.injEq, Prod.mk.injEq] at h
    obtain ⟨_, rfl⟩ := h
    refine @Extends.trans _ ({ (eval (o.b.widget.name ++ " " ++ (p ++ "." ++ Itoa (w.newId + 1))
      ++ " " ++ o.b.widget.initParam) { w with newId := w.newId + 1 }).2 with
        widgets := mapSet (eval (o.b.widget.name ++ " " ++ (p ++ "." ++ Itoa (w.newId + 1))
          ++ " " ++ o.b.widget.initParam) { w with newId := w.newId + 1 }).2.widgets
          (p ++ "." ++ Itoa (w.newId + 1)) (.obj r) }) _ ?_ ?_
    · exact Extends.of_fields _ _ (by simp) ⟨_, eval_log _ _⟩ (by simp) (by simp)
    · refine Extends.trans (createScrolled_extends o.widget
        ⟨{ o.b.widget with id := p ++ "." ++ Itoa (w.newId + 1) }⟩ _) ?_
      refine Extends.trans ?_ (Extends.eval _ _)
      refine Extends.store _ _ (.text o) _ ?_ ?_
      · simpa using ho
      · simp [Obj.frame, widget.frame]
  · cases h

theorem Listbox_create_extends (r : Ref) (p : String) (w : World) (res : String × Nat) (w1 : World)
    (h : Listbox.create r p w = .ok (res, w1)) : Extends w w1 := by
  unfold Listbox.create at h
  split at h
  · cases h
  · rename_i o ho
    simp only [widget.create, genNextId, Except.ok.injEq, Prod.mk.injEq] at h
    simp only [Listbox.ListToBox] at h
    obtain ⟨_, rfl⟩ := h
    refine @Extends.trans _ ({ (eval (o.b.widget.name ++ " " ++ (p ++ "." ++ Itoa (w.newId + 1))
      ++ " " ++ o.b.widget.initParam) { w with newId := w.newId + 1 }).2 with
        widgets := mapSet (eval (o.b.widget.name ++ " " ++ (p ++ "." ++ Itoa (w.newId + 1))
          ++ " " ++ o.b.widget.initParam) { w with newId := w.newId + 1 }).2.widgets
          (p ++ "." ++ Itoa (w.newId + 1)) (.obj r) }) _ ?_ ?_
    · exact Extends.of_fields _ _ (by simp) ⟨_, eval_log _ _⟩ (by simp) (by simp)
    · refine Extends.trans (createScrolled_extends o.widget
        ⟨{ o.b.widget with id := p ++ "." ++ Itoa (w.newId + 1) }⟩ _) ?_
      refine Extends.trans ?_ (Extends.eval _ _)
      refine Extends.store _ _ (.listbox o) _ ?_ ?_
      · simpa using ho
      · simp [Obj.frame, widget.frame]
  · cases h

theorem Box_create_extends (r : Ref) (p : String) (w : World) (res : String × Nat) (w1 : World)
    (h : Box.create r p w = .ok (res, w1)) : Extends w w1 := by
  unfold Box.create at h
  split at h
  · cases h
  · rename_i o ho
    simp only [widget.create, genNextId, Except.ok.injEq, Prod.mk.injEq] at h
    obtain ⟨_, rfl⟩ := h
    refine ⟨fun x => ?_, ?_, ?_, ?_⟩
    · simp only [World.store, eval_heap]
      exact frame_set _ _ _ _ ho (by simp [Obj.frame, widget.frame]) x
    · simp [World.store]
    · simp [World.store]
    · simp [World.store]
  · rename_i o ho
    simp only [widget.create, genNextId, Except.ok.injEq, Prod.mk.injEq] at h
    obtain ⟨_, rfl⟩ := h
    refine ⟨fun x => ?_, ?_, ?_, ?_⟩
    · simp only [World.store, eval_heap]
      exact frame_set _ _ _ _ ho (by simp [Obj.frame, widget.frame]) x
    · simp [World.store]
    · simp [World.store]
    · simp [World.store]
  · rename_i o ho
    simp only [widget.create, genNextId, Except.ok.injEq, Prod.mk.injEq] at h
    obtain ⟨_, rfl⟩ := h
    refine ⟨fun x => ?_, ?_, ?_, ?_⟩
    · simp only [World.store, eval_heap]
      exact frame_set _ _ _ _ ho (by simp [Obj.frame, widget.frame]) x
    · simp [World.store]
    · simp [World.store]
    · simp [World.store]
  · cases h

theorem Notebook_create_extends (r : Ref) (p : String) (w : World) (res : String × Nat)
    (w1 : World) (h : Notebook.create r p w = .ok (res, w1)) : Extends w w1 := by
  unfold Notebook.create at h
  split at h
  · cases h
  · rename_i o ho
    simp only [widget.create, genNextId, Except.ok.injEq, Prod.mk.injEq] at h
    obtain ⟨_, rfl⟩ := h
    split
    · refine ⟨fun x => ?_, ?_, ?_, ?_⟩
      · simp only [World.store, eval_heap]
        exact frame_set _ _ _ _ ho (by simp [Obj.frame, widget.frame]) x
      · simp [World.store]
      · simp [World.store]
      · simp [World.store]
    · simp only [widget.Bind, addCallbackCmd, genNextId, RegisterCmd]
      refine ⟨fun x => ?_, ?_, ?_, ?_⟩
      · simp only [World.store, eval_heap]
        exact frame_set _ _ _ _ ho (by simp [Obj.frame, widget.frame]) x
      · simp [World.store]
      · simp [World.store]; omega
      · simp [World.store]
  · cases h

theorem Check_create_extends (r : Ref) (p : String) (w : World) (res : String × Nat) (w1 : World)
    (h : Check.create r p w = .ok (res, w1)) : Extends w w1 := by
  unfold Check.create at h
  split at h
  · cases h
  · rename_i o ho
    simp only [widget.create, genNextId, Except.ok.injEq, Prod.mk.injEq] at h
    obtain ⟨_, rfl⟩ := h
    split
    · simp only [SetVar]
      refine ⟨fun x => ?_, ?_, ?_, ?_⟩
      · simp only [World.store, eval_heap]
        exact frame_set _ _ _ _ ho (by simp [Obj.frame, widget.frame]) x
      · simp [World.store]
      · simp [World.store]; omega
      · simp [World.store]
    · simp only [SetVar]
      refine ⟨fun x => ?_, ?_, ?_, ?_⟩
      · simp only [World.store, eval_heap]
        exact frame_set _ _ _ _ ho (by simp [Obj.frame, widget.frame]) x
      · simp [World.store]
      · simp [World.store]; omega
      · simp [World.store]
  · cases h

theorem Combobox_create_extends (r : Ref) (p : String) (w : World) (res : String × Nat)
    (w1 : World) (h : Combobox.create r p w = .ok (res, w1)) : Extends w w1 := by
  unfold Combobox.create at h
  split at h
  · cases h
  · rename_i o ho
    simp only [widget.create, genNextId, Except.ok.injEq, Prod.mk.injEq] at h
    obtain ⟨_, rfl⟩ := h
    split
    · refine ⟨fun x => ?_, ?_, ?_, ?_⟩
      · simp only [World.store, eval_heap]
        exact frame_set _ _ _ _ ho (by simp [Obj.frame, widget.frame]) x
      · simp [World.store]
      · simp [World.store]
      · simp [World.store]
    · refine ⟨fun x => ?_, ?_, ?_, ?_⟩
      · simp only [World.store, eval_heap]
        exact frame_set _ _ _ _ ho (by simp [Obj.frame, widget.frame]) x
      · simp [World.store]
      · simp [World.store]
      · simp [World.store]
  · cases h

theorem Table_create_extends (r : Ref) (p : String) (w : World) (res : String × Nat) (w1 : World)
    (h : Table.create r p w = .ok (res, w1)) : Extends w w1 := by
  unfold Table.create at h
  split at h
  · cases h
  · rename_i o ho
    simp only [widget.create, genNextId] at h
    split at h
    · cases h
    · rename_i w2 heq
      simp only [Except.ok.injEq, Prod.mk.injEq] at h
      obtain ⟨_, rfl⟩ := h
      refine Extends.trans ?_ (insertRows_extends _ _ _ _ heq)
      refine @Extends.trans _ ({ (eval (o.b.widget.name ++ " " ++ (p ++ "." ++ Itoa (w.newId + 1))
        ++ " " ++ o.b.widget.initParam) { w with newId := w.newId + 1 }).2 with
          widgets := mapSet (eval (o.b.widget.name ++ " " ++ (p ++ "." ++ Itoa (w.newId + 1))
            ++ " " ++ o.b.widget.initParam) { w with newId := w.newId + 1 }).2.widgets
            (p ++ "." ++ Itoa (w.newId + 1)) (.obj r) }) _ ?_ ?_
      · exact Extends.of_fields _ _ (by simp) ⟨_, eval_log _ _⟩ (by simp) (by simp)
      · refine Extends.trans (createScrolled_extends o.widget
          ⟨{ o.b.widget with id := p ++ "." ++ Itoa (w.newId + 1) }⟩ _) ?_
        refine Extends.store _ _ (.table o) _ ?_ ?_
        · simpa using ho
        · simp [Obj.frame, widget.frame]
  · cases h

theorem createLeaf_extends (c : Ref) (p : String) (w : World) (res : String × Nat) (w1 : World)
    (h : createLeaf c p w = .ok (res, w1)) : Extends w w1 := by
  unfold createLeaf at h
  split at h
  · cases h
  · exact Label_create_extends _ _ _ _ _ h
  · exact Button_create_extends _ _ _ _ _ h
  · cases h

theorem Box_addOne_extends (cr : CreateFn)
    (hcr : ∀ c p w res w1, cr c p w = .ok (res, w1) → Extends w w1)
    (b : Ref) (c : Option Ref) (w w1 : World) (h : Box.addOne cr b c w = .ok w1) :
    Extends w w1 := by
  unfold Box.addOne at h
  split at h
  · cases h
  · split at h
    · cases h
    · split at h
      · cases h
      · rename_i newId flags w2 hc
        split at h
        · cases h
        · simp only [Except.ok.injEq] at h
          rw [← h]
          exact (hcr _ _ _ _ _ hc).trans (Extends.eval _ _)

theorem Box_addLoop_extends (cr : CreateFn)
    (hcr : ∀ c p w res w1, cr c p w = .ok (res, w1) → Extends w w1)
    (b : Ref) (cs : List (Option Ref)) :
    ∀ (w w1 : World), Box.addLoop cr b cs w = .ok w1 → Extends w w1 := by
  induction cs with
  | nil =>
    intro w w1 h
    simp only [Box.addLoop, Except.ok.injEq] at h
    rw [← h]
    exact Extends.refl w
  | cons c cs ih =>
    intro w w1 h
    simp only [Box.addLoop] at h
    split at h
    · cases h
    · rename_i w2 h2
      exact (Box_addOne_extends cr hcr b c w w2 h2).trans (ih _ _ h)

theorem Calendar_create_extends (r : Ref) (p : String) (w : World) (res : String × Nat)
    (w1 : World) (h : Calendar.create r p w = .ok (res, w1)) : Extends w w1 := by
  unfold Calendar.create at h
  split at h
  · cases h
  · rename_i o ho
    simp only [widget.create, genNextId] at h
    split at h
    · cases h
    · rename_i w2 heq
      have h2 := Box_addLoop_extends _ createLeaf_extends _ _ _ _ heq
      split at h
      · rename_i o2 ho2
        split at h
        · rename_i lb bt hlb hbt
          simp only [Except.ok.injEq, Prod.mk.injEq] at h
          obtain ⟨_, rfl⟩ := h
          refine Extends.trans ?_ (Extends.trans h2 ?_)
          · refine ⟨fun x => ?_, ?_, ?_, ?_⟩
            · simp only [World.store, eval_heap]
              exact frame_set _ _ _ _ ho (by simp [Obj.frame, widget.frame]) x
            · simp [World.store]
            · simp [World.store]
            · simp [World.store]
          · simp only [Button.IfPressed, addCallbackCmd, genNextId, RegisterCmd, SetVar]
            refine ⟨fun x => ?_, ?_, ?_, ?_⟩
            · simp only [World.store, eval_heap]
              exact frame_set _ _ _ _ ho2 (by simp [Obj.frame, widget.frame]) x
            · simp [World.store]
            · simp [World.store]; omega
            · simp [World.store]
        · cases h
      · cases h
  · cases h

/-- Whatever struct `create` is called on, the world afterwards continues the
world before. -/
theorem create_extends (c : Ref) (p : String) (w : World) (res : String × Nat) (w1 : World)
    (h : Component.create c p w = .ok (res, w1)) : Extends w w1 := by
  unfold Component.create at h
  split at h
  · cases h
  · exact Box_create_extends _ _ _ _ _ h
  · exact Box_create_extends _ _ _ _ _ h
  · exact Box_create_extends _ _ _ _ _ h
  · exact Splitter_create_extends _ _ _ _ _ h
  · exact Notebook_create_extends _ _ _ _ _ h
  · exact Grid_create_extends _ _ _ _ _ h
  · exact Label_create_extends _ _ _ _ _ h
  · exact Button_create_extends _ _ _ _ _ h
  · exact Check_create_extends _ _ _ _ _ h
  · exact Entry_create_extends _ _ _ _ _ h
  · exact Listbox_create_extends _ _ _ _ _ h
  · exact Tree_create_extends _ _ _ _ _ h
  · exact Image_create_extends _ _ _ _ _ h
  · exact Combobox_create_extends _ _ _ _ _ h
  · exact Table_create_extends _ _ _ _ _ h
  · exact Text_create_extends _ _ _ _ _ h
  · exact Calendar_create_extends _ _ _ _ _ h

/-! ### What survives `create` -/

theorem Extends.grid {w w1 : World} (hx : Extends w w1) (g : Ref) (gr : Grid)
    (h : w.heap[g]? = some (.grid gr)) :
    ∃ gr1, w1.heap[g]? = some (.grid gr1) ∧ gr1.columns = gr.columns ∧ gr1.row = gr.row
      ∧ gr1.col = gr.col ∧ gr1.widget.flags = gr.widget.flags := by
  have hf := hx.1 g
  rw [h] at hf
  cases hw : w1.heap[g]? with
  | none => rw [hw] at hf; simp at hf
  | some o1 =>
    rw [hw] at hf
    cases o1 <;> simp [Obj.frame, widget.frame] at hf
    exact ⟨_, rfl, hf.2.1, hf.2.2.1, hf.2.2.2, hf.1.2.2⟩

theorem Extends.splitter {w w1 : World} (hx : Extends w w1) (s : Ref) (sp : Splitter)
    (h : w.heap[s]? = some (.splitter sp)) :
    ∃ sp1, w1.heap[s]? = some (.splitter sp1) ∧ sp1.widget.flags = sp.widget.flags := by
  have hf := hx.1 s
  rw [h] at hf
  cases hw : w1.heap[s]? with
  | none => rw [hw] at hf; simp at hf
  | some o1 =>
    rw [hw] at hf
    cases o1 <;> simp [Obj.frame, widget.frame] at hf
    exact ⟨_, rfl, hf.2.2⟩

theorem Extends.box {w w1 : World} (hx : Extends w w1) (b : Ref) (bx : Box)
    (h : (w.heap[b]?).bind Obj.Box? = some bx) :
    ∃ bx1, (w1.heap[b]?).bind Obj.Box? = some bx1 ∧ bx1.widget.flags = bx.widget.flags := by
  have hf := hx.1 b
  cases hw0 : w.heap[b]? with
  | none => rw [hw0] at h; simp at h
  | some o =>
    rw [hw0] at h hf
    cases hw : w1.heap[b]? with
    | none => rw [hw] at hf; simp at hf
    | some o1 =>
      rw [hw] at hf
      cases o <;> simp [Obj.Box?] at h <;> cases o1 <;> simp [Obj.frame, widget.frame] at hf <;>
        simp [Obj.Box?, ← h, hf]

/-! ### Box.Add and Splitter.Add -/

theorem Box_Add_extends (b : Ref) (cs : List (Option Ref)) (w w1 : World)
    (h : Box.Add b cs w = .ok w1) : Extends w w1 :=
  Box_addLoop_extends Component.create create_extends b cs w w1 h

theorem Splitter_addOne_extends (s : Ref) (c : Option Ref) (w w1 : World)
    (h : Splitter.addOne s c w = .ok w1) : Extends w w1 := by
  unfold Splitter.addOne at h
  split at h
  · split at h
    · cases h
    · split at h
      · cases h
      · rename_i newId flags w2 hc
        split at h
        · simp only [Except.ok.injEq] at h
          rw [← h]
          exact (create_extends _ _ _ _ _ hc).trans (Extends.eval _ _)
        · cases h
  · cases h

theorem Splitter_Add_extends (s : Ref) (cs : List (Option Ref)) :
    ∀ (w w1 : World), Splitter.Add s cs w = .ok w1 → Extends w w1 := by
  induction cs with
  | nil =>
    intro w w1 h
    simp only [Splitter.Add, Except.ok.injEq] at h
    rw [← h]
    exact Extends.refl w
  | cons c cs ih =>
    intro w w1 h
    simp only [Splitter.Add] at h
    split at h
    · cases h
    · rename_i w2 h2
      exact (Splitter_addOne_extends s c w w2 h2).trans (ih _ _ h)

/-- C2. When the create of a child of a Box returns the path `newId` and the
flags `flags`, the next script `Box.Add` sends is `pack newId -padx 1 -pady 1`
followed by the options `opts`, and it goes on with the remaining children from
there, whose scripts all come later.  The options end in
`-fill both -expand yes` when `flags` has Expand; otherwise in `-fill y` for a
Box with Horizontal and in `-fill x` for one without, and name no `-expand`;
`-side left` is among them exactly when the Box has Horizontal. -/
theorem Box_Add_pack_options (w : World) (b c : Ref) (cs : List (Option Ref)) (bx : Box)
    (newId : String) (flags : Nat) (w1 : World)
    (hb : (w.heap[b]?).bind Obj.Box? = some bx)
    (hc : Component.create c bx.widget.id w = .ok ((newId, flags), w1)) :
    ∃ opts : String,
      Box.Add b (some c :: cs) w
        = Box.Add b cs (eval ("pack " ++ newId ++ " -padx 1 -pady 1" ++ opts) w1).2 ∧
      (eval ("pack " ++ newId ++ " -padx 1 -pady 1" ++ opts) w1).2.log
        = w1.log ++ ["pack " ++ newId ++ " -padx 1 -pady 1" ++ opts] ∧
      (∀ w2, Box.Add b (some c :: cs) w = .ok w2 →
        ∃ l0 l, w2.log = w.log ++ l0 ++ ["pack " ++ newId ++ " -padx 1 -pady 1" ++ opts] ++ l) ∧
      (flags &&& Expand ≠ 0 → bx.widget.flags &&& Horizontal ≠ 0 →
        opts = " -side left -fill both -expand yes") ∧
      (flags &&& Expand ≠ 0 → bx.widget.flags &&& Horizontal = 0 →
        opts = " -fill both -expand yes") ∧
      (flags &&& Expand = 0 → bx.widget.flags &&& Horizontal ≠ 0 →
        opts = " -side left -fill y") ∧
      (flags &&& Expand = 0 → bx.widget.flags &&& Horizontal = 0 →
        opts = " -fill x") := by
  have hx := create_extends _ _ _ _ _ hc
  obtain ⟨bx1, hb1, hfl⟩ := hx.box b bx hb
  have hstep : Box.addOne Component.create b (some c) w
      = .ok (eval ("pack " ++ newId ++ " -padx 1 -pady 1" ++
          ((if bx.widget.flags &&& Horizontal ≠ 0 then " -side left" else "") ++ " -fill " ++
          (if flags &&& Expand ≠ 0 then "both -expand yes"
            else if bx.widget.flags &&& Horizontal ≠ 0 then "y" else "x"))) w1).2 := by
    simp only [Box.addOne, hb, hc, hb1, hfl]
    congr 3
    by_cases h1 : bx.widget.flags &&& Horizontal = 0 <;>
      by_cases h2 : flags &&& Expand = 0 <;>
      simp [h1, h2, String.append_assoc]
  have hadd : Box.Add b (some c :: cs) w
      = Box.Add b cs (eval ("pack " ++ newId ++ " -padx 1 -pady 1" ++
          ((if bx.widget.flags &&& Horizontal ≠ 0 then " -side left" else "") ++ " -fill " ++
          (if flags &&& Expand ≠ 0 then "both -expand yes"
            else if bx.widget.flags &&& Horizontal ≠ 0 then "y" else "x"))) w1).2 := by
    simp only [Box.Add, Box.addLoop, hstep]
  refine ⟨(if bx.widget.flags &&& Horizontal ≠ 0 then " -side left" else "") ++ " -fill " ++
    (if flags &&& Expand ≠ 0 then "both -expand yes"
      else if bx.widget.flags &&& Horizontal ≠ 0 then "y" else "x"), hadd, by simp, ?_, ?_, ?_, ?_, ?_⟩
  · intro w2 h2
    rw [hadd] at h2
    obtain ⟨_, ⟨l, hl⟩, _, _⟩ := Box_Add_extends _ _ _ _ h2
    obtain ⟨_, ⟨l0, hl0⟩, _, _⟩ := hx
    exact ⟨l0, l, by rw [hl, eval_log, hl0]⟩
  · intro h1 h2; simp [h1, h2]
  · intro h1 h2; simp [h1, h2]
  · intro h1 h2; simp [h1, h2]
  · intro h1 h2; simp [h1, h2]

/-- C3. When the create of a child of a Splitter returns the path `newId` and
the flags `flags`, the next script `Splitter.Add` sends is the path of the
splitter, `add`, `newId` and `-weight 1` if `flags` has Expand, `-weight 0`
otherwise; it then goes on with the remaining children from there, so the
placement scripts come in the order of the children. -/
theorem Splitter_Add_weight (w : World) (s c : Ref) (cs : List (Option Ref)) (sp : Splitter)
    (newId : String) (flags : Nat) (w1 : World)
    (hs : w.heap[s]? = some (.splitter sp))
    (hc : Component.create c sp.widget.id w = .ok ((newId, flags), w1)) :
    ∃ (sp1 : Splitter) (wt : String),
      w1.heap[s]? = some (.splitter sp1) ∧
      Splitter.Add s (some c :: cs) w
        = Splitter.Add s cs (eval (sp1.widget.id ++ " add " ++ newId ++ wt) w1).2 ∧
      (eval (sp1.widget.id ++ " add " ++ newId ++ wt) w1).2.log
        = w1.log ++ [sp1.widget.id ++ " add " ++ newId ++ wt] ∧
      (∀ w2, Splitter.Add s (some c :: cs) w = .ok w2 →
        ∃ l0 l, w2.log = w.log ++ l0 ++ [sp1.widget.id ++ " add " ++ newId ++ wt] ++ l) ∧
      (flags &&& Expand ≠ 0 → wt = " -weight 1") ∧
      (flags &&& Expand = 0 → wt = " -weight 0") := by
  have hx := create_extends _ _ _ _ _ hc
  obtain ⟨sp1, hs1, _⟩ := hx.splitter s sp hs
  have hstep : Splitter.addOne s (some c) w
      = .ok (eval (sp1.widget.id ++ " add " ++ newId ++
          (if flags &&& Expand ≠ 0 then " -weight 1" else " -weight 0")) w1).2 := by
    simp only [Splitter.addOne, hs, hc, hs1]
    congr 3
    by_cases h2 : flags &&& Expand = 0 <;> simp [h2]
  have hadd : Splitter.Add s (some c :: cs) w
      = Splitter.Add s cs (eval (sp1.widget.id ++ " add " ++ newId ++
          (if flags &&& Expand ≠ 0 then " -weight 1" else " -weight 0")) w1).2 := by
    simp only [Splitter.Add, hstep]
  refine ⟨sp1, if flags &&& Expand ≠ 0 then " -weight 1" else " -weight 0", hs1, hadd,
    by simp, ?_, ?_, ?_⟩
  · intro w2 h2
    rw [hadd] at h2
    obtain ⟨_, ⟨l, hl⟩, _, _⟩ := Splitter_Add_extends _ _ _ _ h2
    obtain ⟨_, ⟨l0, hl0⟩, _, _⟩ := hx
    exact ⟨l0, l, by rw [hl, eval_log, hl0]⟩
  · intro h1; simp [h1]
  · intro h1; simp [h1]

/-! ### Examples -/

theorem Box_Add_pack_options_witness :
    (Box.Add 0 [some 1] demoBoxLabel).map (fun w => w.log)
      = .ok ["ttk::frame .1 ", "ttk::label .1.2  -text \"A\"",
          "pack .1.2 -padx 1 -pady 1 -side left -fill both -expand yes"] := by
  obtain ⟨opts, h1, _, _, h4, _⟩ := Box_Add_pack_options demoBoxLabel 0 1 []
    ⟨⟨".1", "ttk::frame", "", Horizontal⟩⟩ ".1.2" Expand demoBoxLabelCreated rfl rfl
  rw [h1, h4 (by decide) (by decide)]
  rfl

theorem Splitter_Add_weight_witness :
    (Splitter.Add 0 [some 1, some 2] demoSplitter).map (fun w => w.log)
      = .ok ["ttk::panedwindow .1 ", "ttk::label .1.2  -text \"A\"", ".1 add .1.2 -weight 1",
          "ttk::label .1.3  -text \"B\"", ".1 add .1.3 -weight 0"] := by
  obtain ⟨sp1, wt, h0, h1, _, _, h4, _⟩ := Splitter_Add_weight demoSplitter 0 1 [some 2]
    ⟨⟨".1", "ttk::panedwindow", "", 0⟩⟩ ".1.2" Expand demoSplitterCreated rfl rfl
  have hsp : sp1 = ⟨⟨".1", "ttk::panedwindow", "", 0⟩⟩ := by
    have h0' : demoSplitterCreated.heap[0]?
        = some (.splitter ⟨⟨".1", "ttk::panedwindow", "", 0⟩⟩) := rfl
    rw [h0'] at h0
    injection h0 with h0
    injection h0 with h0
    exact h0.symm
  rw [h1, h4 (by decide), hsp]
  rfl

theorem create_path_and_widgets_witness :
    ∃ fl w1, Component.create 0 "" demoTable = .ok (("" ++ "." ++ (genNextId demoTable).1, fl), w1) ∧
      "".data <+: ("" ++ "." ++ (genNextId demoTable).1).data ∧
      mapGet w1.widgets ("" ++ "." ++ (genNextId demoTable).1) = some (.obj 0) :=
  create_path_and_widgets demoTable 0 ""
    (.table ⟨⟨"", "ttk::treeview", " -displaycolumns #all -show headings", 0⟩,
      Box.new (0 &&& Expand), [["a", "1"]]⟩) rfl rfl rfl

/-- C6 as stated fails for a Table: `create` on the Table that
`NewTable([][]string{{}}, 0)` builds faults at `i[len(i)-1]` and returns no
path. -/
theorem Table_create_faults_on_empty_row :
    demoTableEmptyRow.heap[0]?
      = some (.table ⟨⟨"", "ttk::treeview", " -displaycolumns #all -show headings", 0⟩,
          Box.new (0 &&& Expand), [[]]⟩) ∧
    Component.create 0 "" demoTableEmptyRow = .error .indexOutOfRange :=
  ⟨rfl, rfl⟩

/-! ### Grid.Add -/

theorem GridInv.wrap {c k : Int} {gr : Grid} (hc : 1 ≤ c) (h : GridInv c k gr) :
    gr.wrap.columns = c ∧ gr.wrap.widget = gr.widget ∧
      gr.wrap.row = k / c ∧ gr.wrap.col = k % c := by
  obtain ⟨h1, h2, h3, h4⟩ := h
  have key : gr.wrap.columns = c ∧ gr.wrap.widget = gr.widget ∧
      gr.wrap.row * c + gr.wrap.col = k ∧ 0 ≤ gr.wrap.col ∧ gr.wrap.col < c := by
    unfold Grid.wrap
    split
    · rename_i hge
      rw [h1] at hge
      have : gr.col = c := le_antisymm h4 hge
      refine ⟨h1, rfl, ?_, le_refl _, ?_⟩
      · simp only
        rw [← h2, this]
        ring
      · simp only
        omega
    · rename_i hlt
      rw [h1] at hlt
      exact ⟨h1, rfl, h2, h3, by omega⟩
  obtain ⟨k1, k2, k3, k4, k5⟩ := key
  have := (@Int.ediv_emod_unique k c gr.wrap.col gr.wrap.row
    (by omega)).mpr ⟨by rw [← k3]; ring, k4, k5⟩
  exact ⟨k1, k2, this.1.symm, this.2.symm⟩

theorem Grid_place_extends (g : Ref) (c : Option Ref) (w w1 : World)
    (h : Grid.place g c w = .ok w1) : Extends w w1 := by
  unfold Grid.place at h
  split at h
  · simp only [Except.ok.injEq] at h
    rw [← h]
    exact Extends.refl w
  · split at h
    · split at h
      · cases h
      · rename_i newId flags w2 hc
        have hx := create_extends _ _ _ _ _ hc
        split at h
        · simp only at h
          split at h
          · simp only [Except.ok.injEq] at h
            rw [← h]
            exact hx.trans ((Extends.eval _ _).trans ((Extends.eval _ _).trans (Extends.eval _ _)))
          · simp only [Except.ok.injEq] at h
            rw [← h]
            exact hx.trans (Extends.eval _ _)
        · cases h
    · cases h

theorem Grid_addOne_inv (g : Ref) (comp : Option Ref) (w w1 : World) (c k : Int) (gr : Grid)
    (hc : 1 ≤ c) (hg : w.heap[g]? = some (.grid gr)) (hinv : GridInv c k gr)
    (h : Grid.addOne g comp w = .ok w1) :
    ∃ gr1, w1.heap[g]? = some (.grid gr1) ∧ GridInv c (k + 1) gr1 := by
  have hlt := heap_lt_of_get w g _ hg
  obtain ⟨hw1, hw2, hw3, hw4⟩ := hinv.wrap hc
  simp only [Grid.addOne, hg] at h
  split at h
  · cases h
  · rename_i w2 hp
    have hx := Grid_place_extends _ _ _ _ hp
    have hg0 : (w.store g (.grid gr.wrap)).heap[g]? = some (.grid gr.wrap) := by
      simp [World.store, hlt]
    obtain ⟨gr2, hg2, e1, e2, e3, _⟩ := hx.grid g _ hg0
    have hlt2 := heap_lt_of_get w2 g _ hg2
    simp only [hg2, Except.ok.injEq] at h
    rw [← h]
    refine ⟨{ gr2 with col := gr2.col + 1 }, by simp [World.store, hlt2], ?_⟩
    refine ⟨by simpa [e1] using hw1, ?_, ?_, ?_⟩
    · simp only [e2, e3, hw3, hw4]
      have := Int.emod_add_ediv k c
      linarith [Int.ediv_add_emod k c, mul_comm c (k / c)]
    · simp only [e3, hw4]
      have := Int.emod_nonneg k (show c ≠ 0 by omega)
      omega
    · simp only [e3, hw4]
      have := Int.emod_lt_of_pos k (show 0 < c by omega)
      omega

theorem Grid_Add_inv (g : Ref) (c : Int) (hc : 1 ≤ c) (cs : List (Option Ref)) :
    ∀ (w w1 : World) (k : Int) (gr : Grid), w.heap[g]? = some (.grid gr) → GridInv c k gr →
      Grid.Add g cs w = .ok w1 →
      ∃ gr1, w1.heap[g]? = some (.grid gr1) ∧ GridInv c (k + cs.length) gr1 := by
  induction cs with
  | nil =>
    intro w w1 k gr hg hinv h
    simp only [Grid.Add, Except.ok.injEq] at h
    rw [← h]
    exact ⟨gr, hg, by simpa using hinv⟩
  | cons comp cs ih =>
    intro w w1 k gr hg hinv h
    simp only [Grid.Add] at h
    split at h
    · cases h
    · rename_i w2 h2
      obtain ⟨gr2, hg2, hinv2⟩ := Grid_addOne_inv g comp w w2 c k gr hc hg hinv h2
      obtain ⟨gr1, hg1, hinv1⟩ := ih w2 w1 (k + 1) gr2 hg2 hinv2 h
      refine ⟨gr1, hg1, ?_⟩
      have : k + 1 + (cs.length : Int) = k + ((comp :: cs).length : Int) := by
        simp only [List.length_cons, Nat.cast_add, Nat.cast_one]; ring
      rwa [this] at hinv1

theorem Grid_Add_append (g : Ref) (xs ys : List (Option Ref)) :
    ∀ w : World, Grid.Add g (xs ++ ys) w =
      match Grid.Add g xs w with
      | .error e => .error e
      | .ok w1 => Grid.Add g ys w1 := by
  induction xs with
  | nil => intro w; simp [Grid.Add]
  | cons x xs ih =>
    intro w
    simp only [List.cons_append, Grid.Add]
    split
    · rfl
    · exact ih _

theorem Grid_AddCalls_flatten (g : Ref) (calls : List (List (Option Ref))) :
    ∀ w : World, Grid.AddCalls g calls w = Grid.Add g calls.flatten w := by
  induction calls with
  | nil => intro w; simp [Grid.AddCalls, Grid.Add]
  | cons args rest ih =>
    intro w
    simp only [Grid.AddCalls, List.flatten_cons, Grid_Add_append]
    split
    · rename_i e he; simp [he]
    · rename_i w1 h1; simp [h1, ih]

/-- C1. On a Grid built by `NewGrid` with `c >= 1` columns, after any sequence
of `Add` calls that passed `k` components in all (nil ones counted), the
component passed next is given row `k / c` and column `k % c`: that is the
cursor after the wrap at the head of the loop, and when the component is not nil
its `grid` script, sent right after its create, names that row and column.  For
`k = 2 * c` they read `2` and `0`.  Where one `Add` call ends and the next begins
makes no difference. -/
theorem Grid_Add_cell (w : World) (g : Ref) (wd : widget) (c : Int)
    (calls : List (List (Option Ref))) (w1 : World)
    (hc : 1 ≤ c)
    (hg : w.heap[g]? = some (.grid ⟨wd, c, 0, 0⟩))
    (hrun : Grid.AddCalls g calls w = .ok w1) :
    Grid.AddCalls g calls w = Grid.Add g calls.flatten w ∧
    ∃ gr1, w1.heap[g]? = some (.grid gr1) ∧
      Grid.nextCell g w1
        = some ((calls.flatten.length : Int) / c, (calls.flatten.length : Int) % c) ∧
      (∀ (r : Ref) (newId : String) (flags : Nat) (w2 : World),
        Component.create r gr1.widget.id (w1.store g (.grid gr1.wrap))
          = .ok ((newId, flags), w2) →
        ∃ w3 l, Grid.Add g [some r] w1 = .ok w3 ∧
          w3.log = w2.log ++ ("grid " ++ newId
            ++ " -row " ++ fmtD ((calls.flatten.length : Int) / c)
            ++ " -column " ++ fmtD ((calls.flatten.length : Int) % c)
            ++ " -sticky news -padx 1 -pady 1") :: l) ∧
      ((calls.flatten.length : Int) = 2 * c →
        fmtD ((calls.flatten.length : Int) / c) = "2" ∧
        fmtD ((calls.flatten.length : Int) % c) = "0") := by
  have hflat := Grid_AddCalls_flatten g calls w
  refine ⟨hflat, ?_⟩
  rw [hflat] at hrun
  have hinv0 : GridInv c 0 ⟨wd, c, 0, 0⟩ :=
    ⟨rfl, by simp, le_refl _, show (0 : Int) ≤ c by omega⟩
  obtain ⟨gr1, hg1, hinv⟩ := Grid_Add_inv g c hc calls.flatten w w1 0 _ hg hinv0 hrun
  rw [zero_add] at hinv
  obtain ⟨hw1, hw2, hw3, hw4⟩ := hinv.wrap hc
  have hlt := heap_lt_of_get w1 g _ hg1
  refine ⟨gr1, hg1, ?_, ?_, ?_⟩
  · simp only [Grid.nextCell, hg1, hw3, hw4]
  · intro r newId flags w2 hcr
    have hx := create_extends _ _ _ _ _ hcr
    have hg0 : (w1.store g (.grid gr1.wrap)).heap[g]? = some (.grid gr1.wrap) := by
      simp [World.store, hlt]
    obtain ⟨gr2, hg2, _, e2, e3, _⟩ := hx.grid g _ hg0
    have hlt2 := heap_lt_of_get w2 g _ hg2
    rw [← hw2] at hcr
    by_cases hexp : flags &&& Expand = 0
    · have hadd : Grid.Add g [some r] w1 = .ok (World.store (eval ("grid " ++ newId
          ++ " -row " ++ fmtD gr2.row ++ " -column " ++ fmtD gr2.col
          ++ " -sticky news -padx 1 -pady 1") w2).2 g (.grid { gr2 with col := gr2.col + 1 })) := by
        simp only [Grid.Add, Grid.addOne, hg1, Grid.place, hg0, hcr, hg2, hexp,
          ne_eq, not_true_eq_false, decide_False, Bool.false_eq_true, if_false, eval_heap]
      exact ⟨_, [], hadd, by simp [World.store, e2, e3, hw3, hw4]⟩
    · have hadd : Grid.Add g [some r] w1 = .ok (World.store
          (eval ("grid columnconfigure " ++ gr2.widget.id ++ " " ++ fmtD gr2.col ++ " -weight 1")
            (eval ("grid rowconfigure " ++ gr2.widget.id ++ " " ++ fmtD gr2.row ++ " -weight 1")
              (eval ("grid " ++ newId ++ " -row " ++ fmtD gr2.row ++ " -column " ++ fmtD gr2.col
                ++ " -sticky news -padx 1 -pady 1") w2).2).2).2
          g (.grid { gr2 with col := gr2.col + 1 })) := by
        simp only [Grid.Add, Grid.addOne, hg1, Grid.place, hg0, hcr, hg2, hexp,
          ne_eq, not_false_eq_true, decide_True, if_true, eval_heap]
      exact ⟨_, ["grid rowconfigure " ++ gr2.widget.id ++ " " ++ fmtD gr2.row ++ " -weight 1",
        "grid columnconfigure " ++ gr2.widget.id ++ " " ++ fmtD gr2.col ++ " -weight 1"], hadd,
        by simp [World.store, e2, e3, hw3, hw4]⟩
  · intro hk
    rw [hk]
    have h1 : 2 * c / c = 2 := Int.mul_ediv_cancel 2 (by omega)
    have h2 : 2 * c % c = 0 := Int.mul_emod_left 2 c
    rw [h1, h2]
    exact ⟨by decide, by decide⟩

/-! ### A Box with two Labels -/

theorem Itoa_one : Itoa 1 = "1" := by decide

theorem Itoa_two : Itoa 2 = "2" := by decide

/-- One round of `Box.Add` for a child whose create returns. -/
theorem Box_addOne_step (w : World) (b c : Ref) (bx : Box) (newId : String) (flags : Nat)
    (w1 : World) (hb : (w.heap[b]?).bind Obj.Box? = some bx)
    (hc : Component.create c bx.widget.id w = .ok ((newId, flags), w1)) :
    Box.addOne Component.create b (some c) w
      = .ok (eval ("pack " ++ newId ++ " -padx 1 -pady 1" ++
          ((if bx.widget.flags &&& Horizontal ≠ 0 then " -side left" else "") ++ " -fill " ++
          (if flags &&& Expand ≠ 0 then "both -expand yes"
            else if bx.widget.flags &&& Horizontal ≠ 0 then "y" else "x"))) w1).2 := by
  have hx := create_extends _ _ _ _ _ hc
  obtain ⟨bx1, hb1, hfl⟩ := hx.box b bx hb
  simp only [Box.addOne, hb, hc, hb1, hfl]
  congr 3
  by_cases h1 : bx.widget.flags &&& Horizontal = 0 <;>
    by_cases h2 : flags &&& Expand = 0 <;>
    simp [h1, h2, String.append_assoc]

theorem Box_addOne_fields (w : World) (b c : Ref) (bx : Box) (newId : String) (flags : Nat)
    (w1 : World) (hb : (w.heap[b]?).bind Obj.Box? = some bx)
    (hc : Component.create c bx.widget.id w = .ok ((newId, flags), w1)) :
    ∃ w2, Box.addOne Component.create b (some c) w = .ok w2 ∧
      w2.log = w1.log ++ ["pack " ++ newId ++ " -padx 1 -pady 1" ++
          ((if bx.widget.flags &&& Horizontal ≠ 0 then " -side left" else "") ++ " -fill " ++
          (if flags &&& Expand ≠ 0 then "both -expand yes"
            else if bx.widget.flags &&& Horizontal ≠ 0 then "y" else "x"))] ∧
      w2.heap = w1.heap ∧ w2.newId = w1.newId :=
  ⟨_, Box_addOne_step w b c bx newId flags w1 hb hc, by simp, by simp, by simp⟩

/-- The create of a Label: what it returns and what it changes. -/
theorem Label_create_fields (w : World) (r : Ref) (p : String) (l : Label)
    (h : w.heap[r]? = some (.label l)) :
    ∃ w1, Component.create r p w = .ok ((p ++ "." ++ Itoa (w.newId + 1), l.widget.flags), w1) ∧
      w1.log = w.log ++ [l.widget.name ++ " " ++ (p ++ "." ++ Itoa (w.newId + 1)) ++ " "
        ++ l.widget.initParam] ∧
      w1.newId = w.newId + 1 ∧
      w1.heap = w.heap.set r (.label ⟨{ l.widget with id := p ++ "." ++ Itoa (w.newId + 1) }⟩) := by
  simp only [Component.create, h, Label.create, widget.create, genNextId]
  exact ⟨_, rfl, by simp [World.store], by simp [World.store], by simp [World.store]⟩

/-- C7. On a Box with Horizontal whose path is `r`, in a world whose identifier
generator has issued nothing yet, `Add(NewLabel("A", 0), NewLabel("B", 0))`
returns and sends exactly four scripts, in this order: the creation of the
label `r.1`, `pack r.1 -padx 1 -pady 1 -side left -fill y`, the creation of the
label `r.2`, `pack r.2 -padx 1 -pady 1 -side left -fill y`; the two Labels end
with the paths `r.1` and `r.2`. -/
theorem Box_Add_two_labels (w : World) (b : Ref) (bx : Box)
    (hb : (w.heap[b]?).bind Obj.Box? = some bx)
    (hh : bx.widget.flags &&& Horizontal ≠ 0)
    (hn : w.newId = initIdGenerator) :
    ∃ w1,
      Box.Add b [some (NewLabel "A" 0 w).1, some (NewLabel "B" 0 (NewLabel "A" 0 w).2).1]
        (NewLabel "B" 0 (NewLabel "A" 0 w).2).2 = .ok w1 ∧
      w1.log = w.log ++
        ["ttk::label " ++ bx.widget.id ++ ".1  -text \"A\"",
         "pack " ++ bx.widget.id ++ ".1 -padx 1 -pady 1 -side left -fill y",
         "ttk::label " ++ bx.widget.id ++ ".2  -text \"B\"",
         "pack " ++ bx.widget.id ++ ".2 -padx 1 -pady 1 -side left -fill y"] ∧
      (w1.heap[(NewLabel "A" 0 w).1]?).map (fun o => o.widget.id) = some (bx.widget.id ++ ".1") ∧
      (w1.heap[(NewLabel "B" 0 (NewLabel "A" 0 w).2).1]?).map (fun o => o.widget.id)
        = some (bx.widget.id ++ ".2") := by
  have hblt : b < w.heap.length := by
    by_contra hge
    rw [List.getElem?_eq_none (Nat.le_of_not_lt hge)] at hb
    simp at hb
  simp only [initIdGenerator] at hn
  -- the world after the two constructors
  have hla : (NewLabel "A" 0 w).1 = w.heap.length := rfl
  have hlb : (NewLabel "B" 0 (NewLabel "A" 0 w).2).1 = w.heap.length + 1 := by
    simp [NewLabel, World.alloc]
  rw [hla, hlb]
  generalize hW : (NewLabel "B" 0 (NewLabel "A" 0 w).2).2 = W
  have hWheap : W.heap = w.heap ++ [.label ⟨⟨"", "ttk::label", " -text " ++ tkstr "A", 0⟩⟩,
      .label ⟨⟨"", "ttk::label", " -text " ++ tkstr "B", 0⟩⟩] := by
    rw [← hW]; simp [NewLabel, World.alloc]
  have hWlog : W.log = w.log := by rw [← hW]; rfl
  have hWid : W.newId = 0 := by rw [← hW]; exact hn
  -- first Label
  have hA : W.heap[w.heap.length]? = some (.label ⟨⟨"", "ttk::label", " -text " ++ tkstr "A", 0⟩⟩) := by
    rw [hWheap, List.getElem?_append_right (le_refl _)]; simp
  have hbW : (W.heap[b]?).bind Obj.Box? = some bx := by
    rw [hWheap, List.getElem?_append_left hblt]; exact hb
  obtain ⟨w1, hc1, hlog1, hid1, hheap1⟩ := Label_create_fields W _ bx.widget.id _ hA
  obtain ⟨w2, hs1, hlog2, hheap2, hid2⟩ := Box_addOne_fields W b _ bx _ _ w1 hbW hc1
  -- second Label
  have hB : w2.heap[w.heap.length + 1]?
      = some (.label ⟨⟨"", "ttk::label", " -text " ++ tkstr "B", 0⟩⟩) := by
    rw [hheap2, hheap1, List.getElem?_set_ne (by omega), hWheap,
      List.getElem?_append_right (by omega)]
    simp
  have hbW2 : (w2.heap[b]?).bind Obj.Box? = some bx := by
    rw [hheap2, hheap1, List.getElem?_set_ne (Nat.ne_of_gt hblt)]; exact hbW
  obtain ⟨w3, hc3, hlog3, hid3, hheap3⟩ := Label_create_fields w2 _ bx.widget.id _ hB
  obtain ⟨w4, hs3, hlog4, hheap4, hid4⟩ := Box_addOne_fields w2 b _ bx _ _ w3 hbW2 hc3
  refine ⟨w4, ?_, ?_, ?_, ?_⟩
  · simp only [Box.Add, Box.addLoop, hs1, hs3]
  · simp [hlog4, hlog3, hlog2, hlog1, hWlog, hid2, hid1, hWid, hh, Expand, Itoa_one, Itoa_two,
      tkstr, String.append_assoc]
  · have hlen : w.heap.length < W.heap.length := by rw [hWheap]; simp
    simp [hheap4, hheap3, hheap2, hheap1, List.getElem?_set, hlen, Obj.widget, hWid, Itoa_one,
      String.append_assoc]
  · have hlen : w.heap.length + 1 < W.heap.length := by rw [hWheap]; simp
    simp [hheap4, hheap3, hheap2, hheap1, List.getElem?_set, hlen, Obj.widget, hid2, hid1, hWid,
      Itoa_two, String.append_assoc]

/-! ### Notebook: closing a tab by double click -/

/-- `Notebook.create` on a Notebook without NotebookBreakB1 appends the closure
of the double click to `callbackCmds`. -/
theorem Notebook_create_registers (w : World) (n : Ref) (p : String) (nb : Notebook)
    (hn : w.heap[n]? = some (.notebook nb))
    (hfl : nb.widget.flags &&& NotebookBreakB1 = 0) :
    ∃ res w1, Notebook.create n p w = .ok (res, w1) ∧
      w1.callbackCmds = w.callbackCmds ++ [.notebookDouble1 n] ∧
      w1.log = w.log ++ [nb.widget.name ++ " " ++ (p ++ "." ++ Itoa (w.newId + 1)) ++ " "
          ++ nb.widget.initParam,
        "bind " ++ (p ++ "." ++ Itoa (w.newId + 1)) ++ " " ++ "<Double-1>" ++ " \x7b"
          ++ Itoa (w.newId + 1 + 1) ++ "\x7d"] := by
  simp only [Notebook.create, hn, widget.create, genNextId]
  refine ⟨_, _, rfl, ?_, ?_⟩
  · simp [hfl, widget.Bind, addCallbackCmd, genNextId, RegisterCmd, World.store]
  · simp [hfl, widget.Bind, addCallbackCmd, genNextId, RegisterCmd, World.store]

/-- `NewTab` returns a Tab that carries the flags given, and records it in the
table of the Notebook under the path of the Tab. -/
theorem NewTab_registers (w : World) (n : Ref) (title : String) (flags : Nat) (nb : Notebook)
    (hn : w.heap[n]? = some (.notebook nb)) :
    ∃ t w1 nb1 tb, Notebook.NewTab n title flags w = .ok (t, w1) ∧
      w1.heap[n]? = some (.notebook nb1) ∧ w1.heap[t]? = some (.tab tb) ∧
      nb1.widget = nb.widget ∧
      mapGet nb1.tabs tb.Box.widget.id = some t ∧
      tb.Box.widget.flags = flags := by
  obtain ⟨hlt, hn'⟩ := heap_getElem_of_get w n _ hn
  have hne : w.heap.length ≠ n := Nat.ne_of_gt hlt
  have hlt1 : n < w.heap.length + 1 := Nat.lt_succ_of_lt hlt
  have h1 : (w.heap ++ [Obj.tab ⟨Box.new flags, title⟩])[n]? = some (.notebook nb) := by
    rw [List.getElem?_append_left hlt]; exact hn
  have h2 : (w.heap ++ [Obj.tab ⟨Box.new flags, title⟩])[w.heap.length]?
      = some (.tab ⟨Box.new flags, title⟩) := by
    rw [List.getElem?_append_right (le_refl _)]; simp
  simp only [Notebook.NewTab, World.alloc, h1, Box.create, h2, widget.create, genNextId,
    World.store, eval_heap, List.getElem?_set_ne hne, List.getElem?_set, List.length_append,
    List.length_singleton, Nat.lt_succ_self, if_true, List.length_set, hlt1]
  refine ⟨w.heap.length, _,
    ⟨nb.widget, mapSet nb.tabs (nb.widget.id ++ "." ++ Itoa (w.newId + 1)) w.heap.length⟩,
    ⟨⟨⟨nb.widget.id ++ "." ++ Itoa (w.newId + 1), "ttk::frame", "", flags⟩⟩, title⟩,
    rfl, ?_, ?_, rfl, ?_, rfl⟩
  · simp [List.getElem?_set, hlt1]
  · simp [List.getElem?_set, hne.symm, Box.new]
  · simp

/-- C8. In a world where the Notebook at `n` has in its table, under the path
of the Tab, the Tab at `t` (as `NewTab` leaves it), and the interpreter answers
`select` with that path: the closure bound to the double click returns; it sends
`<notebook path> forget <tab path>` after the two scripts of `GetSelection` if
the flags of the Tab do not contain DoNotClose, and only those two scripts if
they do.  `Notebook.create` registers that closure for a Notebook without
NotebookBreakB1, and `NewTab` makes a Tab with the flags given and enters it in
the table under its path. -/
theorem Notebook_double1_gating (w : World) (n t : Ref) (nb : Notebook) (tb : Tab) (s : String)
    (hn : w.heap[n]? = some (.notebook nb))
    (ht : w.heap[t]? = some (.tab tb))
    (htab : mapGet nb.tabs tb.Box.widget.id = some t)
    (hsel : w.tcl (w.log ++ [nb.widget.id ++ " select"]) = ⟨true, tb.Box.widget.id⟩) :
    (∃ w1, Notebook.double1 n s w = .ok w1 ∧
      (tb.Box.widget.flags &&& DoNotClose = 0 →
        w1.log = w.log ++ [nb.widget.id ++ " select",
          nb.widget.id ++ " tab " ++ tb.Box.widget.id ++ " -text",
          nb.widget.id ++ " forget " ++ tb.Box.widget.id]) ∧
      (tb.Box.widget.flags &&& DoNotClose ≠ 0 →
        w1.log = w.log ++ [nb.widget.id ++ " select",
          nb.widget.id ++ " tab " ++ tb.Box.widget.id ++ " -text"])) ∧
    (∀ (w0 : World) (p : String) (nb0 : Notebook), w0.heap[n]? = some (.notebook nb0) →
      nb0.widget.flags &&& NotebookBreakB1 = 0 →
      ∃ res w1, Notebook.create n p w0 = .ok (res, w1) ∧
        w1.callbackCmds = w0.callbackCmds ++ [.notebookDouble1 n]) ∧
    (∀ (w0 : World) (title : String) (flags : Nat) (nb0 : Notebook),
      w0.heap[n]? = some (.notebook nb0) →
      ∃ t1 w1 nb1 tb1, Notebook.NewTab n title flags w0 = .ok (t1, w1) ∧
        w1.heap[n]? = some (.notebook nb1) ∧ w1.heap[t1]? = some (.tab tb1) ∧
        mapGet nb1.tabs tb1.Box.widget.id = some t1 ∧ tb1.Box.widget.flags = flags) := by
  refine ⟨?_, ?_, ?_⟩
  · have hev : eval (nb.widget.id ++ " select") w
        = (none, { w with log := w.log ++ [nb.widget.id ++ " select"],
                          lastResult := tb.Box.widget.id }) := by
      simp [eval, hsel]
    rcases he1 : eval (nb.widget.id ++ " select") w with ⟨e1, W⟩
    have hWh : W.heap = w.heap := by
      have := eval_heap (nb.widget.id ++ " select") w; rw [he1] at this; exact this
    have hWl : W.log = w.log ++ [nb.widget.id ++ " select"] := by
      have := eval_log (nb.widget.id ++ " select") w; rw [he1] at this; exact this
    have hWr : e1 = none ∧ W.lastResult = tb.Box.widget.id := by
      rw [he1] at hev
      simp only [Prod.mk.injEq] at hev
      exact ⟨hev.1, by rw [hev.2]⟩
    obtain ⟨rfl, hWr⟩ := hWr
    rcases he2 : eval (nb.widget.id ++ " tab " ++ tb.Box.widget.id ++ " -text") W with ⟨e2, W2⟩
    have hW2h : W2.heap = w.heap := by
      have := eval_heap (nb.widget.id ++ " tab " ++ tb.Box.widget.id ++ " -text") W
      rw [he2] at this; rw [← hWh]; exact this
    have hW2l : W2.log = w.log ++ [nb.widget.id ++ " select"]
        ++ [nb.widget.id ++ " tab " ++ tb.Box.widget.id ++ " -text"] := by
      have := eval_log (nb.widget.id ++ " tab " ++ tb.Box.widget.id ++ " -text") W
      rw [he2] at this; rw [← hWl]; exact this
    simp only [Notebook.double1, Notebook.GetSelection, hn, he1, result, hWr, he2]
    cases e2 with
    | none =>
      simp only [hW2h, hn, htab, ht]
      by_cases hf : tb.Box.widget.flags &&& DoNotClose = 0
      · simp [hf, hW2l]
      · simp [hf, hW2l]
    | some err =>
      simp only [hW2h, hn, htab, ht]
      by_cases hf : tb.Box.widget.flags &&& DoNotClose = 0
      · simp [hf, hW2l]
      · simp [hf, hW2l]
  · intro w0 p nb0 h0 hfl
    obtain ⟨res, w1, h1, h2, _⟩ := Notebook_create_registers w0 n p nb0 h0 hfl
    exact ⟨res, w1, h1, h2⟩
  · intro w0 title flags nb0 h0
    obtain ⟨t1, w1, nb1, tb1, h1, h2, h3, _, h5, h6⟩ := NewTab_registers w0 n title flags nb0 h0
    exact ⟨t1, w1, nb1, tb1, h1, h2, h3, h5, h6⟩

theorem Grid_Add_cell_witness :
    Grid.nextCell 0 demoGridAfter4 = some (2, 0) ∧
    (Grid.Add 0 [some 4] demoGridAfter4).map (fun w => w.log.getLast?)
      = .ok (some "grid .1.5 -row 2 -column 0 -sticky news -padx 1 -pady 1") := by
  obtain ⟨_, gr1, hg1, hcell, _, _⟩ := Grid_Add_cell demoGrid 0 ⟨".1", "ttk::frame", "", 0⟩ 2
    [[some 1, some 2], [some 3, none]] demoGridAfter4 (by decide) rfl rfl
  exact ⟨hcell.trans (by decide), rfl⟩

theorem Box_Add_two_labels_witness :
    (Box.Add 0 [some 1, some 2] (NewLabel "B" 0 (NewLabel "A" 0 demoRootBox).2).2).map
        (fun w => w.log)
      = .ok ["ttk::label .r.1  -text \"A\"", "pack .r.1 -padx 1 -pady 1 -side left -fill y",
          "ttk::label .r.2  -text \"B\"", "pack .r.2 -padx 1 -pady 1 -side left -fill y"] := by
  obtain ⟨w1, h1, h2, _⟩ := Box_Add_two_labels demoRootBox 0
    ⟨⟨".r", "ttk::frame", "", Horizontal⟩⟩ rfl (by decide) rfl
  have h1' : Box.Add 0 [some 1, some 2] (NewLabel "B" 0 (NewLabel "A" 0 demoRootBox).2).2
      = .ok w1 := h1
  rw [h1']
  show Except.ok w1.log = _
  rw [h2]
  rfl

theorem Notebook_double1_gating_witness :
    (Notebook.double1 0 "" (demoNotebook 0)).map (fun w => w.log.getLast?)
      = .ok (some ".1 forget .1.3") ∧
    (Notebook.double1 0 "" (demoNotebook DoNotClose)).map (fun w => w.log.getLast?)
      = .ok (some ".1 tab .1.3 -text") := by
  obtain ⟨⟨w1, h1, h2, _⟩, _⟩ := Notebook_double1_gating (demoNotebook 0) 0 1
    ⟨⟨".1", "ttk::notebook", "", 0⟩, [(".1.3", 1)]⟩ ⟨⟨⟨".1.3", "ttk::frame", "", 0⟩⟩, "page"⟩ ""
    rfl rfl rfl rfl
  obtain ⟨⟨w2, h3, _, h4⟩, _⟩ := Notebook_double1_gating (demoNotebook DoNotClose) 0 1
    ⟨⟨".1", "ttk::notebook", "", 0⟩, [(".1.3", 1)]⟩
    ⟨⟨⟨".1.3", "ttk::frame", "", DoNotClose⟩⟩, "page"⟩ "" rfl rfl rfl rfl
  constructor
  · rw [h1]
    show Except.ok w1.log.getLast? = _
    rw [h2 (by decide)]
    rfl
  · rw [h3]
    show Except.ok w2.log.getLast? = _
    rw [h4 (by decide)]
    rfl

/-! ### Grid.Add: nil components and Expand -/

/-- One round of the loop of `Grid.Add` leaves the cursor one column after the
wrapped cursor it started from, whatever the component. -/
theorem Grid_addOne_cursor (g : Ref) (comp : Option Ref) (w w1 : World) (gr : Grid)
    (hg : w.heap[g]? = some (.grid gr)) (h : Grid.addOne g comp w = .ok w1) :
    ∃ gr1, w1.heap[g]? = some (.grid gr1) ∧ gr1.columns = gr.columns ∧
      gr1.row = gr.wrap.row ∧ gr1.col = gr.wrap.col + 1 := by
  have hlt := heap_lt_of_get w g _ hg
  simp only [Grid.addOne, hg] at h
  split at h
  · cases h
  · rename_i w2 hp
    have hx := Grid_place_extends _ _ _ _ hp
    have hg0 : (w.store g (.grid gr.wrap)).heap[g]? = some (.grid gr.wrap) := by
      simp [World.store, hlt]
    obtain ⟨gr2, hg2, e1, e2, e3, _⟩ := hx.grid g _ hg0
    have hlt2 := heap_lt_of_get w2 g _ hg2
    simp only [hg2, Except.ok.injEq] at h
    rw [← h]
    refine ⟨{ gr2 with col := gr2.col + 1 }, by simp [World.store, hlt2], ?_, e2, ?_⟩
    · simp only [e1]
      unfold Grid.wrap
      split <;> rfl
    · simp only [e3]

/-- C11. A nil component in the arguments of `Grid.Add` changes nothing but the
cursor of the Grid: the round returns, the world afterwards is the world before
with the cursor wrapped and moved one column on (so no identifier is drawn, no
entry is added to `widgets` and no script is sent), and the remaining arguments
are handled from there.  A component that is not nil moves the cursor in the
same way. -/
theorem Grid_Add_nil (w : World) (g : Ref) (gr : Grid) (cs : List (Option Ref))
    (hg : w.heap[g]? = some (.grid gr)) :
    Grid.addOne g none w = .ok (w.store g (.grid { gr.wrap with col := gr.wrap.col + 1 })) ∧
    Grid.Add g (none :: cs) w
      = Grid.Add g cs (w.store g (.grid { gr.wrap with col := gr.wrap.col + 1 })) ∧
    (w.store g (.grid { gr.wrap with col := gr.wrap.col + 1 })).newId = w.newId ∧
    (w.store g (.grid { gr.wrap with col := gr.wrap.col + 1 })).widgets = w.widgets ∧
    (w.store g (.grid { gr.wrap with col := gr.wrap.col + 1 })).log = w.log ∧
    (∀ x, x ≠ g →
      (w.store g (.grid { gr.wrap with col := gr.wrap.col + 1 })).heap[x]? = w.heap[x]?) ∧
    (∀ (c : Ref) (w3 : World), Grid.addOne g (some c) w = .ok w3 →
      ∃ gr3, w3.heap[g]? = some (.grid gr3) ∧ gr3.columns = gr.columns ∧
        gr3.row = gr.wrap.row ∧ gr3.col = gr.wrap.col + 1) := by
  have hlt := heap_lt_of_get w g _ hg
  have hstep : Grid.addOne g none w
      = .ok (w.store g (.grid { gr.wrap with col := gr.wrap.col + 1 })) := by
    have hg0 : (w.store g (.grid gr.wrap)).heap[g]? = some (.grid gr.wrap) := by
      simp [World.store, hlt]
    simp only [Grid.addOne, hg, Grid.place, hg0]
    simp [World.store]
  refine ⟨hstep, ?_, rfl, rfl, rfl, ?_, ?_⟩
  · simp only [Grid.Add, hstep]
  · intro x hx
    simp [World.store, List.getElem?_set, Ne.symm hx]
  · intro c w3 h3
    exact Grid_addOne_cursor g (some c) w w3 gr hg h3

theorem Grid_Add_nil_witness :
    (Grid.Add 0 [none, none, none] demoGrid).map
        (fun w => (w.log, w.newId, Grid.nextCell 0 w))
      = .ok (demoGrid.log, demoGrid.newId, some (1, 1)) := by
  have h := (Grid_Add_nil demoGrid 0 ⟨⟨".1", "ttk::frame", "", 0⟩, 2, 0, 0⟩ [none, none] rfl).2.1
  rw [h]
  rfl

/-- C12. For a child that is not nil and whose create returns the path `newId`
and the flags `flags`, the round of `Grid.Add` sends the placement script
`grid newId -row r -column c ...` with the cursor `(r, c)` the child is placed
at; when `flags` has Expand it sends right after it
`grid rowconfigure <grid path> r -weight 1` and
`grid columnconfigure <grid path> c -weight 1` with that same `r` and `c`, and
when `flags` has no Expand it sends nothing more. -/
theorem Grid_Add_expand (w : World) (g c : Ref) (gr : Grid) (newId : String) (flags : Nat)
    (w2 : World)
    (hg : w.heap[g]? = some (.grid gr))
    (hc : Component.create c gr.wrap.widget.id (w.store g (.grid gr.wrap))
      = .ok ((newId, flags), w2)) :
    ∃ gr2 w3, w2.heap[g]? = some (.grid gr2) ∧ gr2.row = gr.wrap.row ∧ gr2.col = gr.wrap.col ∧
      Grid.addOne g (some c) w = .ok w3 ∧
      (flags &&& Expand ≠ 0 →
        w3.log = w2.log ++
          ["grid " ++ newId ++ " -row " ++ fmtD gr2.row ++ " -column " ++ fmtD gr2.col
            ++ " -sticky news -padx 1 -pady 1",
           "grid rowconfigure " ++ gr2.widget.id ++ " " ++ fmtD gr2.row ++ " -weight 1",
           "grid columnconfigure " ++ gr2.widget.id ++ " " ++ fmtD gr2.col ++ " -weight 1"]) ∧
      (flags &&& Expand = 0 →
        w3.log = w2.log ++
          ["grid " ++ newId ++ " -row " ++ fmtD gr2.row ++ " -column " ++ fmtD gr2.col
            ++ " -sticky news -padx 1 -pady 1"]) := by
  have hlt := heap_lt_of_get w g _ hg
  have hx := create_extends _ _ _ _ _ hc
  have hg0 : (w.store g (.grid gr.wrap)).heap[g]? = some (.grid gr.wrap) := by
    simp [World.store, hlt]
  obtain ⟨gr2, hg2, _, e2, e3, _⟩ := hx.grid g _ hg0
  by_cases hexp : flags &&& Expand = 0
  · have hadd : Grid.addOne g (some c) w = .ok (World.store (eval ("grid " ++ newId
        ++ " -row " ++ fmtD gr2.row ++ " -column " ++ fmtD gr2.col
        ++ " -sticky news -padx 1 -pady 1") w2).2 g (.grid { gr2 with col := gr2.col + 1 })) := by
      simp only [Grid.addOne, hg, Grid.place, hg0, hc, hg2, hexp,
        ne_eq, not_true_eq_false, decide_False, Bool.false_eq_true, if_false, eval_heap]
    exact ⟨gr2, _, hg2, e2, e3, hadd, fun h => absurd hexp h, fun _ => by simp [World.store]⟩
  · have hadd : Grid.addOne g (some c) w = .ok (World.store
        (eval ("grid columnconfigure " ++ gr2.widget.id ++ " " ++ fmtD gr2.col ++ " -weight 1")
          (eval ("grid rowconfigure " ++ gr2.widget.id ++ " " ++ fmtD gr2.row ++ " -weight 1")
            (eval ("grid " ++ newId ++ " -row " ++ fmtD gr2.row ++ " -column " ++ fmtD gr2.col
              ++ " -sticky news -padx 1 -pady 1") w2).2).2).2
        g (.grid { gr2 with col := gr2.col + 1 })) := by
      simp only [Grid.addOne, hg, Grid.place, hg0, hc, hg2, hexp,
        ne_eq, not_false_eq_true, decide_True, if_true, eval_heap]
    exact ⟨gr2, _, hg2, e2, e3, hadd, fun _ => by simp [World.store], fun h => absurd h hexp⟩

theorem Grid_Add_expand_witness :
    (Grid.Add 0 [some 1] demoGridExpand).map (fun w => w.log)
      = .ok ["ttk::frame .1 ", "ttk::label .1.2  -text \"x\"",
          "grid .1.2 -row 0 -column 0 -sticky news -padx 1 -pady 1",
          "grid rowconfigure .1 0 -weight 1", "grid columnconfigure .1 0 -weight 1"] := by
  obtain ⟨gr2, w3, hg2, _, _, hadd, hE, _⟩ := Grid_Add_expand demoGridExpand 0 1
    ⟨⟨".1", "ttk::frame", "", 0⟩, 2, 0, 0⟩ ".1.2" Expand demoGridExpandCreated rfl rfl
  have hgr : gr2 = ⟨⟨".1", "ttk::frame", "", 0⟩, 2, 0, 0⟩ := by
    have h0 : demoGridExpandCreated.heap[0]?
        = some (.grid ⟨⟨".1", "ttk::frame", "", 0⟩, 2, 0, 0⟩) := rfl
    rw [h0] at hg2
    injection hg2 with hg2
    injection hg2 with hg2
    exact hg2.symm
  simp only [Grid.Add, hadd]
  show Except.ok w3.log = _
  rw [hE (by decide), hgr]
  rfl

/-! ### IndexOfValueInSlice -/

theorem IndexOfValueInSlice_go_spec (val : String) : ∀ (l : List String) (s : Nat),
    (IndexOfValueInSlice.go val s l = -1 ∧ val ∉ l) ∨
    (∃ k : Nat, k < l.length ∧ IndexOfValueInSlice.go val s l = ((s + k : Nat) : Int) ∧
      l[k]? = some val ∧ ∀ j, j < k → l[j]? ≠ some val) := by
  intro l
  induction l with
  | nil => intro s; left; simp [IndexOfValueInSlice.go]
  | cons v rest ih =>
    intro s
    by_cases hv : v = val
    · right
      refine ⟨0, by simp, by simp [IndexOfValueInSlice.go, hv], by simp [hv], ?_⟩
      intro j hj; omega
    · rcases ih (s + 1) with ⟨h1, h2⟩ | ⟨k, hk, h1, h2, h3⟩
      · left
        refine ⟨by simp [IndexOfValueInSlice.go, hv, h1], ?_⟩
        simp [h2, Ne.symm hv]
      · right
        refine ⟨k + 1, by simp [hk], ?_, by simpa using h2, ?_⟩
        · simp only [IndexOfValueInSlice.go, hv, if_false, h1]
          congr 1
          omega
        · intro j hj
          cases j with
          | zero => simp [hv]
          | succ j => simpa using h3 j (by omega)

/-- C17. `IndexOfValueInSlice(data, val)` is -1 exactly when `val` does not
occur in `data`; it is `k` exactly when `k` is the smallest index with
`data[k] == val`; and it is always -1 or an index below `len(data)`. -/
theorem IndexOfValueInSlice_spec (data : List String) (val : String) :
    (IndexOfValueInSlice data val = -1 ↔ val ∉ data) ∧
    (∀ k : Nat, IndexOfValueInSlice data val = (k : Int) ↔
      (data[k]? = some val ∧ ∀ j, j < k → data[j]? ≠ some val)) ∧
    (IndexOfValueInSlice data val = -1 ∨
      ∃ k : Nat, k < data.length ∧ IndexOfValueInSlice data val = (k : Int)) := by
  unfold IndexOfValueInSlice
  rcases IndexOfValueInSlice_go_spec val data 0 with ⟨h1, h2⟩ | ⟨k, hk, h1, h2, h3⟩
  · refine ⟨⟨fun _ => h2, fun _ => h1⟩, ?_, Or.inl h1⟩
    intro k
    rw [h1]
    constructor
    · intro h; omega
    · rintro ⟨h, _⟩
      exact absurd (List.getElem?_mem h) h2
  · simp only [zero_add] at h1
    refine ⟨⟨?_, ?_⟩, ?_, Or.inr ⟨k, hk, h1⟩⟩
    · intro h; rw [h1] at h; omega
    · intro h; exact absurd (List.getElem?_mem h2) h
    · intro k'
      rw [h1]
      constructor
      · intro h
        have : k = k' := by omega
        subst this
        exact ⟨h2, h3⟩
      · rintro ⟨h4, h5⟩
        have : k = k' := by
          rcases Nat.lt_trichotomy k k' with h | h | h
          · exact absurd h2 (h5 k h)
          · exact h
          · exact absurd h4 (h3 k' h)
        rw [this]

/-! ### Notebook: the double click on a path that is no key -/

/-- `Notebook.GetSelection` returns, sends scripts only, and gives the empty
path when `select` fails. -/
theorem Notebook_GetSelection_ok (w : World) (n : Ref) (nb : Notebook)
    (hn : w.heap[n]? = some (.notebook nb)) :
    ∃ sel val w1, Notebook.GetSelection n w = .ok ((sel, val), w1) ∧ w1.heap = w.heap ∧
      ((w.tcl (w.log ++ [nb.widget.id ++ " select"])).ok = false → sel = "" ∧ val = "") ∧
      ((w.tcl (w.log ++ [nb.widget.id ++ " select"])).ok = true →
        sel = (w.tcl (w.log ++ [nb.widget.id ++ " select"])).text) := by
  simp only [Notebook.GetSelection, hn]
  rcases he1 : eval (nb.widget.id ++ " select") w with ⟨e1, W⟩
  have hWh : W.heap = w.heap := by
    have := eval_heap (nb.widget.id ++ " select") w; rw [he1] at this; exact this
  cases e1 with
  | some err =>
    dsimp only
    refine ⟨"", "", _, rfl, by simpa using hWh, fun _ => ⟨rfl, rfl⟩, ?_⟩
    intro hok
    simp [eval, hok] at he1
  | none =>
    dsimp only
    have hres : (w.tcl (w.log ++ [nb.widget.id ++ " select"])).ok = true ∧
        result W = (w.tcl (w.log ++ [nb.widget.id ++ " select"])).text := by
      cases hok : (w.tcl (w.log ++ [nb.widget.id ++ " select"])).ok with
      | false => simp [eval, hok] at he1
      | true =>
        simp only [eval, hok, if_true, Prod.mk.injEq, true_and] at he1
        rw [← he1]
        exact ⟨rfl, rfl⟩
    rcases he2 : eval (nb.widget.id ++ " tab " ++ result W ++ " -text") W with ⟨e2, W2⟩
    have hW2h : W2.heap = w.heap := by
      have := eval_heap (nb.widget.id ++ " tab " ++ result W ++ " -text") W
      rw [he2] at this; rw [← hWh]; exact this
    cases e2 with
    | some err =>
      dsimp only
      exact ⟨_, "", _, rfl, by simpa using hW2h, (fun h => by rw [hres.1] at h; cases h),
        fun _ => hres.2⟩
    | none =>
      dsimp only
      exact ⟨_, _, _, rfl, hW2h, (fun h => by rw [hres.1] at h; cases h), fun _ => hres.2⟩

/-- C18. For a Notebook whose table holds Tabs only, the closure bound to the
double click returns exactly when the path `GetSelection` gives is a key of the
table; for any other path, the empty one of a failed `select` included, the
lookup gives a nil Tab and the closure faults with a nil dereference. -/
theorem Notebook_double1_fault (w : World) (n : Ref) (nb : Notebook) (s : String)
    (hn : w.heap[n]? = some (.notebook nb))
    (htabs : ∀ k r, mapGet nb.tabs k = some r → ∃ tb, w.heap[r]? = some (.tab tb)) :
    ∃ sel val w1, Notebook.GetSelection n w = .ok ((sel, val), w1) ∧
      ((∃ w2, Notebook.double1 n s w = .ok w2) ↔ (mapGet nb.tabs sel).isSome = true) ∧
      (mapGet nb.tabs sel = none → Notebook.double1 n s w = .error .nilDereference) ∧
      ((w.tcl (w.log ++ [nb.widget.id ++ " select"])).ok = false → sel = "") := by
  obtain ⟨sel, val, w1, hgs, hheap, hfail, _⟩ := Notebook_GetSelection_ok w n nb hn
  refine ⟨sel, val, w1, hgs, ?_, ?_, fun h => (hfail h).1⟩
  · simp only [Notebook.double1, hgs, hheap, hn]
    cases hk : mapGet nb.tabs sel with
    | none => simp
    | some r =>
      obtain ⟨tb, htb⟩ := htabs sel r hk
      simp only [htb, Option.isSome_some, iff_true]
      split
      · exact ⟨_, rfl⟩
      · exact ⟨_, rfl⟩
  · intro hk
    simp only [Notebook.double1, hgs, hheap, hn, hk]

theorem Notebook_double1_fault_witness :
    Notebook.double1 0 "" demoNotebookEmpty = .error .nilDereference ∧
    ∃ w2, Notebook.double1 0 "" (demoNotebook 0) = .ok w2 := by
  constructor
  · obtain ⟨sel, _, _, _, _, hnone, _⟩ := Notebook_double1_fault demoNotebookEmpty 0
      ⟨⟨".1", "ttk::notebook", "", 0⟩, []⟩ "" rfl (fun k r h => by simp [mapGet] at h)
    exact hnone rfl
  · obtain ⟨sel, val, w1, hgs, hiff, _⟩ := Notebook_double1_fault (demoNotebook 0) 0
      ⟨⟨".1", "ttk::notebook", "", 0⟩, [(".1.3", 1)]⟩ "" rfl
      (fun k r h => by
        simp only [mapGet] at h
        split at h
        · cases h; exact ⟨_, rfl⟩
        · cases h)
    have h2 : Notebook.GetSelection 0 (demoNotebook 0)
        = .ok ((".1.3", ".1.3"), worldOf (Notebook.GetSelection 0 (demoNotebook 0)) World.demo) :=
      rfl
    rw [h2] at hgs
    injection hgs with hgs
    injection hgs with hgs _
    injection hgs with hsel _
    rw [← hsel] at hiff
    exact hiff.mpr rfl

/-! ### Dialog -/

/-- C15. `NewDialog(title, f)` returns a Dialog with the path `.` followed by
the next identifier and with the flags `f`.  In any world that holds that
Dialog: if `f` has NotModal, `Call` sends `focus` and `tkwait visibility` and
nothing else, and `Destroy` sends `wm withdraw <path>` and nothing else; if `f`
has no NotModal, `Call` sends `focus`, `tkwait visibility`, `grab` and
`tkwait window` in that order, and `Destroy` sends `destroy <path>`. -/
theorem Dialog_modal_or_not (w : World) (title : String) (f : Nat) :
    ∃ d w1 dl, NewDialog title f w = .ok (d, w1) ∧ w1.heap[d]? = some (.dialog dl) ∧
      dl.id = "." ++ (genNextId w).1 ∧ dl.Box.widget.flags = f ∧
      ∀ w2 : World, w2.heap[d]? = some (.dialog dl) →
        (f &&& NotModal ≠ 0 →
          (∃ w3, Dialog.Call d w2 = .ok w3 ∧
            w3.log = w2.log ++ ["focus " ++ dl.id, "tkwait visibility " ++ dl.id]) ∧
          (∃ w4, Dialog.Destroy d w2 = .ok w4 ∧
            w4.log = w2.log ++ ["wm withdraw " ++ dl.id])) ∧
        (f &&& NotModal = 0 →
          (∃ w3, Dialog.Call d w2 = .ok w3 ∧
            w3.log = w2.log ++ ["focus " ++ dl.id, "tkwait visibility " ++ dl.id,
              "grab " ++ dl.id, "tkwait window " ++ dl.id]) ∧
          (∃ w4, Dialog.Destroy d w2 = .ok w4 ∧
            w4.log = w2.log ++ ["destroy " ++ dl.id])) := by
  have hnew : ∃ d w1 bx, NewDialog title f w = .ok (d, w1) ∧
      w1.heap[d]? = some (.dialog ⟨"." ++ Itoa (w.newId + 1), title, bx⟩) ∧
      bx.widget.flags = f := by
    have h1 : ∀ l : List Obj, (l ++ [Obj.box (Box.new f)])[l.length]?
        = some (Obj.box (Box.new f)) := by
      intro l; rw [List.getElem?_append_right (le_refl _)]; simp
    have h2 : ∀ (l : List Obj) (x y : Obj), ((l ++ [x]).set l.length y)[l.length]? = some y := by
      intro l x y; simp [List.getElem?_set]
    by_cases ht : f &&& Topmost ≠ 0
    · simp only [NewDialog, NewBox, World.alloc, genNextId, Box.create, ht, if_true,
        eval_heap, h1, h2, widget.create, World.store, eval_newId, ne_eq, not_false_eq_true]
      refine ⟨_, _, ⟨⟨"." ++ Itoa (w.newId + 1) ++ "." ++ Itoa (w.newId + 1 + 1),
        (Box.new f).widget.name, (Box.new f).widget.initParam, (Box.new f).widget.flags⟩⟩,
        rfl, ?_, rfl⟩
      simp [World.alloc]
      rw [List.getElem_append_right (by simp)]
      simp
    · simp only [NewDialog, NewBox, World.alloc, genNextId, Box.create, ht, if_false,
        eval_heap, h1, h2, widget.create, World.store, eval_newId, ne_eq, not_false_eq_true]
      refine ⟨_, _, ⟨⟨"." ++ Itoa (w.newId + 1) ++ "." ++ Itoa (w.newId + 1 + 1),
        (Box.new f).widget.name, (Box.new f).widget.initParam, (Box.new f).widget.flags⟩⟩,
        rfl, ?_, rfl⟩
      simp [World.alloc]
      rw [List.getElem_append_right (by simp)]
      simp
  obtain ⟨d, w1, bx, hnd, hd, hfl⟩ := hnew
  refine ⟨d, w1, _, hnd, hd, rfl, hfl, ?_⟩
  intro w2 h2
  constructor
  · intro hm
    have hm' : bx.widget.flags &&& NotModal ≠ 0 := by rw [hfl]; exact hm
    exact ⟨⟨_, by simp only [Dialog.Call, h2, hm', ne_eq, not_false_eq_true, if_true]; rfl,
      by simp⟩,
      ⟨_, by simp only [Dialog.Destroy, h2, hm', ne_eq, not_false_eq_true, if_true]; rfl,
      by simp⟩⟩
  · intro hm
    have hm' : bx.widget.flags &&& NotModal = 0 := by rw [hfl]; exact hm
    exact ⟨⟨_, by simp only [Dialog.Call, h2, hm', ne_eq, not_true_eq_false, if_false]; rfl,
      by simp⟩,
      ⟨_, by simp only [Dialog.Destroy, h2, hm', ne_eq, not_true_eq_false, if_false]; rfl,
      by simp⟩⟩

theorem Dialog_modal_or_not_witness :
    ∃ d w1, NewDialog "t" NotModal World.demo = .ok (d, w1) ∧
      (∃ w3, Dialog.Call d w1 = .ok w3 ∧
        w3.log = w1.log ++ ["focus .1", "tkwait visibility .1"]) ∧
      ∃ w4, Dialog.Destroy d w1 = .ok w4 ∧ w4.log = w1.log ++ ["wm withdraw .1"] := by
  obtain ⟨d, w1, dl, hnd, hd, hid, _, h⟩ := Dialog_modal_or_not World.demo "t" NotModal
  obtain ⟨⟨w3, hc, hl⟩, ⟨w4, hde, hl4⟩⟩ := (h w1 hd).1 (by decide)
  have hid1 : dl.id = ".1" := by rw [hid]; decide
  rw [hid1] at hl hl4
  exact ⟨d, w1, hnd, ⟨w3, hc, hl⟩, w4, hde, hl4⟩

/-! ### The flags of the scrollable leaves -/

theorem Tree_create_fields (w : World) (r : Ref) (p : String) (t : Tree)
    (h : w.heap[r]? = some (.tree t)) :
    ∃ w1, Component.create r p w
        = .ok ((p ++ "." ++ Itoa (w.newId + 1), t.b.widget.flags), w1) ∧
      ∀ x, x ≠ r → w1.heap[x]? = w.heap[x]? := by
  simp only [Component.create, h, Tree.create, widget.create, genNextId]
  refine ⟨_, rfl, ?_⟩
  intro x hx
  simp [World.store, List.getElem?_set, Ne.symm hx]

theorem Text_create_fields (w : World) (r : Ref) (p : String) (t : Text)
    (h : w.heap[r]? = some (.text t)) :
    ∃ w1, Component.create r p w
        = .ok ((p ++ "." ++ Itoa (w.newId + 1), t.b.widget.flags), w1) ∧
      ∀ x, x ≠ r → w1.heap[x]? = w.heap[x]? := by
  simp only [Component.create, h, Text.create, widget.create, genNextId]
  refine ⟨_, rfl, ?_⟩
  intro x hx
  simp [World.store, List.getElem?_set, Ne.symm hx]

theorem Listbox_create_fields (w : World) (r : Ref) (p : String) (l : Listbox)
    (h : w.heap[r]? = some (.listbox l)) :
    ∃ w1, Component.create r p w
        = .ok ((p ++ "." ++ Itoa (w.newId + 1), l.b.widget.flags), w1) := by
  simp only [Component.create, h, Listbox.create, widget.create, genNextId]
  exact ⟨_, rfl⟩

theorem Table_create_fields (w : World) (r : Ref) (p : String) (t : Table)
    (h : w.heap[r]? = some (.table t))
    (hd : t.data.all (fun row => !row.isEmpty) = true) :
    ∃ w1, Component.create r p w
        = .ok ((p ++ "." ++ Itoa (w.newId + 1), t.b.widget.flags), w1) := by
  simp only [Component.create, h, Table.create, widget.create, genNextId]
  split
  · rename_i e heq
    exact absurd heq (insertRows_ne_error _ _ _ e hd)
  · exact ⟨_, rfl⟩

theorem alloc_get (w : World) (o : Obj) : (w.alloc o).2.heap[(w.alloc o).1]? = some o := by
  simp [World.alloc]

theorem alloc_get_old (w : World) (o : Obj) (x : Ref) (y : Obj) (h : w.heap[x]? = some y) :
    (w.alloc o).2.heap[x]? = some y ∧ x ≠ (w.alloc o).1 := by
  obtain ⟨hlt, _⟩ := heap_getElem_of_get w x y h
  constructor
  · simp only [World.alloc]
    rw [List.getElem?_append_left hlt]
    exact h
  · simp only [World.alloc]
    exact Nat.ne_of_lt hlt

theorem or_Expand_and (f : Nat) : (f ||| Expand) &&& Expand ≠ 0 := by
  intro h
  have h1 := congrArg (fun n => n.testBit 1) h
  have h2 : Nat.testBit 2 1 = true := by decide
  simp [Expand, h2] at h1

theorem and_Expand_cases (f : Nat) : f &&& Expand = 0 ∨ f &&& Expand = Expand := by
  have h : Expand = 2 ^ 1 := rfl
  rw [h, Nat.and_two_pow]
  cases f.testBit 1 <;> simp

/-- A Box places a single child whose create returns flags with Expand. -/
theorem Box_Add_single_expand (w : World) (b c : Ref) (bx : Box) (newId : String)
    (flags : Nat) (w1 : World) (hb : (w.heap[b]?).bind Obj.Box? = some bx)
    (hc : Component.create c bx.widget.id w = .ok ((newId, flags), w1))
    (he : flags &&& Expand ≠ 0) :
    ∃ w2, Box.Add b [some c] w = .ok w2 ∧
      w2.log.getLast? = some ("pack " ++ newId ++ " -padx 1 -pady 1" ++
        ((if bx.widget.flags &&& Horizontal ≠ 0 then " -side left" else "") ++
          " -fill both -expand yes")) := by
  have hs := Box_addOne_step w b c bx newId flags w1 hb hc
  simp only [he, ne_eq, not_false_eq_true, if_true] at hs
  refine ⟨_, by simp only [Box.Add, Box.addLoop, hs]; rfl, ?_⟩
  simp [String.append_assoc]

/-- A Splitter adds a single child, which is not the splitter itself and whose
create returns flags with Expand. -/
theorem Splitter_Add_single_expand (w : World) (s c : Ref) (sp : Splitter) (newId : String)
    (flags : Nat) (w1 : World) (hs : w.heap[s]? = some (.splitter sp))
    (hc : Component.create c sp.widget.id w = .ok ((newId, flags), w1))
    (hkeep : w1.heap[s]? = w.heap[s]?)
    (he : flags &&& Expand ≠ 0) :
    ∃ w2, Splitter.Add s [some c] w = .ok w2 ∧
      w2.log.getLast? = some (sp.widget.id ++ " add " ++ newId ++ " -weight 1") := by
  have hs1 : w1.heap[s]? = some (.splitter sp) := by rw [hkeep, hs]
  have hstep : Splitter.addOne s (some c) w
      = .ok (eval (sp.widget.id ++ " add " ++ newId ++ " -weight 1") w1).2 := by
    simp only [Splitter.addOne, hs, hc, hs1]
    congr 3
    simp [he]
  refine ⟨_, by simp only [Splitter.Add, hstep]; rfl, ?_⟩
  simp

/-- C16, amended. The flags that create returns are those of the inner viewport
Box: for every flags value `f`, create on the struct of `NewTree(f)` and of
`NewText(text, f)` returns `f | Expand`, in which Expand is set, and create on
the struct of `NewListbox(list, f)` and of `NewTable(data, f)`, the latter
provided every row of `data` has an element, returns `f & Expand`, which is
either no flag or Expand alone.  So a Box places a Tree or a Text with
`-fill both -expand yes` and a Splitter adds it with `-weight 1`, whatever `f`
is. -/
theorem scrolled_create_flags (w : World) (f : Nat) (p text : String) (list : List String)
    (data : List (List String)) (hd : data.all (fun row => !row.isEmpty) = true) :
    (∃ path w1, Component.create (NewTree f w).1 p (NewTree f w).2
        = .ok ((path, f ||| Expand), w1)) ∧
    (∃ path w1, Component.create (NewText text f w).1 p (NewText text f w).2
        = .ok ((path, f ||| Expand), w1)) ∧
    (∃ path w1, Component.create (NewListbox list f w).1 p (NewListbox list f w).2
        = .ok ((path, f &&& Expand), w1)) ∧
    (∃ path w1, Component.create (NewTable data f w).1 p (NewTable data f w).2
        = .ok ((path, f &&& Expand), w1)) ∧
    (f ||| Expand) &&& Expand ≠ 0 ∧
    (f &&& Expand = 0 ∨ f &&& Expand = Expand) ∧
    (∀ b bx, (w.heap[b]?).bind Obj.Box? = some bx →
      (∃ path w2, Box.Add b [some (NewTree f w).1] (NewTree f w).2 = .ok w2 ∧
        w2.log.getLast? = some ("pack " ++ path ++ " -padx 1 -pady 1" ++
          ((if bx.widget.flags &&& Horizontal ≠ 0 then " -side left" else "") ++
            " -fill both -expand yes"))) ∧
      (∃ path w2, Box.Add b [some (NewText text f w).1] (NewText text f w).2 = .ok w2 ∧
        w2.log.getLast? = some ("pack " ++ path ++ " -padx 1 -pady 1" ++
          ((if bx.widget.flags &&& Horizontal ≠ 0 then " -side left" else "") ++
            " -fill both -expand yes")))) ∧
    (∀ s sp, w.heap[s]? = some (.splitter sp) →
      (∃ path w2, Splitter.Add s [some (NewTree f w).1] (NewTree f w).2 = .ok w2 ∧
        w2.log.getLast? = some (sp.widget.id ++ " add " ++ path ++ " -weight 1")) ∧
      (∃ path w2, Splitter.Add s [some (NewText text f w).1] (NewText text f w).2 = .ok w2 ∧
        w2.log.getLast? = some (sp.widget.id ++ " add " ++ path ++ " -weight 1"))) := by
  have htree : (NewTree f w).2.heap[(NewTree f w).1]?
      = some (.tree ⟨⟨"", "ttk::treeview", " -show tree", f⟩, Box.new (f ||| Expand)⟩) :=
    alloc_get _ _
  have htext : (NewText text f w).2.heap[(NewText text f w).1]?
      = some (.text ⟨⟨"", "text", " -wrap word -width 20 -height 5", f⟩,
          Box.new (f ||| Expand), text⟩) :=
    alloc_get _ _
  have hlist : (NewListbox list f w).2.heap[(NewListbox list f w).1]?
      = some (.listbox ⟨⟨"", "listbox", " -listvariable " ++ Itoa (w.newId + 1), f⟩,
          Box.new (f &&& Expand), list, Itoa (w.newId + 1)⟩) := by
    simp [NewListbox, genNextId, World.alloc]
  have htable : (NewTable data f w).2.heap[(NewTable data f w).1]?
      = some (.table ⟨⟨"", "ttk::treeview", " -displaycolumns #all -show headings", f⟩,
          Box.new (f &&& Expand), data⟩) :=
    alloc_get _ _
  refine ⟨?_, ?_, ?_, ?_, or_Expand_and f, and_Expand_cases f, ?_, ?_⟩
  · obtain ⟨w1, h1, _⟩ := Tree_create_fields _ _ p _ htree
    exact ⟨_, w1, h1⟩
  · obtain ⟨w1, h1, _⟩ := Text_create_fields _ _ p _ htext
    exact ⟨_, w1, h1⟩
  · obtain ⟨w1, h1⟩ := Listbox_create_fields _ _ p _ hlist
    exact ⟨_, w1, h1⟩
  · obtain ⟨w1, h1⟩ := Table_create_fields _ _ p _ htable hd
    exact ⟨_, w1, h1⟩
  · intro b bx hb
    have hb1 : ((NewTree f w).2.heap[b]?).bind Obj.Box? = some bx := by
      cases ho : w.heap[b]? with
      | none => rw [ho] at hb; simp at hb
      | some o =>
        have h1 : (NewTree f w).2.heap[b]? = some o := (alloc_get_old w _ b o ho).1
        rw [h1]; rw [ho] at hb; exact hb
    have hb2 : ((NewText text f w).2.heap[b]?).bind Obj.Box? = some bx := by
      cases ho : w.heap[b]? with
      | none => rw [ho] at hb; simp at hb
      | some o =>
        have h1 : (NewText text f w).2.heap[b]? = some o := (alloc_get_old w _ b o ho).1
        rw [h1]; rw [ho] at hb; exact hb
    constructor
    · obtain ⟨w1, h1, _⟩ := Tree_create_fields _ _ bx.widget.id _ htree
      obtain ⟨w2, h2, h3⟩ := Box_Add_single_expand _ b _ bx _ _ w1 hb1 h1 (or_Expand_and f)
      exact ⟨_, w2, h2, h3⟩
    · obtain ⟨w1, h1, _⟩ := Text_create_fields _ _ bx.widget.id _ htext
      obtain ⟨w2, h2, h3⟩ := Box_Add_single_expand _ b _ bx _ _ w1 hb2 h1 (or_Expand_and f)
      exact ⟨_, w2, h2, h3⟩
  · intro s sp hs
    constructor
    · obtain ⟨hs1, hne⟩ := alloc_get_old w
        (.tree ⟨⟨"", "ttk::treeview", " -show tree", f⟩, Box.new (f ||| Expand)⟩) s _ hs
      obtain ⟨w1, h1, hk⟩ := Tree_create_fields _ _ sp.widget.id _ htree
      obtain ⟨w2, h2, h3⟩ := Splitter_Add_single_expand _ s _ sp _ _ w1 hs1 h1 (hk s hne)
        (or_Expand_and f)
      exact ⟨_, w2, h2, h3⟩
    · obtain ⟨hs1, hne⟩ := alloc_get_old w
        (.text ⟨⟨"", "text", " -wrap word -width 20 -height 5", f⟩,
          Box.new (f ||| Expand), text⟩) s _ hs
      obtain ⟨w1, h1, hk⟩ := Text_create_fields _ _ sp.widget.id _ htext
      obtain ⟨w2, h2, h3⟩ := Splitter_Add_single_expand _ s _ sp _ _ w1 hs1 h1 (hk s hne)
        (or_Expand_and f)
      exact ⟨_, w2, h2, h3⟩

theorem scrolled_create_flags_witness :
    (∃ path w1, Component.create 0 ".1" demoTableScroll = .ok ((path, 0), w1)) ∧
    (∃ path w1, Component.create (NewTree ScrollY World.demo).1 ".1" (NewTree ScrollY World.demo).2
        = .ok ((path, ScrollY ||| Expand), w1)) :=
  ⟨(scrolled_create_flags World.demo ScrollY ".1" "" [] [["a", "1"], ["b"]] rfl).2.2.2.1,
   (scrolled_create_flags World.demo ScrollY ".1" "" [] [["a", "1"], ["b"]] rfl).1⟩

/-- C16 as stated fails for a Table: create on the struct of
`NewTable([][]string{{"a", "1"}, {}}, Expand)` faults at the second row and
returns no flags. -/
theorem NewTable_create_returns_no_flags :
    demoTableGap = (NewTable [["a", "1"], []] Expand World.demo).2 ∧
    (NewTable [["a", "1"], []] Expand World.demo).1 = 0 ∧
    Component.create 0 ".1" demoTableGap = .error .indexOutOfRange :=
  ⟨rfl, rfl, rfl⟩

/-! ### The GetSelection family -/

/-- What `Listbox.GetSelection` returns, from the two replies of the
interpreter: the sentinel `(-1, "")` when either script fails. -/
theorem Listbox_GetSelection_value (w : World) (l : Ref) (lb : Listbox)
    (h : w.heap[l]? = some (.listbox lb)) :
    (Listbox.GetSelection l w).map Prod.fst = .ok
      (if (w.tcl (w.log ++ [lb.widget.id ++ " curselection"])).ok = true then
        if (w.tcl (w.log ++ [lb.widget.id ++ " curselection"])).text = "" then (-1, "")
        else if (w.tcl (w.log ++ [lb.widget.id ++ " curselection", lb.widget.id ++ " get "
            ++ (w.tcl (w.log ++ [lb.widget.id ++ " curselection"])).text])).ok = true then
          (Atoi (w.tcl (w.log ++ [lb.widget.id ++ " curselection"])).text,
            (w.tcl (w.log ++ [lb.widget.id ++ " curselection", lb.widget.id ++ " get "
              ++ (w.tcl (w.log ++ [lb.widget.id ++ " curselection"])).text])).text)
        else (-1, "")
      else (-1, "")) := by
  by_cases h1 : (w.tcl (w.log ++ [lb.widget.id ++ " curselection"])).ok = true
  · by_cases hs : (w.tcl (w.log ++ [lb.widget.id ++ " curselection"])).text = ""
    · simp [Listbox.GetSelection, h, eval, result, h1, hs, Except.map]
    · by_cases h2 : (w.tcl (w.log ++ [lb.widget.id ++ " curselection", lb.widget.id ++ " get "
            ++ (w.tcl (w.log ++ [lb.widget.id ++ " curselection"])).text])).ok = true
      · simp [Listbox.GetSelection, h, eval, result, h1, hs, h2, Except.map]
      · simp [Listbox.GetSelection, h, eval, result, h1, hs, h2, Except.map]
  · simp [Listbox.GetSelection, h, eval, result, h1, Except.map]

/-- What `Combobox.GetSelection` returns: the sentinel `(-1, "")` when either
script fails. -/
theorem Combobox_GetSelection_value (w : World) (c : Ref) (cb : Combobox)
    (h : w.heap[c]? = some (.combobox cb)) :
    (Combobox.GetSelection c w).map Prod.fst = .ok
      (if (w.tcl (w.log ++ [cb.widget.id ++ " current"])).ok = true then
        if (w.tcl (w.log ++ [cb.widget.id ++ " current"])).text = "" then (-1, "")
        else if (w.tcl (w.log ++ [cb.widget.id ++ " current", cb.widget.id ++ " get"])).ok
            = true then
          (Atoi (w.tcl (w.log ++ [cb.widget.id ++ " current"])).text,
            (w.tcl (w.log ++ [cb.widget.id ++ " current", cb.widget.id ++ " get"])).text)
        else (-1, "")
      else (-1, "")) := by
  by_cases h1 : (w.tcl (w.log ++ [cb.widget.id ++ " current"])).ok = true
  · by_cases hs : (w.tcl (w.log ++ [cb.widget.id ++ " current"])).text = ""
    · simp [Combobox.GetSelection, h, eval, result, h1, hs, Except.map]
    · by_cases h2 : (w.tcl (w.log ++ [cb.widget.id ++ " current", cb.widget.id ++ " get"])).ok = true
      · simp [Combobox.GetSelection, h, eval, result, h1, hs, h2, Except.map, Println]
      · simp [Combobox.GetSelection, h, eval, result, h1, hs, h2, Except.map, Println]
  · simp [Combobox.GetSelection, h, eval, result, h1, Except.map]

/-- What `Tree.GetSelection` returns: an empty value when either script
fails. -/
theorem Tree_GetSelection_value (w : World) (t : Ref) (tr : Tree)
    (h : w.heap[t]? = some (.tree tr)) :
    (Tree.GetSelection t w).map Prod.fst = .ok
      (if (w.tcl (w.log ++ [tr.widget.id ++ " selection"])).ok = true then
        if (w.tcl (w.log ++ [tr.widget.id ++ " selection"])).text = "" then ("", "")
        else if (w.tcl (w.log ++ [tr.widget.id ++ " selection", tr.widget.id ++ " item "
            ++ (w.tcl (w.log ++ [tr.widget.id ++ " selection"])).text ++ " -values"])).ok
            = true then
          ((w.tcl (w.log ++ [tr.widget.id ++ " selection"])).text,
            (w.tcl (w.log ++ [tr.widget.id ++ " selection", tr.widget.id ++ " item "
              ++ (w.tcl (w.log ++ [tr.widget.id ++ " selection"])).text ++ " -values"])).text)
        else ((w.tcl (w.log ++ [tr.widget.id ++ " selection"])).text, "")
      else ("", "")) := by
  by_cases h1 : (w.tcl (w.log ++ [tr.widget.id ++ " selection"])).ok = true
  · by_cases hs : (w.tcl (w.log ++ [tr.widget.id ++ " selection"])).text = ""
    · simp [Tree.GetSelection, h, eval, result, h1, hs, Except.map]
    · by_cases h2 : (w.tcl (w.log ++ [tr.widget.id ++ " selection", tr.widget.id ++ " item "
            ++ (w.tcl (w.log ++ [tr.widget.id ++ " selection"])).text ++ " -values"])).ok = true
      · simp [Tree.GetSelection, h, eval, result, h1, hs, h2, Except.map]
      · simp [Tree.GetSelection, h, eval, result, h1, hs, h2, Except.map]
  · simp [Tree.GetSelection, h, eval, result, h1, Except.map]

/-- What `Notebook.GetSelection` returns: an empty value when either script
fails. -/
theorem Notebook_GetSelection_value (w : World) (n : Ref) (nb : Notebook)
    (h : w.heap[n]? = some (.notebook nb)) :
    (Notebook.GetSelection n w).map Prod.fst = .ok
      (if (w.tcl (w.log ++ [nb.widget.id ++ " select"])).ok = true then
        if (w.tcl (w.log ++ [nb.widget.id ++ " select", nb.widget.id ++ " tab "
            ++ (w.tcl (w.log ++ [nb.widget.id ++ " select"])).text ++ " -text"])).ok
            = true then
          ((w.tcl (w.log ++ [nb.widget.id ++ " select"])).text,
            (w.tcl (w.log ++ [nb.widget.id ++ " select", nb.widget.id ++ " tab "
              ++ (w.tcl (w.log ++ [nb.widget.id ++ " select"])).text ++ " -text"])).text)
        else ((w.tcl (w.log ++ [nb.widget.id ++ " select"])).text, "")
      else ("", "")) := by
  by_cases h1 : (w.tcl (w.log ++ [nb.widget.id ++ " select"])).ok = true
  · by_cases h2 : (w.tcl (w.log ++ [nb.widget.id ++ " select", nb.widget.id ++ " tab "
          ++ (w.tcl (w.log ++ [nb.widget.id ++ " select"])).text ++ " -text"])).ok = true
    · simp [Notebook.GetSelection, h, eval, result, h1, h2, Except.map]
    · simp [Notebook.GetSelection, h, eval, result, h1, h2, Except.map]
  · simp [Notebook.GetSelection, h, eval, result, h1, Except.map]

/-- What `Table.GetSelection` returns: once the first script has given a
selection, the value is the reply to the second script, also when that script
fails. -/
theorem Table_GetSelection_value (w : World) (t : Ref) (tb : Table)
    (h : w.heap[t]? = some (.table tb)) :
    (Table.GetSelection t w).map Prod.fst = .ok
      (if (w.tcl (w.log ++ [tb.widget.id ++ " selection"])).ok = true then
        if (w.tcl (w.log ++ [tb.widget.id ++ " selection"])).text = "" then ("", "")
        else
          ((w.tcl (w.log ++ [tb.widget.id ++ " selection"])).text,
            (w.tcl (w.log ++ [tb.widget.id ++ " selection", tb.widget.id ++ " item "
              ++ (w.tcl (w.log ++ [tb.widget.id ++ " selection"])).text ++ " -values"])).text)
      else ("", "")) := by
  by_cases h1 : (w.tcl (w.log ++ [tb.widget.id ++ " selection"])).ok = true
  · by_cases hs : (w.tcl (w.log ++ [tb.widget.id ++ " selection"])).text = ""
    · simp [Table.GetSelection, h, eval, result, h1, hs, Except.map]
    · by_cases h2 : (w.tcl (w.log ++ [tb.widget.id ++ " selection", tb.widget.id ++ " item "
            ++ (w.tcl (w.log ++ [tb.widget.id ++ " selection"])).text ++ " -values"])).ok = true
      · simp [Table.GetSelection, h, eval, result, h1, hs, h2, Except.map]
      · simp [Table.GetSelection, h, eval, result, h1, hs, h2, Except.map]
  · simp [Table.GetSelection, h, eval, result, h1, Except.map]

/-- C14. The code at the failing input: the interpreter gives the selection
`r1` and then fails `.1.2 item r1 -values` with the message `no such item`.
`Table.GetSelection` returns that message as the selected value, where the
claim has the empty string; `Tree.GetSelection`, in the same situation, returns
the empty value. -/
theorem Table_GetSelection_returns_error_text :
    demoTableSel.tcl (demoTableSel.log ++ [".1.2 selection"]) = ⟨true, "r1"⟩ ∧
    demoTableSel.tcl (demoTableSel.log ++ [".1.2 selection", ".1.2 item r1 -values"])
      = ⟨false, "no such item"⟩ ∧
    (Table.GetSelection 0 demoTableSel).map Prod.fst = .ok ("r1", "no such item") ∧
    (Table.GetSelection 0 demoTableSel).map (fun x => x.2.log)
      = .ok (demoTableSel.log ++ [".1.2 selection", ".1.2 item r1 -values"]) ∧
    (Tree.GetSelection 1 demoTableSel).map Prod.fst = .ok ("r1", "") :=
  ⟨rfl, rfl, rfl, rfl, rfl⟩

/-! ### Add on simple leaves -/

theorem leaf_frame (o : Obj) : o.frame.leaf? = o.leaf? := by
  cases o <;> simp [Obj.frame, Obj.leaf?, widget.frame]

theorem leaf_not_Box (o : Obj) (wd : Tg.widget) (h : o.leaf? = some wd) : o.Box? = none := by
  cases o <;> simp [Obj.leaf?] at h <;> simp [Obj.Box?]

theorem Extends.leaf {w w1 : World} (hx : Extends w w1) (x : Ref) :
    (w1.heap[x]?).bind Obj.leaf? = (w.heap[x]?).bind Obj.leaf? := by
  have hf := hx.1 x
  cases h1 : w1.heap[x]? with
  | none =>
    rw [h1] at hf
    cases h0 : w.heap[x]? with
    | none => rfl
    | some o => rw [h0] at hf; simp at hf
  | some o1 =>
    rw [h1] at hf
    cases h0 : w.heap[x]? with
    | none => rw [h0] at hf; simp at hf
    | some o =>
      rw [h0] at hf
      simp only [Option.map_some', Option.some.injEq] at hf
      simp only [Option.some_bind]
      rw [← leaf_frame o1, ← leaf_frame o, hf]

theorem leafWidgets_extends {w w1 : World} (hx : Extends w w1) (refs : List Ref) :
    leafWidgets w1 refs = leafWidgets w refs := by
  unfold leafWidgets
  congr 1
  funext r
  exact hx.leaf r

/-- The create of a Label or a Button: what it returns and what it changes. -/
theorem leaf_create_fields (w : World) (r : Ref) (p : String) (wd : Tg.widget)
    (h : (w.heap[r]?).bind Obj.leaf? = some wd) :
    ∃ w1, Component.create r p w = .ok ((p ++ "." ++ Itoa (w.newId + 1), wd.flags), w1) ∧
      w1.log = w.log ++ [wd.name ++ " " ++ (p ++ "." ++ Itoa (w.newId + 1)) ++ " "
        ++ wd.initParam] ∧
      w1.newId = w.newId + 1 ∧
      (∀ x, x ≠ r → w1.heap[x]? = w.heap[x]?) := by
  cases ho : w.heap[r]? with
  | none => rw [ho] at h; simp at h
  | some o =>
    rw [ho] at h
    cases o <;> simp [Obj.leaf?] at h
    · subst h
      simp only [Component.create, ho, Label.create, widget.create, genNextId]
      refine ⟨_, rfl, by simp [World.store, widget.frame], by simp [World.store], ?_⟩
      intro x hx
      simp [World.store, List.getElem?_set, Ne.symm hx]
    · subst h
      simp only [Component.create, ho, Button.create, widget.create, genNextId]
      refine ⟨_, rfl, by simp [World.store, widget.frame], by simp [World.store], ?_⟩
      intro x hx
      simp [World.store, List.getElem?_set, Ne.symm hx]

theorem leafWidgets_cons (w : World) (r : Ref) (rest : List Ref) (wd : Tg.widget)
    (h : (w.heap[r]?).bind Obj.leaf? = some wd) :
    leafWidgets w (r :: rest) = wd :: leafWidgets w rest := by
  simp [leafWidgets, List.filterMap_cons, h]

theorem leaf_ne_Box (w : World) (b r : Ref) (bx : Box) (wd : Tg.widget)
    (hb : (w.heap[b]?).bind Obj.Box? = some bx) (hr : (w.heap[r]?).bind Obj.leaf? = some wd) :
    b ≠ r := by
  intro e
  subst e
  cases ho : w.heap[b]? with
  | none => rw [ho] at hb; simp at hb
  | some o =>
    rw [ho] at hb hr
    simp only [Option.some_bind] at hb hr
    rw [leaf_not_Box o wd hr] at hb
    cases hb

/-- `Box.Add` on Labels and Buttons returns and sends the expected scripts. -/
theorem Box_Add_leaves (b : Ref) (bx : Box) : ∀ (refs : List Ref) (w : World),
    (w.heap[b]?).bind Obj.Box? = some bx →
    (∀ r ∈ refs, ((w.heap[r]?).bind Obj.leaf?).isSome = true) →
    ∃ w1, Box.Add b (refs.map some) w = .ok w1 ∧
      w1.log = w.log ++
        Box.AddScript bx.widget.id bx.widget.flags w.newId (leafWidgets w refs) := by
  intro refs
  induction refs with
  | nil =>
    intro w _ _
    exact ⟨w, rfl, by simp [leafWidgets, Box.AddScript]⟩
  | cons r rest ih =>
    intro w hb hk
    obtain ⟨wd, hwd⟩ := Option.isSome_iff_exists.mp (hk r (List.mem_cons_self _ _))
    obtain ⟨w1, hc, hlog1, hid1, hkeep⟩ := leaf_create_fields w r bx.widget.id wd hwd
    obtain ⟨w2, hadd, hlog2, hheap2, hid2⟩ := Box_addOne_fields w b r bx _ _ w1 hb hc
    have hx2 : Extends w w2 := Box_addOne_extends Component.create create_extends b _ w w2 hadd
    have hbr : b ≠ r := leaf_ne_Box w b r bx wd hb hwd
    have hb2 : (w2.heap[b]?).bind Obj.Box? = some bx := by
      rw [hheap2, hkeep b hbr]; exact hb
    have hk2 : ∀ x ∈ rest, ((w2.heap[x]?).bind Obj.leaf?).isSome = true := by
      intro x hx
      rw [hx2.leaf]
      exact hk x (List.mem_cons_of_mem _ hx)
    obtain ⟨w3, h3, hlog3⟩ := ih w2 hb2 hk2
    refine ⟨w3, ?_, ?_⟩
    · simp only [List.map_cons, Box.Add, Box.addLoop, hadd]
      exact h3
    · rw [hlog3, hlog2, hlog1, leafWidgets_extends hx2, hid2, hid1, leafWidgets_cons w r rest wd hwd]
      simp [Box.AddScript]

/-- One round of `Splitter.Add` for a Label or a Button. -/
theorem Splitter_addOne_leaf (w : World) (s r : Ref) (sp : Splitter) (wd : Tg.widget)
    (hs : w.heap[s]? = some (.splitter sp)) (hr : (w.heap[r]?).bind Obj.leaf? = some wd) :
    ∃ w2, Splitter.addOne s (some r) w = .ok w2 ∧
      w2.log = w.log ++
        [wd.name ++ " " ++ (sp.widget.id ++ "." ++ Itoa (w.newId + 1)) ++ " " ++ wd.initParam,
         sp.widget.id ++ " add " ++ (sp.widget.id ++ "." ++ Itoa (w.newId + 1)) ++
          (if wd.flags &&& Expand ≠ 0 then " -weight 1" else " -weight 0")] ∧
      w2.newId = w.newId + 1 ∧ w2.heap[s]? = some (.splitter sp) := by
  obtain ⟨w1, hc, hlog1, hid1, hkeep⟩ := leaf_create_fields w r sp.widget.id wd hr
  have hsr : s ≠ r := by
    intro e
    subst e
    rw [hs] at hr
    simp [Obj.leaf?] at hr
  have hs1 : w1.heap[s]? = some (.splitter sp) := by rw [hkeep s hsr, hs]
  have hstep : Splitter.addOne s (some r) w
      = .ok (eval (sp.widget.id ++ " add " ++ (sp.widget.id ++ "." ++ Itoa (w.newId + 1)) ++
          (if wd.flags &&& Expand ≠ 0 then " -weight 1" else " -weight 0")) w1).2 := by
    simp only [Splitter.addOne, hs, hc, hs1]
    congr 3
    by_cases h2 : wd.flags &&& Expand = 0 <;> simp [h2]
  refine ⟨_, hstep, ?_, ?_, ?_⟩
  · simp [hlog1]
  · simp [hid1]
  · simp [hs1]

/-- `Splitter.Add` on Labels and Buttons returns and sends the expected
scripts. -/
theorem Splitter_Add_leaves (s : Ref) (sp : Splitter) : ∀ (refs : List Ref) (w : World),
    w.heap[s]? = some (.splitter sp) →
    (∀ r ∈ refs, ((w.heap[r]?).bind Obj.leaf?).isSome = true) →
    ∃ w1, Splitter.Add s (refs.map some) w = .ok w1 ∧
      w1.log = w.log ++ Splitter.AddScript sp.widget.id w.newId (leafWidgets w refs) := by
  intro refs
  induction refs with
  | nil =>
    intro w _ _
    exact ⟨w, rfl, by simp [leafWidgets, Splitter.AddScript]⟩
  | cons r rest ih =>
    intro w hs hk
    obtain ⟨wd, hwd⟩ := Option.isSome_iff_exists.mp (hk r (List.mem_cons_self _ _))
    obtain ⟨w2, hadd, hlog2, hid2, hs2⟩ := Splitter_addOne_leaf w s r sp wd hs hwd
    have hx2 : Extends w w2 := Splitter_addOne_extends s _ w w2 hadd
    have hk2 : ∀ x ∈ rest, ((w2.heap[x]?).bind Obj.leaf?).isSome = true := by
      intro x hx
      rw [hx2.leaf]
      exact hk x (List.mem_cons_of_mem _ hx)
    obtain ⟨w3, h3, hlog3⟩ := ih w2 hs2 hk2
    refine ⟨w3, ?_, ?_⟩
    · simp only [List.map_cons, Splitter.Add, hadd]
      exact h3
    · rw [hlog3, hlog2, leafWidgets_extends hx2, hid2, leafWidgets_cons w r rest wd hwd]
      simp [Splitter.AddScript]

theorem leafWidgets_congr {w w1 : World}
    (h : ∀ x : Ref, (w1.heap[x]?).bind Obj.leaf? = (w.heap[x]?).bind Obj.leaf?) (refs : List Ref) :
    leafWidgets w1 refs = leafWidgets w refs := by
  unfold leafWidgets
  congr 1
  funext r
  exact h r

theorem Grid_wrap_widget (gr : Grid) : gr.wrap.widget = gr.widget := by
  unfold Grid.wrap
  split <;> rfl

theorem store_grid_leaf (w : World) (g : Ref) (gr gr1 : Grid)
    (hg : w.heap[g]? = some (.grid gr)) (x : Ref) :
    ((w.store g (.grid gr1)).heap[x]?).bind Obj.leaf? = (w.heap[x]?).bind Obj.leaf? := by
  have hlt := heap_lt_of_get w g _ hg
  by_cases hx : g = x
  · subst hx
    simp [World.store, hlt, hg, Obj.leaf?]
  · simp [World.store, List.getElem?_set, hx]

/-- One round of `Grid.Add` for a Label or a Button. -/
theorem Grid_addOne_leaf (w : World) (g r : Ref) (gr : Grid) (wd : Tg.widget)
    (hg : w.heap[g]? = some (.grid gr)) (hr : (w.heap[r]?).bind Obj.leaf? = some wd) :
    ∃ w2, Grid.addOne g (some r) w = .ok w2 ∧
      w2.log = w.log ++
        ([wd.name ++ " " ++ (gr.widget.id ++ "." ++ Itoa (w.newId + 1)) ++ " " ++ wd.initParam,
          "grid " ++ (gr.widget.id ++ "." ++ Itoa (w.newId + 1)) ++ " -row " ++ fmtD gr.wrap.row
            ++ " -column " ++ fmtD gr.wrap.col ++ " -sticky news -padx 1 -pady 1"]
        ++ (if wd.flags &&& Expand ≠ 0 then
            ["grid rowconfigure " ++ gr.widget.id ++ " " ++ fmtD gr.wrap.row ++ " -weight 1",
             "grid columnconfigure " ++ gr.widget.id ++ " " ++ fmtD gr.wrap.col ++ " -weight 1"]
          else [])) ∧
      w2.newId = w.newId + 1 ∧
      w2.heap[g]? = some (.grid { gr.wrap with col := gr.wrap.col + 1 }) ∧
      (∀ x : Ref, (w2.heap[x]?).bind Obj.leaf? = (w.heap[x]?).bind Obj.leaf?) := by
  have hlt := heap_lt_of_get w g _ hg
  have hg0 : (w.store g (.grid gr.wrap)).heap[g]? = some (.grid gr.wrap) := by
    simp [World.store, hlt]
  have hr0 : ((w.store g (.grid gr.wrap)).heap[r]?).bind Obj.leaf? = some wd := by
    rw [store_grid_leaf w g gr gr.wrap hg]; exact hr
  have hgr : g ≠ r := by
    intro e
    subst e
    rw [hg] at hr
    simp [Obj.leaf?] at hr
  obtain ⟨w1, hc, hlog1, hid1, hkeep⟩ :=
    leaf_create_fields (w.store g (.grid gr.wrap)) r gr.wrap.widget.id wd hr0
  have hx1 := create_extends _ _ _ _ _ hc
  have hg1 : w1.heap[g]? = some (.grid gr.wrap) := by rw [hkeep g hgr]; exact hg0
  have hlt1 := heap_lt_of_get w1 g _ hg1
  have hleaf1 : ∀ x : Ref, (w1.heap[x]?).bind Obj.leaf? = (w.heap[x]?).bind Obj.leaf? := by
    intro x
    rw [hx1.leaf, store_grid_leaf w g gr gr.wrap hg]
  have hl0 : (w.store g (.grid gr.wrap)).log = w.log := rfl
  have hn0 : (w.store g (.grid gr.wrap)).newId = w.newId := rfl
  rw [hl0, hn0, Grid_wrap_widget] at hlog1
  rw [hn0] at hid1
  rw [hn0, Grid_wrap_widget] at hc
  by_cases he : wd.flags &&& Expand = 0
  · refine ⟨_, by simp only [Grid.addOne, hg, Grid.place, hg0, Grid_wrap_widget, hc, hg1, he,
      ne_eq, not_true_eq_false, decide_False, Bool.false_eq_true, if_false, eval_heap]; rfl,
      ?_, ?_, ?_, ?_⟩
    · simp [World.store, hlog1, he]
    · simp [World.store, hid1]
    · simp [World.store, hlt1, Grid_wrap_widget]
    · intro x
      rw [store_grid_leaf _ g gr.wrap _ (by simp [hg1])]
      simp [hleaf1]
  · refine ⟨_, by simp only [Grid.addOne, hg, Grid.place, hg0, Grid_wrap_widget, hc, hg1, he,
      ne_eq, not_false_eq_true, decide_True, if_true, eval_heap]; rfl,
      ?_, ?_, ?_, ?_⟩
    · simp [World.store, hlog1, he, Grid_wrap_widget]
    · simp [World.store, hid1]
    · simp [World.store, hlt1, Grid_wrap_widget]
    · intro x
      rw [store_grid_leaf _ g gr.wrap _ (by simp [hg1])]
      simp [hleaf1]

/-- `Grid.Add` on Labels and Buttons returns and sends the expected scripts. -/
theorem Grid_Add_leaves (g : Ref) : ∀ (refs : List Ref) (w : World) (gr : Grid),
    w.heap[g]? = some (.grid gr) →
    (∀ r ∈ refs, ((w.heap[r]?).bind Obj.leaf?).isSome = true) →
    ∃ w1, Grid.Add g (refs.map some) w = .ok w1 ∧
      w1.log = w.log ++ Grid.AddScript gr w.newId (leafWidgets w refs) := by
  intro refs
  induction refs with
  | nil =>
    intro w gr _ _
    exact ⟨w, rfl, by simp [leafWidgets, Grid.AddScript]⟩
  | cons r rest ih =>
    intro w gr hg hk
    obtain ⟨wd, hwd⟩ := Option.isSome_iff_exists.mp (hk r (List.mem_cons_self _ _))
    obtain ⟨w2, hadd, hlog2, hid2, hg2, hleaf2⟩ := Grid_addOne_leaf w g r gr wd hg hwd
    have hk2 : ∀ x ∈ rest, ((w2.heap[x]?).bind Obj.leaf?).isSome = true := by
      intro x hx
      rw [hleaf2]
      exact hk x (List.mem_cons_of_mem _ hx)
    obtain ⟨w3, h3, hlog3⟩ := ih w2 _ hg2 hk2
    refine ⟨w3, ?_, ?_⟩
    · simp only [List.map_cons, Grid.Add, hadd]
      exact h3
    · rw [hlog3, hlog2, leafWidgets_congr hleaf2, hid2, leafWidgets_cons w r rest wd hwd]
      simp [Grid.AddScript, Grid_wrap_widget]

/-- C13. For every Box, Splitter or Grid and every list of children that are
Labels or Buttons, `Add` returns and the scripts it sends are the expected
ones (`Box.AddScript`, `Splitter.AddScript`, `Grid.AddScript`: for each child in
order its creation, then its placement), whatever interpreter `tcl2` answers
them: the scripts are computed from the container, the children and the
identifier counter alone, so no failure the interpreter reports changes,
repeats or drops one. -/
theorem Add_scripts_ignore_replies (w : World) (tcl2 : List String → Reply) (refs : List Ref)
    (hk : ∀ r ∈ refs, ((w.heap[r]?).bind Obj.leaf?).isSome = true) :
    (∀ b bx, (w.heap[b]?).bind Obj.Box? = some bx →
      ∃ w1, Box.Add b (refs.map some) { w with tcl := tcl2 } = .ok w1 ∧
        w1.log = w.log ++
          Box.AddScript bx.widget.id bx.widget.flags w.newId (leafWidgets w refs)) ∧
    (∀ s sp, w.heap[s]? = some (.splitter sp) →
      ∃ w1, Splitter.Add s (refs.map some) { w with tcl := tcl2 } = .ok w1 ∧
        w1.log = w.log ++ Splitter.AddScript sp.widget.id w.newId (leafWidgets w refs)) ∧
    (∀ g gr, w.heap[g]? = some (.grid gr) →
      ∃ w1, Grid.Add g (refs.map some) { w with tcl := tcl2 } = .ok w1 ∧
        w1.log = w.log ++ Grid.AddScript gr w.newId (leafWidgets w refs)) :=
  ⟨fun b bx hb => Box_Add_leaves b bx refs { w with tcl := tcl2 } hb hk,
   fun s sp hs => Splitter_Add_leaves s sp refs { w with tcl := tcl2 } hs hk,
   fun g gr hg => Grid_Add_leaves g refs { w with tcl := tcl2 } gr hg hk⟩

theorem Add_scripts_ignore_replies_witness :
    (∃ w1, Box.Add 0 [some 1, some 1]
        { demoBoxLabel with tcl := fun _ => ⟨false, "boom"⟩ } = .ok w1 ∧
      w1.log = demoBoxLabel.log ++
        ["ttk::label .1.2  -text \"A\"",
         "pack .1.2 -padx 1 -pady 1 -side left -fill both -expand yes",
         "ttk::label .1.3  -text \"A\"",
         "pack .1.3 -padx 1 -pady 1 -side left -fill both -expand yes"]) ∧
    (∃ w1, Grid.Add 0 [some 1, some 2, some 3]
        { demoGrid with tcl := fun l => ⟨l.length % 2 = 0, "boom"⟩ } = .ok w1 ∧
      w1.log = demoGrid.log ++
        ["ttk::label .1.2  -text \"a\"",
         "grid .1.2 -row 0 -column 0 -sticky news -padx 1 -pady 1",
         "ttk::label .1.3  -text \"b\"",
         "grid .1.3 -row 0 -column 1 -sticky news -padx 1 -pady 1",
         "ttk::label .1.4  -text \"c\"",
         "grid .1.4 -row 1 -column 0 -sticky news -padx 1 -pady 1"]) := by
  constructor
  · obtain ⟨w1, h1, h2⟩ := (Add_scripts_ignore_replies demoBoxLabel
      (fun _ => ⟨false, "boom"⟩) [1, 1]
      (by intro r hr; simp at hr; subst hr; rfl)).1 0
      ⟨⟨".1", "ttk::frame", "", Horizontal⟩⟩ rfl
    exact ⟨w1, h1, by rw [h2]; rfl⟩
  · obtain ⟨w1, h1, h2⟩ := (Add_scripts_ignore_replies demoGrid
      (fun l => ⟨l.length % 2 = 0, "boom"⟩) [1, 2, 3]
      (by intro r hr; simp at hr; rcases hr with h | h | h <;> subst h <;> rfl)).2.2 0
      ⟨⟨".1", "ttk::frame", "", 0⟩, 2, 0, 0⟩ rfl
    exact ⟨w1, h1, by rw [h2]; rfl⟩

/-! ### Calendar.makeMonth -/

set_option maxRecDepth 100000

/-- C19. The code at the failing input, September 2024, whose first day is a
Sunday (`Weekday` 0, the seventh day when Monday is first).  The grid has the
names of the days in row 0, `Пн` (Monday) in column 0 and `Нд` (Sunday) in
column 6; the first date cell `.2.10` is in row 1, column 0, and the seventh,
`.2.22`, in column 6.  `makeMonth` writes the day 1 into the first cell, under
Monday, and the day 7 into the seventh, under Sunday: no cell is left blank,
where the claim has six blank cells and the day 1 in the seventh. -/
theorem makeMonth_month_starting_on_Sunday :
    Time.Weekday ⟨2024, 9, 1⟩ = 0 ∧
    (demoCalendar ⟨2024, 9, 15⟩).log.take 4 =
      ["ttk::label .1  -text \"\"", "ttk::frame .2 ", "ttk::label .2.3  -text \"Пн\"",
       "grid .2.3 -row 0 -column 0 -sticky news -padx 1 -pady 1"] ∧
    ((demoCalendar ⟨2024, 9, 15⟩).log.drop 14).take 4 =
      ["ttk::label .2.9  -text \"Нд\"",
       "grid .2.9 -row 0 -column 6 -sticky news -padx 1 -pady 1",
       "ttk::label .2.10  -text \" \"",
       "grid .2.10 -row 1 -column 0 -sticky news -padx 1 -pady 1"] ∧
    ((demoCalendar ⟨2024, 9, 15⟩).log.drop 52).take 2 =
      ["ttk::label .2.22  -text \" \"",
       "grid .2.22 -row 1 -column 6 -sticky news -padx 1 -pady 1"] ∧
    (Calendar.makeMonth 3 (demoCalendar ⟨2024, 9, 15⟩)).map
        (fun w => (w.log.drop (demoCalendar ⟨2024, 9, 15⟩).log.length).take 3) =
      .ok [".1 configure -text \"09.2024\"", ".2.10 configure -text \"1\"",
        ".2.10 configure -background gray"] ∧
    (Calendar.makeMonth 3 (demoCalendar ⟨2024, 9, 15⟩)).map
        (fun w => ((w.log.drop (demoCalendar ⟨2024, 9, 15⟩).log.length).drop 13).take 1) =
      .ok [".2.22 configure -text \"7\""] :=
  ⟨by decide, rfl, rfl, rfl, rfl, rfl⟩

end Tg
